import Mathlib

/-!
# bk-bcs: resource model of a `Version` and storage handlers of the watch

A shallow embedding of the resource-accounting functions of the scheduler's
`Version` type (bcs-scheduler/src/types/application.go):

* `CheckAndDefaultResource` (defaulting of missing resource limits),
* `CheckConstraints` (structural validation of the constraint tree),
* `AllCpus`, `AllMems`, `AllDisk`, `AllResource` (aggregation),

and of the handlers `AppHandler`, `EndpointHandler` and `ExpServiceHandler` of
bcs-mesos-watch/storage, which mirror entities into the storage service.

Conventions of the embedding

* A Go pointer `*T` is an `Option T`; `none` is the nil pointer.  Aliasing
  between two pointers is not represented (no function below compares
  pointers, and every write goes through the pointer it has just read).
* A function that dereferences a pointer returns an `Option`; `none` stands
  for the run-time panic of a nil dereference.
* `float64` is the type `F64` below: the IEEE-754 binary64 values with a
  single NaN, addition rounded to nearest, ties to even.
* Go strings are Lean strings.
-/

namespace BcsScheduler

/-! ## float64 -/

/-- The values of a Go `float64`.  Every finite binary64 number is an integer
multiple of `2^-1074` (the smallest subnormal), so a finite value is stored as
a sign and the natural number `n` with value `(-1)^neg * n * 2^-1074`.  The
number `n` of a real binary64 value has at most 53 significant bits and is
below `2^2098`, see `F64.valid`.  All NaNs are identified. -/
inductive F64 where
  | nan : F64
  | inf (neg : Bool) : F64
  | fin (neg : Bool) (n : Nat) : F64
  deriving DecidableEq, Repr

namespace F64

/-- Least `k` (counting up from the given `k`) with `n < 2^(2^k)`; `fuel`
bounds the search and `n` itself is always enough. -/
def bitLenUp : Nat → Nat → Nat → Nat
  | 0, _, k => k
  | fuel + 1, n, k => if n < 2 ^ (2 ^ k) then k else bitLenUp fuel n (k + 1)

/-- Binary search for the number of bits of `n < 2^(2^k)`, added to `acc`. -/
def bitLenDown : Nat → Nat → Nat → Nat
  | 0, n, acc => if n = 0 then acc else acc + 1
  | k + 1, n, acc =>
      if 2 ^ (2 ^ k) ≤ n then bitLenDown k (n / 2 ^ (2 ^ k)) (acc + 2 ^ k)
      else bitLenDown k n acc

/-- Number of bits of a natural number: `0` for `0`, and otherwise the `l`
with `2^(l-1) ≤ n < 2^l`. -/
def bitLen (n : Nat) : Nat := bitLenDown (bitLenUp n n 0) n 0

/-- The scale of the fixed-point representation: `1.0` is `fin false (2^1074)`. -/
def one_ulps : Nat := 2 ^ 1074

/-- First multiple of `2^-1074` that is too large for a binary64 (`2^1024`). -/
def overflow_ulps : Nat := 2 ^ 2098

/-- Round the non-negative rational `num / den` (counted in units of
`2^-1074`) to the nearest binary64, ties to even; a result of `2^1024` or more
overflows to infinity.  `den` must be positive. -/
def roundRat (neg : Bool) (num den : Nat) : F64 :=
  let d := bitLen (num / den) - 53
  let D := den * 2 ^ d
  let q := num / D
  let r := num % D
  let q1 := if 2 * r > D ∨ (2 * r = D ∧ q % 2 = 1) then q + 1 else q
  let n := q1 * 2 ^ d
  if n ≥ overflow_ulps then inf neg else fin neg n

/-- A `fin`/`inf`/`nan` term is a real binary64 value. -/
def valid : F64 → Bool
  | nan => true
  | inf _ => true
  | fin _ n => n < overflow_ulps && n % 2 ^ (bitLen n - 53) == 0

/-- The signed count of `2^-1074` units of a finite value. -/
def signed (neg : Bool) (n : Nat) : Int := if neg then - (n : Int) else (n : Int)

/-- IEEE-754 addition, round to nearest even.  The sum of two zeros is `-0`
only when both are `-0`; an exact zero sum of non-zero operands is `+0`. -/
def add : F64 → F64 → F64
  | nan, _ => nan
  | _, nan => nan
  | inf a, inf b => if a = b then inf a else nan
  | inf a, fin _ _ => inf a
  | fin _ _, inf b => inf b
  | fin a m, fin b n =>
      let s := signed a m + signed b n
      if s = 0 then fin (a && b) 0
      else roundRat (decide (s < 0)) s.natAbs 1

instance : Add F64 := ⟨add⟩

/-- The conversion `float64(i)` of an integer constant. -/
def ofInt (i : Int) : F64 := roundRat (decide (i < 0)) (i.natAbs * one_ulps) 1

/-- The comparison `x <= y` of Go (false when either side is NaN). -/
def le : F64 → F64 → Bool
  | nan, _ => false
  | _, nan => false
  | inf a, inf b => a || !b
  | inf a, fin _ _ => a
  | fin _ _, inf b => !b
  | fin a m, fin b n => decide (signed a m ≤ signed b n)

/-- Positive zero, the zero value of a `float64` variable. -/
def zero : F64 := fin false 0

/-- The comparison `x >= 0` of Go. -/
def nonneg (x : F64) : Bool := le zero x

end F64

/-! ## strconv

`strconv` is part of the Go standard library.  `ParseFloat` and `Itoa` follow
its documented contract: a well-formed literal is converted to the nearest
binary64, an overflow gives the signed infinity with `ErrRange`, anything else
gives `0` with `ErrSyntax`.  The grammar is the decimal one of the Go releases
of the time of this code (up to 1.12); the hexadecimal literals and the digit
separators `_` that later releases also accept are syntax errors here.
-/

/-- The error kinds of `strconv.NumError`. -/
inductive NumError where
  | ErrSyntax : NumError
  | ErrRange : NumError
  deriving DecidableEq, Repr

namespace strconv

/-- ASCII lower-casing used by `equalIgnoreCase`. -/
def lower (c : Char) : Char :=
  if 'A'.toNat ≤ c.toNat ∧ c.toNat ≤ 'Z'.toNat then Char.ofNat (c.toNat + 32) else c

/-- Case-insensitive (ASCII) comparison of two strings. -/
def equalIgnoreCase (s t : String) : Bool := s.data.map lower == t.data.map lower

/-- The named values accepted by `ParseFloat`: `inf`, `infinity` (optionally
signed) and `nan` (unsigned), in any letter case. -/
def special (s : String) : Option F64 :=
  match s.data with
  | [] => none
  | c :: _ =>
    if c = '+' then
      if equalIgnoreCase s "+inf" || equalIgnoreCase s "+infinity" then some (F64.inf false)
      else none
    else if c = '-' then
      if equalIgnoreCase s "-inf" || equalIgnoreCase s "-infinity" then some (F64.inf true)
      else none
    else if c = 'n' ∨ c = 'N' then
      if equalIgnoreCase s "nan" then some F64.nan else none
    else if c = 'i' ∨ c = 'I' then
      if equalIgnoreCase s "inf" || equalIgnoreCase s "infinity" then some (F64.inf false)
      else none
    else none

/-- The value of a decimal digit character, if it is one. -/
def digit (c : Char) : Option Nat :=
  if '0'.toNat ≤ c.toNat ∧ c.toNat ≤ '9'.toNat then some (c.toNat - '0'.toNat) else none

/-- The state of the mantissa scan: the digits read so far as a number, how
many of them came after the decimal point, and what has been seen. -/
structure Mantissa where
  mant : Nat
  frac : Nat
  sawdot : Bool
  sawdigits : Bool
  deriving DecidableEq, Repr

/-- Scan the digits and the decimal point of the mantissa.  Returns the state
and the unread rest of the input; a second decimal point is a syntax error
(`none`). -/
def readMantissa : List Char → Mantissa → Option (Mantissa × List Char)
  | [], m => some (m, [])
  | c :: cs, m =>
    if c = '.' then
      if m.sawdot then none else readMantissa cs { m with sawdot := true }
    else
      match digit c with
      | some d =>
          readMantissa cs
            { m with mant := m.mant * 10 + d, sawdigits := true,
                     frac := if m.sawdot then m.frac + 1 else m.frac }
      | none => some (m, c :: cs)

/-- Read the digits of the exponent; anything that is not a digit is a syntax
error, because the exponent must end the input. -/
def readExpDigits : List Char → Nat → Option Nat
  | [], e => some e
  | c :: cs, e =>
    match digit c with
    | some d => readExpDigits cs (e * 10 + d)
    | none => none

/-- Read what follows the mantissa: nothing, or `e`/`E`, an optional sign and
at least one digit.  The result is the decimal exponent. -/
def readExponent : List Char → Option Int
  | [] => some 0
  | c :: cs =>
    if c = 'e' ∨ c = 'E' then
      match cs with
      | [] => none
      | '+' :: ds => if ds = [] then none else (readExpDigits ds 0).map (fun e => (e : Int))
      | '-' :: ds => if ds = [] then none else (readExpDigits ds 0).map (fun e => - (e : Int))
      | ds => (readExpDigits ds 0).map (fun e => (e : Int))
    else none

/-- The nearest binary64 to `(-1)^neg * mant * 10^exp10`. -/
def decimalToF64 (neg : Bool) (mant : Nat) (exp10 : Int) : F64 :=
  if mant = 0 then F64.fin neg 0
  else
    match exp10 with
    | Int.ofNat k => F64.roundRat neg (mant * 10 ^ k * F64.one_ulps) 1
    | Int.negSucc k => F64.roundRat neg (mant * F64.one_ulps) (10 ^ (k + 1))

/-- Parse a decimal floating-point literal: optional sign, digits with at most
one decimal point (at least one digit), optional exponent. -/
def readDecimal (s : List Char) : Option (Bool × Nat × Int) :=
  let (neg, body) :=
    match s with
    | '+' :: cs => (false, cs)
    | '-' :: cs => (true, cs)
    | cs => (false, cs)
  match readMantissa body ⟨0, 0, false, false⟩ with
  | none => none
  | some (m, rest) =>
    if m.sawdigits then
      match readExponent rest with
      | none => none
      | some e => some (neg, m.mant, e - (m.frac : Int))
    else none

/-- The call `strconv.ParseFloat(s, 64)`: the value and the error.

The named values parse without error.  A string that is not a decimal
floating-point literal gives `0` and `ErrSyntax`.  A literal is converted to
the nearest binary64 (ties to even); when that overflows the result is the
signed infinity together with `ErrRange`. -/
def ParseFloat (s : String) : F64 × Option NumError :=
  match special s with
  | some v => (v, none)
  | none =>
    match readDecimal s.data with
    | none => (F64.zero, some NumError.ErrSyntax)
    | some (neg, mant, exp10) =>
      let f := decimalToF64 neg mant exp10
      match f with
      | F64.inf _ => (f, some NumError.ErrRange)
      | _ => (f, none)

/-- The call `strconv.Itoa(i)`: the decimal rendering of an integer. -/
def Itoa (i : Int) : String := toString i

end strconv

open strconv

/-! ## The data model -/

/-- Default CPU limit of a task (`CPUS_PER_TASK`). -/
def CPUS_PER_TASK : Int := 1
/-- Memory of the executor itself, in MB (`MEM_PER_EXECUTOR`). -/
def MEM_PER_EXECUTOR : Int := 64
/-- Default memory limit of a task, in MB (`MEM_PER_TASK`). -/
def MEM_PER_TASK : Int := 64
/-- Disk of the executor itself, in MB (`DISK_PER_EXECUTOR`). -/
def DISK_PER_EXECUTOR : Int := 64
/-- Default disk limit of a task, in MB (`DISK_PER_TASK`). -/
def DISK_PER_TASK : Int := 64

/-- Modelled from the spec: the constant `commtypes.BcsDataType_APP`, declared
in bcs-common outside the sources at hand; the `Kind` tag `APP`. -/
def BcsDataType_APP : String := "application"

/-- Modelled from the spec: the constant `commtypes.BcsDataType_PROCESS`,
declared in bcs-common outside the sources at hand; the `Kind` tag `PROCESS`. -/
def BcsDataType_PROCESS : String := "process"

/-- Resources needed by a task (`Resource`): CPU cores, and MB of memory and
disk. -/
structure Resource where
  Cpus : F64
  CPUSet : Int
  Mem : F64
  Disk : F64
  deriving DecidableEq, Repr

/-- A docker parameter (`Parameter`). -/
structure Parameter where
  Key : String
  Value : String
  deriving DecidableEq, Repr

/-- A port mapping of a container (`PortMapping`). -/
structure PortMapping where
  ContainerPort : Int
  HostPort : Int
  Name : String
  Protocol : String
  deriving DecidableEq, Repr

/-- A volume of a container (`Volume`). -/
structure Volume where
  ContainerPath : String
  HostPath : String
  Mode : String
  deriving DecidableEq, Repr

/-- The docker settings of a container (`Docker`); the `Env` map is a list of
key/value pairs. -/
structure Docker where
  Hostname : String
  ForcePullImage : Bool
  Image : String
  ImagePullUser : String
  ImagePullPasswd : String
  Network : String
  NetworkType : String
  Command : String
  Arguments : List String
  Parameters : List (Option Parameter)
  PortMappings : List (Option PortMapping)
  Env : List (String × String)
  Privileged : Bool
  deriving DecidableEq, Repr

/-- The process definition carried by a `DataClass` (`ProcDef`), without its
`Uris`, whose type is declared outside the sources at hand. -/
structure ProcDef where
  ProcName : String
  WorkPath : String
  PidFile : String
  StartCmd : String
  CheckCmd : String
  StopCmd : String
  RestartCmd : String
  ReloadCmd : String
  KillCmd : String
  LogPath : String
  CfgPath : String
  StartGracePeriod : Int
  deriving DecidableEq, Repr

/-- The data block of a container (`DataClass`).  `Msgs` and `NetLimit`, whose
types are declared outside the sources at hand, are left out; no function
below reads or writes them.  The zero value `&DataClass{}` has every field
nil. -/
structure DataClass where
  Resources : Option Resource := none
  LimitResources : Option Resource := none
  ProcInfo : Option ProcDef := none
  deriving DecidableEq, Repr

/-- A container of a `Version` (`Container`); `Type_` is the Go field `Type`.
`ConfigMaps`, `Secrets`,
`HealthChecks` and `NetLimit`, whose types are declared outside the sources at
hand, are left out; no function below reads or writes them. -/
structure Container where
  Type_ : String
  Docker : Option Docker
  Volumes : List (Option Volume)
  Resources : Option Resource
  LimitResoures : Option Resource
  DataClass : Option DataClass
  deriving DecidableEq, Repr

/-- Modelled from the spec: `commtypes.ResourceList`, declared in bcs-common
outside the sources at hand; the limits of a process as stored strings. -/
structure ResourceList where
  Cpu : String
  Mem : String
  Storage : String
  deriving DecidableEq, Repr

/-- Modelled from the spec: `commtypes.ResourceRequirements`, declared in
bcs-common outside the sources at hand. -/
structure ResourceRequirements where
  Limits : ResourceList
  Requests : ResourceList
  deriving DecidableEq, Repr

/-- Modelled from the spec: `commtypes.Process`, declared in bcs-common outside
the sources at hand.  The functions below touch `Resources.Limits` only;
`ProcName` stands for the identity of the process. -/
structure Process where
  ProcName : String
  Resources : ResourceRequirements
  deriving DecidableEq, Repr

/-- Modelled from the spec: `commtypes.ConstraintValue_Scalar`, declared in
bcs-common outside the sources at hand. -/
structure ConstraintValue_Scalar where
  Value : F64
  deriving DecidableEq, Repr

/-- Modelled from the spec: `commtypes.ConstraintValue_Range`, declared in
bcs-common outside the sources at hand. -/
structure ConstraintValue_Range where
  Begin : Nat
  End : Nat
  deriving DecidableEq, Repr

/-- Modelled from the spec: `commtypes.ConstraintValue_Text`, declared in
bcs-common outside the sources at hand. -/
structure ConstraintValue_Text where
  Value : String
  deriving DecidableEq, Repr

/-- Modelled from the spec: `commtypes.ConstraintValue_Set`, declared in
bcs-common outside the sources at hand. -/
structure ConstraintValue_Set where
  Item : List String
  deriving DecidableEq, Repr

/-- Modelled from the spec: the enumeration `commtypes.ConstraintValue_Type`,
declared in bcs-common outside the sources at hand: the declared type of a
union entry, with `UNKNOW` for every value that is none of the four named
ones. -/
inductive ConstraintValue_Type where
  | ConstValueType_UNKNOW
  | ConstValueType_Scalar
  | ConstValueType_Range
  | ConstValueType_Text
  | ConstValueType_Set
  deriving DecidableEq, Repr

export ConstraintValue_Type (ConstValueType_UNKNOW ConstValueType_Scalar
  ConstValueType_Range ConstValueType_Text ConstValueType_Set)

/-- Modelled from the spec: `commtypes.ConstraintData`, declared in bcs-common
outside the sources at hand: one union entry, its declared type (the Go field
`Type`) and the four payloads. -/
structure ConstraintData where
  Name : String
  Operate : String
  Type_ : ConstraintValue_Type
  Scalar : Option ConstraintValue_Scalar
  Ranges : List (Option ConstraintValue_Range)
  Text : Option ConstraintValue_Text
  Set : Option ConstraintValue_Set
  deriving DecidableEq, Repr

/-- Modelled from the spec: `commtypes.ConstraintDataItem`, declared in
bcs-common outside the sources at hand: one intersection item. -/
structure ConstraintDataItem where
  UnionData : List (Option ConstraintData)
  deriving DecidableEq, Repr

/-- Modelled from the spec: `commtypes.Constraint`, declared in bcs-common
outside the sources at hand: the constraint tree. -/
structure Constraint where
  IntersectionItem : List (Option ConstraintDataItem)
  deriving DecidableEq, Repr

/-- The run specification of an application or process group (`Version`).
`ObjectMeta`, `PodObjectMeta`, `KillPolicy`, `RestartPolicy` and `RawJson`,
whose types are declared outside the sources at hand, are left out; no
function below reads or writes them.  The `Labels` map is a list of key/value
pairs. -/
structure Version where
  ID : String
  Name : String
  Instances : Int
  RunAs : String
  Container : List (Option Container)
  Process : List (Option Process)
  Labels : List (String × String)
  Constraints : Option Constraint
  Uris : List String
  Ip : List String
  Mode : String
  Kind : String
  deriving DecidableEq, Repr

/-! ## CheckAndDefaultResource -/

/-- The body of the `PROCESS` loop of `CheckAndDefaultResource`: each of the
three limits that is the empty string is replaced by its default. -/
def defaultProcess (process : Process) : Process :=
  let cpu := if process.Resources.Limits.Cpu = "" then Itoa CPUS_PER_TASK
             else process.Resources.Limits.Cpu
  let mem := if process.Resources.Limits.Mem = "" then Itoa MEM_PER_TASK
             else process.Resources.Limits.Mem
  let storage := if process.Resources.Limits.Storage = "" then Itoa DISK_PER_TASK
                 else process.Resources.Limits.Storage
  { process with
    Resources := { process.Resources with Limits := ⟨cpu, mem, storage⟩ } }

/-- The resource block written for a container that has none. -/
def defaultResource : Resource :=
  { Cpus := F64.ofInt CPUS_PER_TASK, CPUSet := 0,
    Mem := F64.ofInt MEM_PER_TASK, Disk := F64.ofInt DISK_PER_TASK }

/-- The body of the `APP` loop of `CheckAndDefaultResource`: a nil `DataClass`
becomes `&DataClass{}`, then nil `Resources` become the default block. -/
def defaultContainer (container : Container) : Container :=
  let dataClass : DataClass :=
    match container.DataClass with
    | none => {}
    | some dc => dc
  let dataClass : DataClass :=
    match dataClass.Resources with
    | none => { dataClass with Resources := some defaultResource }
    | some _ => dataClass
  { container with DataClass := some dataClass }

/-- The `PROCESS` loop of `CheckAndDefaultResource`; a nil entry of the list
is dereferenced, which panics (`none`). -/
def defaultProcesses : List (Option Process) → Option (List (Option Process))
  | [] => some []
  | none :: _ => none
  | some process :: rest =>
      match defaultProcesses rest with
      | none => none
      | some rest1 => some (some (defaultProcess process) :: rest1)

/-- The `APP` loop of `CheckAndDefaultResource`; a nil entry of the list is
dereferenced, which panics (`none`). -/
def defaultContainers : List (Option Container) → Option (List (Option Container))
  | [] => some []
  | none :: _ => none
  | some container :: rest =>
      match defaultContainers rest with
      | none => none
      | some rest1 => some (some (defaultContainer container) :: rest1)

/-- `Version.CheckAndDefaultResource`: the `Version` after the call, or `none`
when the call panics.  The Go function returns the nil error on every path, so
the error result is not represented. -/
def CheckAndDefaultResource (version : Version) : Option Version :=
  if version.Kind = BcsDataType_PROCESS then
    match defaultProcesses version.Process with
    | none => none
    | some ps => some { version with Process := ps }
  else if version.Kind = BcsDataType_APP ∨ version.Kind = "" then
    match defaultContainers version.Container with
    | none => none
    | some cs => some { version with Container := cs }
  else some version

/-! ## CheckConstraints -/

/-- The loop over `oneData.Ranges`: `false` when some listed range is nil. -/
def checkRanges : List (Option ConstraintValue_Range) → Bool
  | [] => true
  | none :: _ => false
  | some _ :: rest => checkRanges rest

/-- The four checks made on one union entry; `false` is the `return false`. -/
def checkOneData (oneData : ConstraintData) : Bool :=
  if oneData.Type_ = ConstValueType_Scalar ∧ oneData.Scalar = none then false
  else if oneData.Type_ = ConstValueType_Text ∧ oneData.Text = none then false
  else if oneData.Type_ = ConstValueType_Set ∧ oneData.Set = none then false
  else if oneData.Type_ = ConstValueType_Range then checkRanges oneData.Ranges
  else true

/-- The loop over `constraint.UnionData`; nil entries are skipped, and the
first entry that fails a check ends the walk with `false`. -/
def checkUnionData : List (Option ConstraintData) → Bool
  | [] => true
  | none :: rest => checkUnionData rest
  | some oneData :: rest => if checkOneData oneData then checkUnionData rest else false

/-- The loop over `Constraints.IntersectionItem`; nil items are skipped. -/
def checkIntersectionItem : List (Option ConstraintDataItem) → Bool
  | [] => true
  | none :: rest => checkIntersectionItem rest
  | some constraint :: rest =>
      if checkUnionData constraint.UnionData then checkIntersectionItem rest else false

/-- `Version.CheckConstraints`. -/
def CheckConstraints (version : Version) : Bool :=
  match version.Constraints with
  | none => true
  | some constraints => checkIntersectionItem constraints.IntersectionItem

/-! ## Aggregation -/

/-- The `PROCESS` loop shared by `AllCpus`, `AllMems` and `AllDisk`: the limit
selected by `limit` is parsed, the parse error is dropped, and the value is
added to the running sum.  A nil entry of the list panics (`none`). -/
def sumProcesses (limit : ResourceList → String) :
    List (Option Process) → F64 → Option F64
  | [], all => some all
  | none :: _, _ => none
  | some process :: rest, all =>
      sumProcesses limit rest (all + (ParseFloat (limit process.Resources.Limits)).1)

/-- The `APP` loop shared by `AllCpus`, `AllMems` and `AllDisk`: the quantity
selected by `quantity` is read through `container.DataClass.Resources` and
added to the running sum.  A nil container, a nil `DataClass` or nil
`Resources` panics (`none`). -/
def sumContainers (quantity : Resource → F64) :
    List (Option Container) → F64 → Option F64
  | [], all => some all
  | none :: _, _ => none
  | some container :: rest, all =>
      match container.DataClass with
      | none => none
      | some dataClass =>
        match dataClass.Resources with
        | none => none
        | some resources => sumContainers quantity rest (all + quantity resources)

/-- The `switch version.Kind` shared by the three aggregations: the sum over
the list selected by `Kind`, starting from `0`. -/
def sumByKind (limit : ResourceList → String) (quantity : Resource → F64)
    (version : Version) : Option F64 :=
  if version.Kind = BcsDataType_PROCESS then
    sumProcesses limit version.Process F64.zero
  else if version.Kind = BcsDataType_APP ∨ version.Kind = "" then
    sumContainers quantity version.Container F64.zero
  else some F64.zero

/-- `Version.AllCpus`; `none` when the call panics. -/
def AllCpus (version : Version) : Option F64 :=
  sumByKind ResourceList.Cpu Resource.Cpus version

/-- `Version.AllMems`; `none` when the call panics. -/
def AllMems (version : Version) : Option F64 :=
  match sumByKind ResourceList.Mem Resource.Mem version with
  | none => none
  | some allMem => some (allMem + F64.ofInt MEM_PER_EXECUTOR)

/-- `Version.AllDisk`; `none` when the call panics. -/
def AllDisk (version : Version) : Option F64 :=
  match sumByKind ResourceList.Storage Resource.Disk version with
  | none => none
  | some allDisk => some (allDisk + F64.ofInt DISK_PER_EXECUTOR)

/-- `Version.AllResource`; `none` when one of the three calls panics. -/
def AllResource (version : Version) : Option Resource :=
  match AllCpus version with
  | none => none
  | some cpus =>
    match AllMems version with
    | none => none
    | some mem =>
      match AllDisk version with
      | none => none
      | some disk => some { Cpus := cpus, CPUSet := 0, Mem := mem, Disk := disk }

/-! ## bcs-mesos-watch: the entities mirrored into storage

The handlers of `bcs-mesos-watch/storage` (app.go, endpoint.go,
exportservice.go) turn the events of the watch layer into calls on the Data
Operator.

* The `int` of Go is the 64-bit one of the platforms this code runs on;
  `int64` arithmetic wraps around (`wrapInt64`).
* A `time.Time` is a wall-clock reading, in seconds and nanoseconds since the
  Unix epoch.  The clock reading `time.Now()` of a method is an argument `now`
  of its embedding.
* An `error` is an `Option GoError`; `none` is the nil error.
* Logging is left out, except that the embedding keeps the nil dereferences
  made while the arguments of a log line are read.
-/

/-- Two's complement wrap-around of an integer into the range of `int64`. -/
def wrapInt64 (i : Int) : Int :=
  (i + 9223372036854775808) % 18446744073709551616 - 9223372036854775808

/-- The conversion `int(u)` of a `uint64`. -/
def uint64ToInt (u : Nat) : Int := wrapInt64 (u : Int)

/-- A `time.Time`: seconds and nanoseconds since the Unix epoch. -/
structure Time where
  sec : Int
  nsec : Int
  deriving DecidableEq, Repr

/-- The method `t.Unix()`: the seconds since the Unix epoch. -/
def Time.Unix (t : Time) : Int := t.sec

/-- The call `time.Unix(sec, nsec)`; nanoseconds outside `[0, 1e9)` are carried
into the seconds. -/
def time_Unix (sec nsec : Int) : Time :=
  if 0 ≤ nsec ∧ nsec < 1000000000 then ⟨sec, nsec⟩
  else ⟨sec + nsec / 1000000000, nsec % 1000000000⟩

/-- A non-nil `error` value. -/
structure GoError where
  msg : String
  deriving DecidableEq, Repr

/-- Modelled from the spec: `commtypes.ObjectMeta`, declared in bcs-common
outside the sources at hand: the name and namespace of an entity and its
further metadata; the maps are lists of key/value pairs. -/
structure ObjectMeta where
  Name : String
  NameSpace : String
  CreationTimestamp : Time
  Labels : List (String × String)
  Annotations : List (String × String)
  ClusterName : String
  deriving DecidableEq, Repr

/-- Modelled from the spec: `commtypes.BcsPodIndex`, declared in bcs-common
outside the sources at hand: the reference of an application to one of its
pods. -/
structure BcsPodIndex where
  Name : String
  deriving DecidableEq, Repr

/-- A running application (`Application` of bcs-scheduler/src/types), without
its `RawJson`, whose type is declared outside the sources at hand.  The three
instance counts are `uint64`, the three times `int64`. -/
structure Application where
  Kind : String
  ID : String
  Name : String
  ObjectMeta : ObjectMeta
  DefineInstances : Nat
  Instances : Nat
  RunningInstances : Nat
  RunAs : String
  ClusterId : String
  Status : String
  SubStatus : String
  LastStatus : String
  Created : Int
  UpdateTime : Int
  Mode : String
  LastUpdateTime : Int
  Message : String
  Pods : List (Option BcsPodIndex)
  deriving DecidableEq, Repr

/-- Modelled from the spec: `commtypes.BcsReplicaControllerStatus`, declared in
bcs-common outside the sources at hand: the wire form of an application, with
the fields that `FormatConv` writes. -/
structure BcsReplicaControllerStatus where
  ObjectMeta : ObjectMeta
  CreateTime : Time
  LastUpdateTime : Time
  ReportTime : Time
  Status : String
  LastStatus : String
  Message : String
  Instance : Int
  BuildedInstance : Int
  RunningInstance : Int
  Pods : List (Option BcsPodIndex)
  Kind : String
  deriving DecidableEq, Repr

/-- Modelled from the spec: `commtypes.BcsEndpoint`, declared in bcs-common
outside the sources at hand: the reachability projection of a service.  The
handlers read its `ObjectMeta` only; `Eps` stands for the addresses. -/
structure BcsEndpoint where
  ObjectMeta : ObjectMeta
  Eps : List String
  deriving DecidableEq, Repr

/-- Modelled from the spec: `lbtypes.ExportService`, declared in bcs-common
outside the sources at hand: the metadata of an exported service.  The
handlers read `Namespace` and `ServiceName` only. -/
structure ExportService where
  Cluster : String
  Namespace : String
  ServiceName : String
  deriving DecidableEq, Repr

/-- Modelled from the spec: `commtypes.BcsStorageDynamicBatchDeleteIf`, declared
in bcs-common outside the sources at hand: the time window of a conditional
batch delete, in epoch seconds (`int64`). -/
structure BcsStorageDynamicBatchDeleteIf where
  UpdateTimeBegin : Int
  UpdateTimeEnd : Int
  deriving DecidableEq, Repr

/-- The `interface{}` values that reach the handlers and the Data Operator: the
nil interface, or a pointer (possibly nil) of one of the dynamic types in
use. -/
inductive Value where
  | nil : Value
  | application (p : Option Application) : Value
  | endpoint (p : Option BcsEndpoint) : Value
  | exportService (p : Option ExportService) : Value
  | replicaControllerStatus (p : Option BcsReplicaControllerStatus) : Value
  | batchDeleteIf (p : Option BcsStorageDynamicBatchDeleteIf) : Value
  deriving DecidableEq, Repr

/-! ## bcs-mesos-watch: the Data Operator -/

/-- A call on the Data Operator, with its arguments: `CreateDCNode(node, value,
action)`, `DeleteDCNode(node, action)` and `DeleteDCNodes(node, value,
action)`. -/
inductive Call where
  | CreateDCNode (node : String) (value : Value) (action : String) : Call
  | DeleteDCNode (node : String) (action : String) : Call
  | DeleteDCNodes (node : String) (value : Value) (action : String) : Call
  deriving DecidableEq, Repr

/-- The path argument of a call. -/
def Call.node : Call → String
  | Call.CreateDCNode node _ _ => node
  | Call.DeleteDCNode node _ => node
  | Call.DeleteDCNodes node _ _ => node

/-- Modelled from the spec: the interface `DataOperator`, declared in the
storage package outside the sources at hand.  Its behaviour is arbitrary:
`respond done c` is the error it returns to the call `c` made after the calls
`done` of the same handler method.  It is taken to return, and not to write
through the pointers it is handed. -/
structure DataOperator where
  respond : List Call → Call → Option GoError

/-- What a handler method has done when it returns: the calls it made on the
Data Operator, in order, and the error it returns. -/
structure Outcome where
  calls : List Call
  err : Option GoError
  deriving DecidableEq, Repr

/-! ## bcs-mesos-watch: AppHandler -/

/-- The handler of applications (`AppHandler`). -/
structure AppHandler where
  oper : DataOperator
  dataType : String
  ClusterID : String
  DoCheckDirty : Bool

/-- `AppHandler.GetType`. -/
def AppHandler.GetType (handler : AppHandler) : String := handler.dataType

/-- `AppHandler.CheckDirty`, with the clock reading `now`. -/
def AppHandler.CheckDirty (handler : AppHandler) (now : Time) : Outcome :=
  if handler.DoCheckDirty then
    let conditionData : BcsStorageDynamicBatchDeleteIf :=
      { UpdateTimeBegin := 0, UpdateTimeEnd := wrapInt64 (now.Unix - 600) }
    let dataNode := "/bcsstorage/v1/mesos/dynamic/all_resources/clusters/" ++
      handler.ClusterID ++ "/" ++ handler.dataType
    let call := Call.DeleteDCNodes dataNode (Value.batchDeleteIf (some conditionData)) "DELETE"
    let err := handler.oper.respond [] call
    match err with
    | some e => { calls := [call], err := some e }
    | none => { calls := [call], err := none }
  else { calls := [], err := none }

/-- `AppHandler.FormatConv`, with the clock reading `now`: the wire form of the
application and the (nil) error; `none` when `app` is nil and is
dereferenced. -/
def AppHandler.FormatConv (_handler : AppHandler) (now : Time) (app : Option Application) :
    Option (BcsReplicaControllerStatus × Option GoError) :=
  match app with
  | none => none
  | some app =>
    let status : BcsReplicaControllerStatus :=
      { ObjectMeta := { app.ObjectMeta with Name := app.ID }
        Instance := uint64ToInt app.DefineInstances
        BuildedInstance := uint64ToInt app.Instances
        RunningInstance := uint64ToInt app.RunningInstances
        CreateTime := time_Unix app.Created 0
        LastUpdateTime := time_Unix app.UpdateTime 0
        ReportTime := now
        Status := app.Status
        LastStatus := app.LastStatus
        Message := app.Message
        Pods := app.Pods
        Kind := app.Kind }
    some (status, none)

/-- `AppHandler.Add`, with the clock reading `now`; `none` when the type
assertion `data.(*schedtypes.Application)` fails or the pointer is nil. -/
def AppHandler.Add (handler : AppHandler) (now : Time) (data : Value) : Option Outcome :=
  match data with
  | Value.application (some dataType) =>
    match handler.FormatConv now (some dataType) with
    | none => none
    | some (reportType, _) =>
      let dataNode := "/bcsstorage/v1/mesos/dynamic/namespace_resources/clusters/" ++
        handler.ClusterID ++ "/namespaces/" ++ dataType.RunAs ++ "/" ++ handler.dataType ++
        "/" ++ dataType.ID
      let call := Call.CreateDCNode dataNode (Value.replicaControllerStatus (some reportType)) "PUT"
      let err := handler.oper.respond [] call
      match err with
      | some e => some { calls := [call], err := some e }
      | none => some { calls := [call], err := none }
  | _ => none

/-- `AppHandler.Delete`; `none` when the type assertion fails or the pointer is
nil. -/
def AppHandler.Delete (handler : AppHandler) (data : Value) : Option Outcome :=
  match data with
  | Value.application (some dataType) =>
    let dataNode := "/bcsstorage/v1/mesos/dynamic/namespace_resources/clusters/" ++
      handler.ClusterID ++ "/namespaces/" ++ dataType.RunAs ++ "/" ++ handler.dataType ++
      "/" ++ dataType.ID
    let call := Call.DeleteDCNode dataNode "DELETE"
    let err := handler.oper.respond [] call
    match err with
    | some e => some { calls := [call], err := some e }
    | none => some { calls := [call], err := err }
  | _ => none

/-- `AppHandler.Update`, with the clock reading `now`; `none` when the type
assertion fails or the pointer is nil. -/
def AppHandler.Update (handler : AppHandler) (now : Time) (data : Value) : Option Outcome :=
  match data with
  | Value.application (some dataType) =>
    match handler.FormatConv now (some dataType) with
    | none => none
    | some (reportType, _) =>
      let dataNode := "/bcsstorage/v1/mesos/dynamic/namespace_resources/clusters/" ++
        handler.ClusterID ++ "/namespaces/" ++ dataType.RunAs ++ "/" ++ handler.dataType ++
        "/" ++ dataType.ID
      let call := Call.CreateDCNode dataNode (Value.replicaControllerStatus (some reportType)) "PUT"
      let err := handler.oper.respond [] call
      match err with
      | some e => some { calls := [call], err := some e }
      | none => some { calls := [call], err := none }
  | _ => none

/-! ## bcs-mesos-watch: EndpointHandler -/

/-- The handler of endpoints (`EndpointHandler`). -/
structure EndpointHandler where
  oper : DataOperator
  dataType : String
  ClusterID : String

/-- `EndpointHandler.GetType`. -/
def EndpointHandler.GetType (handler : EndpointHandler) : String := handler.dataType

/-- `EndpointHandler.CheckDirty`, with the clock reading `now`. -/
def EndpointHandler.CheckDirty (handler : EndpointHandler) (now : Time) : Outcome :=
  let conditionData : BcsStorageDynamicBatchDeleteIf :=
    { UpdateTimeBegin := 0, UpdateTimeEnd := wrapInt64 (now.Unix - 600) }
  let dataNode := "/bcsstorage/v1/mesos/dynamic/all_resources/clusters/" ++
    handler.ClusterID ++ "/" ++ handler.dataType
  let call := Call.DeleteDCNodes dataNode (Value.batchDeleteIf (some conditionData)) "DELETE"
  let err := handler.oper.respond [] call
  match err with
  | some e => { calls := [call], err := some e }
  | none => { calls := [call], err := none }

/-- `EndpointHandler.Add`; `none` when the type assertion
`data.(*commtypes.BcsEndpoint)` fails or the pointer is nil.  The value handed
to the Data Operator is `data` itself. -/
def EndpointHandler.Add (handler : EndpointHandler) (data : Value) : Option Outcome :=
  match data with
  | Value.endpoint (some dataType) =>
    let dataNode := "/bcsstorage/v1/mesos/dynamic/namespace_resources/clusters/" ++
      handler.ClusterID ++ "/namespaces/" ++ dataType.ObjectMeta.NameSpace ++ "/" ++
      handler.dataType ++ "/" ++ dataType.ObjectMeta.Name
    let call := Call.CreateDCNode dataNode data "PUT"
    let err := handler.oper.respond [] call
    match err with
    | some e => some { calls := [call], err := some e }
    | none => some { calls := [call], err := none }
  | _ => none

/-- `EndpointHandler.Delete`; `none` when the type assertion fails or the
pointer is nil. -/
def EndpointHandler.Delete (handler : EndpointHandler) (data : Value) : Option Outcome :=
  match data with
  | Value.endpoint (some dataType) =>
    let dataNode := "/bcsstorage/v1/mesos/dynamic/namespace_resources/clusters/" ++
      handler.ClusterID ++ "/namespaces/" ++ dataType.ObjectMeta.NameSpace ++ "/" ++
      handler.dataType ++ "/" ++ dataType.ObjectMeta.Name
    let call := Call.DeleteDCNode dataNode "DELETE"
    let err := handler.oper.respond [] call
    some { calls := [call], err := err }
  | _ => none

/-- `EndpointHandler.Update`; `none` when the type assertion fails or the
pointer is nil. -/
def EndpointHandler.Update (handler : EndpointHandler) (data : Value) : Option Outcome :=
  match data with
  | Value.endpoint (some dataType) =>
    let dataNode := "/bcsstorage/v1/mesos/dynamic/namespace_resources/clusters/" ++
      handler.ClusterID ++ "/namespaces/" ++ dataType.ObjectMeta.NameSpace ++ "/" ++
      handler.dataType ++ "/" ++ dataType.ObjectMeta.Name
    let call := Call.CreateDCNode dataNode data "PUT"
    let err := handler.oper.respond [] call
    some { calls := [call], err := err }
  | _ => none

/-! ## bcs-mesos-watch: ExpServiceHandler -/

/-- The handler of exported services (`ExpServiceHandler`). -/
structure ExpServiceHandler where
  oper : DataOperator
  dataType : String
  ClusterID : String

/-- `ExpServiceHandler.GetType`. -/
def ExpServiceHandler.GetType (handler : ExpServiceHandler) : String := handler.dataType

/-- `ExpServiceHandler.CheckDirty`: nothing is swept. -/
def ExpServiceHandler.CheckDirty (_handler : ExpServiceHandler) : Outcome :=
  { calls := [], err := none }

/-- `ExpServiceHandler.Add`; `none` when the type assertion
`data.(*lbtypes.ExportService)` fails or the pointer is nil.  The errors of the
two calls are dropped. -/
def ExpServiceHandler.Add (handler : ExpServiceHandler) (data : Value) : Option Outcome :=
  match data with
  | Value.exportService (some dataType) =>
    let dataNode := "/bcsstorage/v1/mesos/watch/clusters/" ++ handler.ClusterID ++
      "/namespaces/" ++ dataType.Namespace ++ "/" ++ handler.dataType ++ "/" ++
      dataType.ServiceName
    let call := Call.CreateDCNode dataNode data "PUT"
    let _ := handler.oper.respond [] call
    let dataNode2 := "/bcsstorage/v1/mesos/dynamic/namespace_resources/clusters/" ++
      handler.ClusterID ++ "/namespaces/" ++ dataType.Namespace ++ "/" ++ handler.dataType ++
      "/" ++ dataType.ServiceName
    let call2 := Call.CreateDCNode dataNode2 data "PUT"
    let _ := handler.oper.respond [call] call2
    some { calls := [call, call2], err := none }
  | _ => none

/-- `ExpServiceHandler.Delete`; `none` when the type assertion fails or the
pointer is nil.  The errors of the two calls are dropped. -/
def ExpServiceHandler.Delete (handler : ExpServiceHandler) (data : Value) : Option Outcome :=
  match data with
  | Value.exportService (some dataType) =>
    let dataNode := "/bcsstorage/v1/mesos/watch/clusters/" ++ handler.ClusterID ++
      "/namespaces/" ++ dataType.Namespace ++ "/" ++ handler.dataType ++ "/" ++
      dataType.ServiceName
    let call := Call.DeleteDCNode dataNode "DELETE"
    let _ := handler.oper.respond [] call
    let dataNode2 := "/bcsstorage/v1/mesos/dynamic/namespace_resources/clusters/" ++
      handler.ClusterID ++ "/namespaces/" ++ dataType.Namespace ++ "/" ++ handler.dataType ++
      "/" ++ dataType.ServiceName
    let call2 := Call.DeleteDCNode dataNode2 "DELETE"
    let _ := handler.oper.respond [call] call2
    some { calls := [call, call2], err := none }
  | _ => none

/-- `ExpServiceHandler.Update`; `none` when the type assertion fails or the
pointer is nil.  The errors of the two calls are dropped. -/
def ExpServiceHandler.Update (handler : ExpServiceHandler) (data : Value) : Option Outcome :=
  match data with
  | Value.exportService (some dataType) =>
    let dataNode := "/bcsstorage/v1/mesos/watch/clusters/" ++ handler.ClusterID ++
      "/namespaces/" ++ dataType.Namespace ++ "/" ++ handler.dataType ++ "/" ++
      dataType.ServiceName
    let call := Call.CreateDCNode dataNode data "PUT"
    let _ := handler.oper.respond [] call
    let dataNode2 := "/bcsstorage/v1/mesos/dynamic/namespace_resources/clusters/" ++
      handler.ClusterID ++ "/namespaces/" ++ dataType.Namespace ++ "/" ++ handler.dataType ++
      "/" ++ dataType.ServiceName
    let call2 := Call.CreateDCNode dataNode2 data "PUT"
    let _ := handler.oper.respond [call] call2
    some { calls := [call, call2], err := none }
  | _ => none

/-! ## bcs-mesos-watch: the stored nodes -/

/-- Modelled from the spec: the storage service behind the Data Operator, as a
map from path to body; the service itself is outside the sources at hand. -/
structure Storage where
  nodes : String → Option Value

/-- The storage that holds no node. -/
def Storage.empty : Storage := ⟨fun _ => none⟩

/-- Modelled from the spec: `CreateNode(path, body)` is an upsert, it creates
the node at `path` or replaces its body. -/
def Storage.CreateNode (st : Storage) (path : String) (body : Value) : Storage :=
  ⟨fun p => if p = path then some body else st.nodes p⟩

/-- Modelled from the spec: `DeleteNode(path)` is a delete-if-present, it
removes the node at `path` and leaves every other node. -/
def Storage.DeleteNode (st : Storage) (path : String) : Storage :=
  ⟨fun p => if p = path then none else st.nodes p⟩

/-- Modelled from the spec: the effect on the stored nodes of one call that
reaches the storage.  The conditional batch delete selects nodes by their
recorded update time, which the map does not hold; its effect is left out
(`none`). -/
def Storage.apply (st : Storage) : Call → Option Storage
  | Call.CreateDCNode node value _ => some (st.CreateNode node value)
  | Call.DeleteDCNode node _ => some (st.DeleteNode node)
  | Call.DeleteDCNodes _ _ _ => none

/-- The stored nodes after the calls of a list, in order. -/
def Storage.run : Storage → List Call → Option Storage
  | st, [] => some st
  | st, call :: rest =>
      match st.apply call with
      | none => none
      | some st1 => Storage.run st1 rest

/-- The stored nodes after a sequence of handler methods, each given by what it
has done; `none` when one of them panics. -/
def Storage.after : Storage → List (Option Outcome) → Option Storage
  | st, [] => some st
  | _, none :: _ => none
  | st, some outcome :: rest =>
      match st.run outcome.calls with
      | none => none
      | some st1 => Storage.after st1 rest

/-! ## bcs-api: UpdateCredentials -/

/-- The request body of `UpdateCredentials` (`UpdateCredentialsForm`), as
`request.ReadEntity` has filled it. -/
structure UpdateCredentialsForm where
  RegisterToken : String
  ServerAddresses : String
  CaCertData : String
  UserToken : String
  deriving DecidableEq, Repr

/-- Modelled from the spec: `m.RegisterToken`, declared in the models package
outside the sources at hand; the handler reads its field `Token`. -/
structure RegisterToken where
  Token : String
  deriving DecidableEq, Repr

/-- Modelled from the spec: `m.ClusterCredentials`, declared in the models
package outside the sources at hand; the handler reads `CaCertData` and
`UserToken`. -/
structure ClusterCredentials where
  CaCertData : String
  UserToken : String
  deriving DecidableEq, Repr

/-- Modelled from the spec: what `UpdateCredentials` calls and does not define.
`validate` is `validate.Struct(&form)`, `GetRegisterToken` and `GetCredentials`
are the reads `sqlstore.GetRegisterToken` and `sqlstore.GetCredentials` of the
store as it is when the request arrives, `SaveCredentials` is the error that
`sqlstore.SaveCredentials` returns for its five arguments, and the two numbers
are the constants `common.BcsErrApiBadRequest` and
`common.BcsErrApiInternalDbError`. -/
structure CredentialsEnv where
  validate : UpdateCredentialsForm → Option GoError
  GetRegisterToken : String → Option RegisterToken
  GetCredentials : String → Option ClusterCredentials
  SaveCredentials : String → String → String → String → String → Option GoError
  BcsErrApiBadRequest : Int
  BcsErrApiInternalDbError : Int

/-- What `UpdateCredentials` does to the response and to the two stores, one
constructor per call: `response.WriteEntity(FormatValidationError(err))`,
`WriteClientError(response, codeName, message)`,
`proxier.DefaultReverseProxyDispatcher.DelHandlerStoreByClusterId(clusterId)`,
`sqlstore.SaveCredentials(...)` and `response.WriteEntity(types.EmptyResponse{})`. -/
inductive Effect where
  | WriteValidationError (err : GoError) : Effect
  | WriteClientError (codeName message : String) : Effect
  | DelHandlerStoreByClusterId (clusterId : String) : Effect
  | SaveCredentials (clusterId serverAddresses caCertData userToken clusterDomain : String) :
      Effect
  | WriteEmptyResponse : Effect
  deriving DecidableEq, Repr

/-- The calls that write to the credentials store or to the proxy handler
store. -/
def Effect.changesStore : Effect → Bool
  | Effect.DelHandlerStoreByClusterId _ => true
  | Effect.SaveCredentials _ _ _ _ _ => true
  | _ => false

/-- `UpdateCredentials`, for the form read from the request and the path
parameter `cluster_id`: the calls it makes, in order. -/
def UpdateCredentials (env : CredentialsEnv) (form : UpdateCredentialsForm)
    (clusterId : String) : List Effect :=
  match env.validate form with
  | some err => [Effect.WriteValidationError err]
  | none =>
    match env.GetRegisterToken clusterId with
    | none =>
      let message := "errcode: " ++ Itoa env.BcsErrApiBadRequest ++
        ", no valid register token found for cluster"
      [Effect.WriteClientError "RTOKEN_NOT_FOUND" message]
    | some token =>
      if token.Token ≠ form.RegisterToken then
        let message := "errcode: " ++ Itoa env.BcsErrApiBadRequest ++
          ", invalid register token given"
        [Effect.WriteClientError "INVALID_RTOKEN" message]
      else
        let refresh : List Effect :=
          match env.GetCredentials clusterId with
          | none => []
          | some clusterCredentials =>
            if clusterCredentials.CaCertData ≠ form.CaCertData ∨
                clusterCredentials.UserToken ≠ form.UserToken then
              [Effect.DelHandlerStoreByClusterId clusterId]
            else []
        let save := Effect.SaveCredentials clusterId form.ServerAddresses form.CaCertData
          form.UserToken ""
        match env.SaveCredentials clusterId form.ServerAddresses form.CaCertData
            form.UserToken "" with
        | some err =>
          let message := "errcode: " ++ Itoa env.BcsErrApiInternalDbError ++
            ", can not update credentials, error: " ++ err.msg
          refresh ++ [save, Effect.WriteClientError "CANNOT_UPDATE_CREDENTIALS" message]
        | none => refresh ++ [save, Effect.WriteEmptyResponse]


/-! ## bcs-mesos-watch: FormatConv, statement by statement -/

/-- The zero `time.Time` (January 1 of year 1, 00:00 UTC), in Unix seconds. -/
def Time.zero : Time := ⟨-62135596800, 0⟩

/-- The zero value of `commtypes.BcsReplicaControllerStatus`, which
`new(commtypes.BcsReplicaControllerStatus)` allocates. -/
def BcsReplicaControllerStatus.zero : BcsReplicaControllerStatus :=
  { ObjectMeta := { Name := "", NameSpace := "", CreationTimestamp := Time.zero, Labels := [],
                    Annotations := [], ClusterName := "" }
    CreateTime := Time.zero
    LastUpdateTime := Time.zero
    ReportTime := Time.zero
    Status := ""
    LastStatus := ""
    Message := ""
    Instance := 0
    BuildedInstance := 0
    RunningInstance := 0
    Pods := []
    Kind := "" }

/-- The two objects in reach of `FormatConv`: the application its argument
points to and the status it allocates. -/
structure FormatConvState where
  app : Application
  status : BcsReplicaControllerStatus
  deriving DecidableEq, Repr

/-- `AppHandler.FormatConv` as a run over both objects, one step per statement
of the source, with the clock reading `now`: the objects when the function
returns, and the (nil) error; `none` when `app` is nil.  `status.ObjectMeta` is
a struct held by value, so the write to `status.ObjectMeta.Name` goes to the
copy; the label maps and the pod slice are shared with `app` and no statement
writes to them. -/
def AppHandler.FormatConv_steps (_handler : AppHandler) (now : Time)
    (app : Option Application) : Option (FormatConvState × Option GoError) :=
  match app with
  | none => none
  | some app =>
    let s : FormatConvState := { app := app, status := BcsReplicaControllerStatus.zero }
    let s := { s with status := { s.status with ObjectMeta := s.app.ObjectMeta } }
    let s := { s with status := { s.status with
      ObjectMeta := { s.status.ObjectMeta with Name := s.app.ID } } }
    let s := { s with status := { s.status with
      Instance := uint64ToInt s.app.DefineInstances } }
    let s := { s with status := { s.status with
      BuildedInstance := uint64ToInt s.app.Instances } }
    let s := { s with status := { s.status with
      RunningInstance := uint64ToInt s.app.RunningInstances } }
    let s := { s with status := { s.status with CreateTime := time_Unix s.app.Created 0 } }
    let s := { s with status := { s.status with
      LastUpdateTime := time_Unix s.app.UpdateTime 0 } }
    let s := { s with status := { s.status with ReportTime := now } }
    let s := { s with status := { s.status with Status := s.app.Status } }
    let s := { s with status := { s.status with LastStatus := s.app.LastStatus } }
    let s := { s with status := { s.status with Message := s.app.Message } }
    let s := { s with status := { s.status with Pods := s.app.Pods } }
    let s := { s with status := { s.status with Kind := s.app.Kind } }
    some (s, none)


/-! ## bcs-mesos-watch: the sweep window -/

/-- Modelled from the spec: the time-window predicate of a conditional batch
delete: the update time `t` falls in the half-open window
`[UpdateTimeBegin, UpdateTimeEnd)`. -/
def BcsStorageDynamicBatchDeleteIf.contains (cond : BcsStorageDynamicBatchDeleteIf)
    (t : Int) : Bool :=
  decide (cond.UpdateTimeBegin ≤ t ∧ t < cond.UpdateTimeEnd)

/-- Modelled from the spec: whether a storage that deletes exactly the nodes in
the window it is sent deletes, on this call, a node of the call's scope last
updated at `t`.  Only a `DeleteDCNodes` call that carries a window sweeps. -/
def Call.sweeps (call : Call) (t : Int) : Bool :=
  match call with
  | Call.DeleteDCNodes _ (Value.batchDeleteIf (some cond)) _ => cond.contains t
  | _ => false


/-! ## Example values -/

/-- A container that asks for the given CPU, memory and disk. -/
def containerWith (cpus mem disk : F64) : Container :=
  { Type_ := "", Docker := none, Volumes := [], Resources := none, LimitResoures := none,
    DataClass := some { Resources := some ⟨cpus, 0, mem, disk⟩ } }

/-- A container without a `DataClass`. -/
def bareContainer : Container :=
  { Type_ := "", Docker := none, Volumes := [], Resources := none, LimitResoures := none,
    DataClass := none }

/-- A process with the given stored limits. -/
def processWith (cpu mem storage : String) : Process :=
  { ProcName := "p", Resources := { Limits := ⟨cpu, mem, storage⟩, Requests := ⟨"", "", ""⟩ } }

/-- The process `p` with its limits replaced by `limits`. -/
def withLimits (p : Process) (limits : ResourceList) : Process :=
  { p with Resources := { p.Resources with Limits := limits } }

/-- A union entry with the given declared type and payloads. -/
def entryWith (type : ConstraintValue_Type) (scalar : Option ConstraintValue_Scalar)
    (ranges : List (Option ConstraintValue_Range)) (text : Option ConstraintValue_Text)
    (set : Option ConstraintValue_Set) : ConstraintData :=
  { Name := "hostname", Operate := "UNIQUE", Type_ := type, Scalar := scalar, Ranges := ranges,
    Text := text, Set := set }

/-- The constraint tree with one intersection item holding one union entry. -/
def treeWith (entry : ConstraintData) : Constraint :=
  { IntersectionItem := [some { UnionData := [some entry] }] }

/-- A `Version` with the given kind, containers, processes and constraints. -/
def versionWith (kind : String) (cs : List (Option Container)) (ps : List (Option Process))
    (constraints : Option Constraint) : Version :=
  { ID := "v", Name := "v", Instances := 1, RunAs := "ns", Container := cs, Process := ps,
    Labels := [], Constraints := constraints, Uris := [], Ip := [], Mode := "", Kind := kind }

/-- Metadata with the given namespace and name. -/
def metaWith (ns name : String) : ObjectMeta :=
  { Name := name, NameSpace := ns, CreationTimestamp := ⟨0, 0⟩, Labels := [],
    Annotations := [], ClusterName := "" }

/-- An application with the given namespace, ID and defined instance count. -/
def appWith (runAs id : String) (defineInstances : Nat) : Application :=
  { Kind := "application", ID := id, Name := id, ObjectMeta := metaWith runAs "meta-name",
    DefineInstances := defineInstances, Instances := 2, RunningInstances := 1, RunAs := runAs,
    ClusterId := "BCS-MESOS-10001", Status := "Running", SubStatus := "", LastStatus := "Staging",
    Created := 1500000000, UpdateTime := 1500000600, Mode := "", LastUpdateTime := 1500000600,
    Message := "ok", Pods := [some ⟨"pod-0"⟩] }

/-- An endpoint with the given namespace and name. -/
def endpointWith (ns name : String) : BcsEndpoint :=
  { ObjectMeta := metaWith ns name, Eps := ["10.0.0.1"] }

/-- An exported service with the given namespace and service name. -/
def serviceWith (ns name : String) : ExportService :=
  { Cluster := "BCS-MESOS-10001", Namespace := ns, ServiceName := name }

/-- A Data Operator every call on which succeeds. -/
def okOper : DataOperator := { respond := fun _ _ => none }

/-- A Data Operator every call on which fails with the error `e`. -/
def failingOper (e : GoError) : DataOperator := { respond := fun _ _ => some e }

/-- An application handler of a test cluster. -/
def appHandlerWith (oper : DataOperator) (doCheckDirty : Bool) : AppHandler :=
  { oper := oper, dataType := "application", ClusterID := "BCS-MESOS-10001",
    DoCheckDirty := doCheckDirty }

/-- An endpoint handler of a test cluster. -/
def endpointHandlerWith (oper : DataOperator) : EndpointHandler :=
  { oper := oper, dataType := "endpoint", ClusterID := "BCS-MESOS-10001" }

/-- An exported-service handler of a test cluster. -/
def expServiceHandlerWith (oper : DataOperator) : ExpServiceHandler :=
  { oper := oper, dataType := "exportservice", ClusterID := "BCS-MESOS-10001" }

/-- A form with the given register token and the other fields filled. -/
def formWith (registerToken : String) : UpdateCredentialsForm :=
  { RegisterToken := registerToken, ServerAddresses := "https://10.0.0.1:443",
    CaCertData := "cacert", UserToken := "user-token" }

/-- An environment in which a form is valid when its four fields are
non-empty, `token` is the register token stored for every cluster,
`credentials` the stored credentials, and saving succeeds. -/
def credentialsEnvWith (token : Option RegisterToken)
    (credentials : Option ClusterCredentials) : CredentialsEnv :=
  { validate := fun form =>
      if form.RegisterToken = "" ∨ form.ServerAddresses = "" ∨ form.CaCertData = "" ∨
          form.UserToken = "" then some ⟨"field required"⟩ else none
    GetRegisterToken := fun _ => token
    GetCredentials := fun _ => credentials
    SaveCredentials := fun _ _ _ _ _ => none
    BcsErrApiBadRequest := 1400
    BcsErrApiInternalDbError := 1500 }


/-- A Data Operator in front of the stored nodes `st` that reports the delete
of a path holding no node as an error, and fails no other call. -/
def strictOper (st : Storage) : DataOperator :=
  { respond := fun done call =>
      match call with
      | Call.DeleteDCNode node _ =>
        match st.run done with
        | none => none
        | some st1 => if st1.nodes node = none then some ⟨"node not found"⟩ else none
      | _ => none }


/-! ## Lemmas on float64 rounding -/

namespace F64

theorem bitLenUp_spec (fuel n k : Nat) (h : n ≤ fuel + k) : n < 2 ^ (2 ^ bitLenUp fuel n k) := by
  induction fuel generalizing k with
  | zero =>
    simp only [bitLenUp]
    have h1 : n < 2 ^ n := Nat.lt_two_pow n
    have h2 : k < 2 ^ k := Nat.lt_two_pow k
    have h3 : 2 ^ n ≤ 2 ^ (2 ^ k) := Nat.pow_le_pow_right (by decide) (by omega)
    omega
  | succ f ih =>
    simp only [bitLenUp]
    split_ifs with hlt
    · exact hlt
    · exact ih (k + 1) (by omega)

theorem size_div_two_pow (n m : Nat) (h : 2 ^ m ≤ n) : Nat.size n = m + Nat.size (n / 2 ^ m) := by
  have hp : 0 < 2 ^ m := Nat.pow_pos (by decide)
  have hq : 0 < n / 2 ^ m := Nat.div_pos h hp
  have hs : 0 < Nat.size (n / 2 ^ m) := Nat.size_pos.2 hq
  apply Nat.le_antisymm
  · rw [Nat.size_le, Nat.pow_add]
    have h1 : n / 2 ^ m < 2 ^ Nat.size (n / 2 ^ m) := Nat.lt_size_self _
    have h2 : n < (n / 2 ^ m + 1) * 2 ^ m := by
      have := Nat.div_add_mod n (2 ^ m)
      have := Nat.mod_lt n hp
      nlinarith
    calc n < (n / 2 ^ m + 1) * 2 ^ m := h2
      _ ≤ 2 ^ Nat.size (n / 2 ^ m) * 2 ^ m := Nat.mul_le_mul_right _ h1
      _ = 2 ^ m * 2 ^ Nat.size (n / 2 ^ m) := Nat.mul_comm _ _
  · have h1 : Nat.size (n / 2 ^ m) - 1 < Nat.size (n / 2 ^ m) := by omega
    rw [Nat.lt_size] at h1
    have h2 : m + Nat.size (n / 2 ^ m) - 1 < Nat.size n := by
      rw [Nat.lt_size]
      have e : m + Nat.size (n / 2 ^ m) - 1 = m + (Nat.size (n / 2 ^ m) - 1) := by omega
      rw [e, Nat.pow_add]
      calc 2 ^ m * 2 ^ (Nat.size (n / 2 ^ m) - 1) ≤ 2 ^ m * (n / 2 ^ m) :=
            Nat.mul_le_mul_left _ h1
        _ ≤ n := Nat.mul_div_le n (2 ^ m)
    omega

theorem bitLenDown_spec (k n acc : Nat) (h : n < 2 ^ (2 ^ k)) :
    bitLenDown k n acc = acc + Nat.size n := by
  induction k generalizing n acc with
  | zero =>
    simp only [bitLenDown]
    have h2 : n < 2 := by simpa using h
    interval_cases n
    · simp
    · simp [Nat.size_one]
  | succ k ih =>
    simp only [bitLenDown]
    split_ifs with hge
    · have hlt : n / 2 ^ (2 ^ k) < 2 ^ (2 ^ k) := by
        rw [Nat.div_lt_iff_lt_mul (Nat.pow_pos (by decide))]
        calc n < 2 ^ (2 ^ (k + 1)) := h
          _ = 2 ^ (2 ^ k) * 2 ^ (2 ^ k) := by rw [← Nat.pow_add]; congr 1; rw [Nat.pow_succ]; omega
      rw [ih _ _ hlt, size_div_two_pow n (2 ^ k) hge]
      omega
    · exact ih _ _ (by omega)

/-- The number of bits computed by `bitLen` is `Nat.size`. -/
theorem bitLen_eq_size (n : Nat) : bitLen n = Nat.size n := by
  unfold bitLen
  rw [bitLenDown_spec _ _ _ (bitLenUp_spec n n 0 (by omega))]
  omega


theorem valid_zero (neg : Bool) : valid (fin neg 0) = true := by
  cases neg <;> decide!

theorem roundRat_exact (neg : Bool) (n : Nat) (h : valid (fin neg n) = true) :
    roundRat neg n 1 = fin neg n := by
  simp only [valid, Bool.and_eq_true, decide_eq_true_eq, beq_iff_eq] at h
  obtain ⟨h1, h2⟩ := h
  have hp : 0 < 2 ^ (bitLen n - 53) := Nat.pow_pos (by decide)
  have hq : n / 2 ^ (bitLen n - 53) * 2 ^ (bitLen n - 53) = n :=
    Nat.div_mul_cancel (Nat.dvd_of_mod_eq_zero h2)
  simp only [roundRat, Nat.div_one, Nat.one_mul, h2, Nat.mul_zero, hq]
  have h3 : ¬ (0 > 2 ^ (bitLen n - 53) ∨
      0 = 2 ^ (bitLen n - 53) ∧ n / 2 ^ (bitLen n - 53) % 2 = 1) := by
    rintro (h | ⟨h, _⟩) <;> omega
  rw [if_neg h3, hq, if_neg (by omega)]

theorem roundRat_quot_lt (num den : Nat) :
    num / (den * 2 ^ (bitLen (num / den) - 53)) < 2 ^ 53 := by
  rw [← Nat.div_div_eq_div_mul, bitLen_eq_size]
  rw [Nat.div_lt_iff_lt_mul (Nat.pow_pos (by decide)), ← Nat.pow_add]
  have h1 : num / den < 2 ^ Nat.size (num / den) := Nat.lt_size_self _
  have h2 : 2 ^ Nat.size (num / den) ≤ 2 ^ (53 + (Nat.size (num / den) - 53)) :=
    Nat.pow_le_pow_right (by decide) (by omega)
  omega

theorem valid_mul_two_pow (neg : Bool) (q d : Nat) (h : q ≤ 2 ^ 53)
    (ho : q * 2 ^ d < overflow_ulps) : valid (fin neg (q * 2 ^ d)) = true := by
  simp only [valid, Bool.and_eq_true, decide_eq_true_eq, beq_iff_eq]
  refine ⟨ho, ?_⟩
  apply Nat.mod_eq_zero_of_dvd
  rw [bitLen_eq_size]
  rcases Nat.lt_or_eq_of_le h with hlt | heq
  · have h1 : q * 2 ^ d < 2 ^ (53 + d) := by
      rw [Nat.pow_add]
      exact Nat.mul_lt_mul_of_lt_of_le hlt (Nat.le_refl _) (Nat.pow_pos (by decide))
    have h2 : Nat.size (q * 2 ^ d) ≤ 53 + d := Nat.size_le.2 h1
    exact Dvd.dvd.mul_left (Nat.pow_dvd_pow 2 (by omega)) q
  · subst heq
    rw [← Nat.pow_add, Nat.size_pow]
    exact Nat.pow_dvd_pow 2 (by omega)

theorem roundRat_valid (neg : Bool) (num den : Nat) : valid (roundRat neg num den) = true := by
  have hq := roundRat_quot_lt num den
  simp only [roundRat]
  split_ifs with h1 h2 h3
  · rfl
  · exact valid_mul_two_pow _ _ _ (by omega) (by omega)
  · rfl
  · exact valid_mul_two_pow _ _ _ (by omega) (by omega)


theorem roundRat_ne_zero (neg b : Bool) (n : Nat) (h : n ≠ 0) :
    roundRat neg n 1 ≠ fin b 0 := by
  have hs : 0 < Nat.size n := Nat.size_pos.2 (Nat.pos_of_ne_zero h)
  have h1 : 2 ^ (Nat.size n - 53) ≤ n := by
    have h2 : Nat.size n - 1 < Nat.size n := by omega
    rw [Nat.lt_size] at h2
    have h3 : 2 ^ (Nat.size n - 53) ≤ 2 ^ (Nat.size n - 1) :=
      Nat.pow_le_pow_right (by decide) (by omega)
    omega
  have hp : 0 < 2 ^ (Nat.size n - 53) := Nat.pow_pos (by decide)
  have hq : 0 < n / 2 ^ (Nat.size n - 53) := Nat.div_pos h1 hp
  simp only [roundRat, Nat.div_one, Nat.one_mul, bitLen_eq_size]
  split_ifs with h4 h5 h6
  · simp
  · intro he
    simp only [fin.injEq] at he
    have : 0 < (n / 2 ^ (Nat.size n - 53) + 1) * 2 ^ (Nat.size n - 53) :=
      Nat.mul_pos (by omega) hp
    omega
  · simp
  · intro he
    simp only [fin.injEq] at he
    have : 0 < n / 2 ^ (Nat.size n - 53) * 2 ^ (Nat.size n - 53) := Nat.mul_pos hq hp
    omega

theorem add_valid (x y : F64) (hx : valid x = true) (hy : valid y = true) :
    valid (x + y) = true := by
  show valid (add x y) = true
  cases x with
  | nan => cases y <;> rfl
  | inf a =>
    cases y with
    | nan => rfl
    | inf b =>
      simp only [add]
      split_ifs <;> rfl
    | fin b n => rfl
  | fin a m =>
    cases y with
    | nan => rfl
    | inf b => rfl
    | fin b n =>
      simp only [add]
      split_ifs
      · exact valid_zero _
      · exact roundRat_valid _ _ _

theorem add_ne_negzero (x y : F64) (hx : x ≠ fin true 0) : x + y ≠ fin true 0 := by
  show add x y ≠ fin true 0
  cases x with
  | nan => cases y <;> simp [add]
  | inf a =>
    cases y with
    | nan => simp [add]
    | inf b =>
      simp only [add]
      split_ifs <;> simp
    | fin b n => simp [add]
  | fin a m =>
    cases y with
    | nan => simp [add]
    | inf b => simp [add]
    | fin b n =>
      simp only [add]
      split_ifs with hs
      · intro he
        simp only [fin.injEq, Bool.and_eq_true, and_true] at he
        obtain ⟨ha, hb⟩ := he
        subst ha
        subst hb
        simp only [signed, if_true] at hs
        have : m = 0 := by omega
        subst this
        exact hx rfl
      · exact roundRat_ne_zero _ _ _ (by omega)

theorem add_zero_right (x : F64) (hv : valid x = true) (hx : x ≠ fin true 0) :
    x + zero = x := by
  show add x zero = x
  cases x with
  | nan => rfl
  | inf a => rfl
  | fin a m =>
    simp only [add, zero]
    have h0 : signed false 0 = 0 := by simp [signed]
    rw [h0, Int.add_zero]
    split_ifs with hs
    · cases a
      · simp only [signed, Bool.false_eq_true, if_false] at hs
        have : m = 0 := by omega
        subst this
        rfl
      · simp only [signed, if_true] at hs
        have : m = 0 := by omega
        subst this
        exact absurd rfl hx
    · have h1 : decide (signed a m < 0) = a := by
        cases a
        · simp [signed]
        · simp only [signed, if_true] at hs ⊢
          simp only [decide_eq_true_eq]
          omega
      have h2 : (signed a m).natAbs = m := by
        cases a <;> simp [signed]
      rw [h1, h2]
      exact roundRat_exact a m hv

end F64

theorem special_valid (s : String) (x : F64) (h : special s = some x) :
    F64.valid x = true := by
  unfold special at h
  split at h
  · simp at h
  · split_ifs at h <;> simp at h <;> subst h <;> rfl

theorem decimalToF64_valid (neg : Bool) (mant : Nat) (exp10 : Int) :
    F64.valid (decimalToF64 neg mant exp10) = true := by
  unfold decimalToF64
  split_ifs
  · exact F64.valid_zero _
  · cases exp10 <;> exact F64.roundRat_valid _ _ _

theorem ParseFloat_valid (s : String) : F64.valid (ParseFloat s).1 = true := by
  unfold ParseFloat
  cases hs : special s with
  | some x => exact special_valid s x hs
  | none =>
    cases hd : readDecimal s.data with
    | none => exact F64.valid_zero _
    | some t =>
      obtain ⟨neg, mant, exp10⟩ := t
      have hv := decimalToF64_valid neg mant exp10
      simp only
      cases hf : decimalToF64 neg mant exp10 <;> simp only [] <;> rw [hf] at hv <;> exact hv

/-! ## Lemmas on the defaulting loops -/

theorem Itoa_CPUS_PER_TASK : Itoa CPUS_PER_TASK = "1" := by decide

theorem Itoa_MEM_PER_TASK : Itoa MEM_PER_TASK = "64" := by decide

theorem Itoa_DISK_PER_TASK : Itoa DISK_PER_TASK = "64" := by decide

theorem defaultProcess_idem (p : Process) :
    defaultProcess (defaultProcess p) = defaultProcess p := by
  simp only [defaultProcess, Itoa_CPUS_PER_TASK, Itoa_MEM_PER_TASK, Itoa_DISK_PER_TASK]
  split_ifs <;> simp_all

theorem defaultContainer_idem (c : Container) :
    defaultContainer (defaultContainer c) = defaultContainer c := by
  unfold defaultContainer
  rcases hdc : c.DataClass with _ | dc
  · simp
  · rcases hr : dc.Resources with _ | r <;> simp [hr]

theorem defaultContainer_spec (k : Container) :
    ∃ dc1, (defaultContainer k).DataClass = some dc1 ∧
      ((k.DataClass = none ∨ ∃ dc, k.DataClass = some dc ∧ dc.Resources = none) →
        dc1.Resources = some { Cpus := F64.ofInt 1, CPUSet := 0,
                               Mem := F64.ofInt 64, Disk := F64.ofInt 64 }) ∧
      (∀ dc r, k.DataClass = some dc → dc.Resources = some r → defaultContainer k = k) := by
  rcases hdc : k.DataClass with _ | dc
  · refine ⟨{ Resources := some defaultResource }, ?_, ?_, ?_⟩
    · simp only [defaultContainer, hdc]
    · intro _
      rfl
    · intro dc r h1
      simp at h1
  · rcases hr : dc.Resources with _ | r
    · refine ⟨{ dc with Resources := some defaultResource }, ?_, ?_, ?_⟩
      · simp only [defaultContainer, hdc, hr]
      · intro _
        rfl
      · intro dc2 r2 h1 h2
        simp only [Option.some.injEq] at h1
        subst h1
        simp [hr] at h2
    · refine ⟨dc, ?_, ?_, ?_⟩
      · simp only [defaultContainer, hdc, hr]
      · rintro (h1 | ⟨dc2, h1, h2⟩)
        · simp at h1
        · simp only [Option.some.injEq] at h1
          subst h1
          simp [hr] at h2
      · intro dc2 r2 _ _
        simp only [defaultContainer, hdc, hr]
        cases k
        simp_all

theorem defaultProcesses_isSome (ps : List (Option Process)) :
    (defaultProcesses ps).isSome ↔ ∀ p ∈ ps, p ≠ none := by
  induction ps with
  | nil => simp [defaultProcesses]
  | cons p rest ih =>
    cases p with
    | none => simp [defaultProcesses]
    | some q =>
      cases h : defaultProcesses rest with
      | none => simp [defaultProcesses, h] at ih ⊢; exact ih
      | some r => simp [defaultProcesses, h] at ih ⊢; exact ih

theorem defaultContainers_isSome (cs : List (Option Container)) :
    (defaultContainers cs).isSome ↔ ∀ c ∈ cs, c ≠ none := by
  induction cs with
  | nil => simp [defaultContainers]
  | cons c rest ih =>
    cases c with
    | none => simp [defaultContainers]
    | some q =>
      cases h : defaultContainers rest with
      | none => simp [defaultContainers, h] at ih ⊢; exact ih
      | some r => simp [defaultContainers, h] at ih ⊢; exact ih

theorem defaultProcesses_some {ps ps1 : List (Option Process)}
    (h : defaultProcesses ps = some ps1) :
    List.Forall₂ (fun p p1 => ∃ q, p = some q ∧ p1 = some (defaultProcess q)) ps ps1 := by
  induction ps generalizing ps1 with
  | nil =>
    simp [defaultProcesses] at h
    subst h
    exact List.Forall₂.nil
  | cons p rest ih =>
    cases p with
    | none => simp [defaultProcesses] at h
    | some q =>
      cases hr : defaultProcesses rest with
      | none => simp [defaultProcesses, hr] at h
      | some r =>
        simp [defaultProcesses, hr] at h
        subst h
        exact List.Forall₂.cons ⟨q, rfl, rfl⟩ (ih hr)

theorem defaultContainers_some {cs cs1 : List (Option Container)}
    (h : defaultContainers cs = some cs1) :
    List.Forall₂ (fun c c1 => ∃ k, c = some k ∧ c1 = some (defaultContainer k)) cs cs1 := by
  induction cs generalizing cs1 with
  | nil =>
    simp [defaultContainers] at h
    subst h
    exact List.Forall₂.nil
  | cons c rest ih =>
    cases c with
    | none => simp [defaultContainers] at h
    | some q =>
      cases hr : defaultContainers rest with
      | none => simp [defaultContainers, hr] at h
      | some r =>
        simp [defaultContainers, hr] at h
        subst h
        exact List.Forall₂.cons ⟨q, rfl, rfl⟩ (ih hr)

theorem defaultProcesses_fixed {ps ps1 : List (Option Process)}
    (h : defaultProcesses ps = some ps1) : defaultProcesses ps1 = some ps1 := by
  induction ps generalizing ps1 with
  | nil =>
    simp [defaultProcesses] at h
    subst h
    rfl
  | cons p rest ih =>
    cases p with
    | none => simp [defaultProcesses] at h
    | some q =>
      cases hr : defaultProcesses rest with
      | none => simp [defaultProcesses, hr] at h
      | some r =>
        simp [defaultProcesses, hr] at h
        subst h
        simp [defaultProcesses, ih hr, defaultProcess_idem]

theorem defaultContainers_fixed {cs cs1 : List (Option Container)}
    (h : defaultContainers cs = some cs1) : defaultContainers cs1 = some cs1 := by
  induction cs generalizing cs1 with
  | nil =>
    simp [defaultContainers] at h
    subst h
    rfl
  | cons c rest ih =>
    cases c with
    | none => simp [defaultContainers] at h
    | some q =>
      cases hr : defaultContainers rest with
      | none => simp [defaultContainers, hr] at h
      | some r =>
        simp [defaultContainers, hr] at h
        subst h
        simp [defaultContainers, ih hr, defaultContainer_idem]

theorem CheckAndDefaultResource_fixed {v v1 : Version}
    (h : CheckAndDefaultResource v = some v1) : CheckAndDefaultResource v1 = some v1 := by
  unfold CheckAndDefaultResource at h
  split_ifs at h with hk hk2
  · cases hp : defaultProcesses v.Process with
    | none => simp [hp] at h
    | some ps =>
      simp [hp] at h
      subst h
      simp [CheckAndDefaultResource, hk, defaultProcesses_fixed hp]
  · cases hc : defaultContainers v.Container with
    | none => simp [hc] at h
    | some cs =>
      simp [hc] at h
      subst h
      simp [CheckAndDefaultResource, hk, hk2, defaultContainers_fixed hc]
  · simp at h
    subst h
    simp [CheckAndDefaultResource, hk, hk2]

theorem CheckAndDefaultResource_isSome (v : Version)
    (hc : ∀ c ∈ v.Container, c ≠ none) (hp : ∀ p ∈ v.Process, p ≠ none) :
    (CheckAndDefaultResource v).isSome := by
  have h1 := (defaultProcesses_isSome v.Process).2 hp
  have h2 := (defaultContainers_isSome v.Container).2 hc
  unfold CheckAndDefaultResource
  split_ifs
  · cases h : defaultProcesses v.Process with
    | none => simp [h] at h1
    | some ps => simp
  · cases h : defaultContainers v.Container with
    | none => simp [h] at h2
    | some cs => simp
  · simp

/-! ## Lemmas on the aggregation loops -/

theorem kind_APP_ne_PROCESS : ¬ BcsDataType_APP = BcsDataType_PROCESS := by decide

theorem kind_empty_ne_PROCESS : ¬ ("" : String) = BcsDataType_PROCESS := by decide

theorem not_PROCESS_of_APP {kind : String} (hk : kind = BcsDataType_APP ∨ kind = "") :
    ¬ kind = BcsDataType_PROCESS := by
  rcases hk with h | h <;> rw [h] <;> decide

theorem sumProcesses_map_some (limit : ResourceList → String) (ps : List Process) (all : F64) :
    sumProcesses limit (ps.map some) all =
      some (List.foldl (fun a p => a + (ParseFloat (limit p.Resources.Limits)).1) all ps) := by
  induction ps generalizing all with
  | nil => rfl
  | cons p rest ih => simp [sumProcesses, ih]

theorem sumContainers_map_some (quantity : Resource → F64) (cs : List Container)
    (rs : List Resource)
    (h : List.Forall₂ (fun c r => ∃ dc, c.DataClass = some dc ∧ dc.Resources = some r) cs rs)
    (all : F64) :
    sumContainers quantity (cs.map some) all =
      some (List.foldl (fun a r => a + quantity r) all rs) := by
  induction h generalizing all with
  | nil => rfl
  | cons hcr _ ih =>
    obtain ⟨dc, h1, h2⟩ := hcr
    simp [sumContainers, h1, h2, ih]

theorem sumProcesses_append (limit : ResourceList → String)
    (ps qs : List (Option Process)) (all : F64) :
    sumProcesses limit (ps ++ qs) all =
      (sumProcesses limit ps all).bind (sumProcesses limit qs) := by
  induction ps generalizing all with
  | nil => rfl
  | cons p rest ih =>
    cases p with
    | none => rfl
    | some q => simp [sumProcesses, ih]

theorem sumProcesses_isSome (limit : ResourceList → String) (ps : List (Option Process))
    (h : ∀ p ∈ ps, p ≠ none) (all : F64) : (sumProcesses limit ps all).isSome := by
  induction ps generalizing all with
  | nil => simp [sumProcesses]
  | cons p rest ih =>
    cases p with
    | none => simp at h
    | some q =>
      simp only [sumProcesses]
      exact ih (fun p hp => h p (List.mem_cons_of_mem _ hp)) _

theorem ParseFloat_syntax_zero (s : String)
    (h : (ParseFloat s).2 = some NumError.ErrSyntax) : (ParseFloat s).1 = F64.zero := by
  unfold ParseFloat at h ⊢
  cases hs : special s with
  | some x => simp [hs] at h
  | none =>
    cases hd : readDecimal s.data with
    | none => rfl
    | some t =>
      obtain ⟨neg, mant, exp10⟩ := t
      simp only [hs, hd] at h
      cases hf : decimalToF64 neg mant exp10 <;> simp [hf] at h

theorem ParseFloat_range_inf (s : String)
    (h : (ParseFloat s).2 = some NumError.ErrRange) :
    ∃ neg, (ParseFloat s).1 = F64.inf neg := by
  unfold ParseFloat at h ⊢
  cases hs : special s with
  | some x => simp [hs] at h
  | none =>
    cases hd : readDecimal s.data with
    | none => simp [hs, hd] at h
    | some t =>
      obtain ⟨neg, mant, exp10⟩ := t
      simp only [hs, hd] at h
      cases hf : decimalToF64 neg mant exp10 with
      | nan => simp [hf] at h
      | inf b => exact ⟨b, by simp [hf]⟩
      | fin b n => simp [hf] at h

theorem ParseFloat_zero_string : ParseFloat "0" = (F64.zero, none) := by decide!

theorem sumProcesses_syntax_error (limit : ResourceList → String)
    (ps qs : List (Option Process)) (p p0 : Process)
    (h : (ParseFloat (limit p.Resources.Limits)).2 = some NumError.ErrSyntax)
    (h0 : limit p0.Resources.Limits = "0") (all : F64) :
    sumProcesses limit (ps ++ some p :: qs) all =
      sumProcesses limit (ps ++ some p0 :: qs) all := by
  rw [sumProcesses_append, sumProcesses_append]
  cases sumProcesses limit ps all with
  | none => rfl
  | some a =>
    simp only [Option.some_bind, sumProcesses, ParseFloat_syntax_zero _ h, h0,
      ParseFloat_zero_string]

theorem sumProcesses_inv (limit : ResourceList → String) (ps : List (Option Process))
    (all r : F64) (hv : F64.valid all = true) (hz : all ≠ F64.fin true 0)
    (h : sumProcesses limit ps all = some r) : F64.valid r = true ∧ r ≠ F64.fin true 0 := by
  induction ps generalizing all with
  | nil =>
    simp only [sumProcesses, Option.some.injEq] at h
    subst h
    exact ⟨hv, hz⟩
  | cons p rest ih =>
    cases p with
    | none => simp [sumProcesses] at h
    | some q =>
      simp only [sumProcesses] at h
      exact ih _ (F64.add_valid _ _ hv (ParseFloat_valid _)) (F64.add_ne_negzero _ _ hz) h

theorem sumProcesses_drop (limit : ResourceList → String)
    (ps qs : List (Option Process)) (p : Process)
    (h : (ParseFloat (limit p.Resources.Limits)).2 = some NumError.ErrSyntax) :
    sumProcesses limit (ps ++ some p :: qs) F64.zero =
      sumProcesses limit (ps ++ qs) F64.zero := by
  rw [sumProcesses_append, sumProcesses_append]
  cases ha : sumProcesses limit ps F64.zero with
  | none => rfl
  | some a =>
    obtain ⟨hv, hz⟩ := sumProcesses_inv limit ps F64.zero a (F64.valid_zero _) (by decide) ha
    simp only [Option.some_bind, sumProcesses, ParseFloat_syntax_zero _ h,
      F64.add_zero_right a hv hz]

/-! ## Lemmas on float64 signs -/

theorem F64.nonneg_zero : F64.nonneg F64.zero = true := by decide

theorem F64.nonneg_roundRat (num den : Nat) :
    F64.nonneg (F64.roundRat false num den) = true := by
  unfold F64.roundRat
  simp only
  split_ifs <;> simp [F64.nonneg, F64.le, F64.zero, F64.signed] <;> positivity

theorem F64.nonneg_ofInt_64 : F64.nonneg (F64.ofInt 64) = true :=
  F64.nonneg_roundRat _ _

theorem F64.nonneg_add (x y : F64) (hx : F64.nonneg x = true) (hy : F64.nonneg y = true) :
    F64.nonneg (x + y) = true := by
  show F64.nonneg (F64.add x y) = true
  cases x with
  | nan => simp [F64.nonneg, F64.le, F64.zero] at hx
  | inf a =>
    cases y with
    | nan => simp [F64.nonneg, F64.le, F64.zero] at hy
    | inf b =>
      simp [F64.nonneg, F64.le, F64.zero] at hx hy
      subst hx
      subst hy
      simp [F64.add, F64.nonneg, F64.le, F64.zero]
    | fin b n =>
      simp [F64.nonneg, F64.le, F64.zero] at hx
      subst hx
      simp [F64.add, F64.nonneg, F64.le, F64.zero]
  | fin a m =>
    cases y with
    | nan => simp [F64.nonneg, F64.le, F64.zero] at hy
    | inf b =>
      simp [F64.nonneg, F64.le, F64.zero] at hy
      subst hy
      simp [F64.add, F64.nonneg, F64.le, F64.zero]
    | fin b n =>
      simp only [F64.nonneg, F64.le, F64.zero, decide_eq_true_eq] at hx hy
      have h0 : F64.signed false 0 = 0 := by simp [F64.signed]
      rw [h0] at hx hy
      simp only [F64.add]
      split_ifs with hs
      · cases a <;> cases b <;> simp [F64.nonneg, F64.le, F64.zero, F64.signed]
      · have hneg : decide (F64.signed a m + F64.signed b n < 0) = false := by
          simp only [decide_eq_false_iff_not, not_lt]
          omega
        rw [hneg]
        exact F64.nonneg_roundRat _ _

theorem nonneg_foldl {α : Type} (q : α → F64) (l : List α)
    (h : ∀ x ∈ l, F64.nonneg (q x) = true) (all : F64) (ha : F64.nonneg all = true) :
    F64.nonneg (List.foldl (fun a x => a + q x) all l) = true := by
  induction l generalizing all with
  | nil => exact ha
  | cons x rest ih =>
    simp only [List.foldl_cons]
    exact ih (fun y hy => h y (List.mem_cons_of_mem _ hy)) _
      (F64.nonneg_add _ _ ha (h x (List.mem_cons_self _ _)))

/-! ## Lemmas on the constraint walk -/

theorem checkRanges_false (rs : List (Option ConstraintValue_Range)) :
    checkRanges rs = false ↔ none ∈ rs := by
  induction rs with
  | nil => simp [checkRanges]
  | cons r rest ih =>
    cases r with
    | none => simp [checkRanges]
    | some x => simp [checkRanges, ih]

theorem checkOneData_false (od : ConstraintData) :
    checkOneData od = false ↔
      (od.Type_ = ConstValueType_Scalar ∧ od.Scalar = none) ∨
      (od.Type_ = ConstValueType_Text ∧ od.Text = none) ∨
      (od.Type_ = ConstValueType_Set ∧ od.Set = none) ∨
      (od.Type_ = ConstValueType_Range ∧ none ∈ od.Ranges) := by
  unfold checkOneData
  split_ifs with h1 h2 h3 h4
  · simp [h1]
  · simp [h2]
  · simp [h3]
  · rw [checkRanges_false]
    simp [h4]
  · constructor
    · intro h
      simp at h
    · rintro (h | h | h | h)
      · exact absurd h h1
      · exact absurd h h2
      · exact absurd h h3
      · exact absurd h.1 h4

theorem checkUnionData_false (l : List (Option ConstraintData)) :
    checkUnionData l = false ↔ ∃ od, some od ∈ l ∧ checkOneData od = false := by
  induction l with
  | nil => simp [checkUnionData]
  | cons d rest ih =>
    cases d with
    | none => simp [checkUnionData, ih]
    | some x =>
      by_cases hx : checkOneData x = true
      · simp only [checkUnionData, hx, if_true, ih, List.mem_cons, Option.some.injEq]
        constructor
        · rintro ⟨od, h1, h2⟩
          exact ⟨od, Or.inr h1, h2⟩
        · rintro ⟨od, h1 | h1, h2⟩
          · subst h1
            rw [hx] at h2
            cases h2
          · exact ⟨od, h1, h2⟩
      · simp only [Bool.not_eq_true] at hx
        simp only [checkUnionData, hx, Bool.false_eq_true, if_false, true_iff]
        exact ⟨x, List.mem_cons_self _ _, hx⟩

theorem checkIntersectionItem_false (l : List (Option ConstraintDataItem)) :
    checkIntersectionItem l = false ↔
      ∃ it, some it ∈ l ∧ checkUnionData it.UnionData = false := by
  induction l with
  | nil => simp [checkIntersectionItem]
  | cons d rest ih =>
    cases d with
    | none => simp [checkIntersectionItem, ih]
    | some x =>
      by_cases hx : checkUnionData x.UnionData = true
      · simp only [checkIntersectionItem, hx, if_true, ih, List.mem_cons, Option.some.injEq]
        constructor
        · rintro ⟨it, h1, h2⟩
          exact ⟨it, Or.inr h1, h2⟩
        · rintro ⟨it, h1 | h1, h2⟩
          · subst h1
            rw [hx] at h2
            cases h2
          · exact ⟨it, h1, h2⟩
      · simp only [Bool.not_eq_true] at hx
        simp only [checkIntersectionItem, hx, Bool.false_eq_true, if_false, true_iff]
        exact ⟨x, List.mem_cons_self _ _, hx⟩

theorem checkIntersectionItem_false_entry (l : List (Option ConstraintDataItem)) :
    checkIntersectionItem l = false ↔
      ∃ it od, some it ∈ l ∧ some od ∈ it.UnionData ∧
        ((od.Type_ = ConstValueType_Scalar ∧ od.Scalar = none) ∨
         (od.Type_ = ConstValueType_Text ∧ od.Text = none) ∨
         (od.Type_ = ConstValueType_Set ∧ od.Set = none) ∨
         (od.Type_ = ConstValueType_Range ∧ none ∈ od.Ranges)) := by
  rw [checkIntersectionItem_false]
  constructor
  · rintro ⟨it, h1, h2⟩
    obtain ⟨od, h3, h4⟩ := (checkUnionData_false _).1 h2
    exact ⟨it, od, h1, h3, (checkOneData_false od).1 h4⟩
  · rintro ⟨it, od, h1, h3, h4⟩
    exact ⟨it, h1, (checkUnionData_false _).2 ⟨od, h3, (checkOneData_false od).2 h4⟩⟩

/-! ## Lemmas on the storage handlers -/

theorem wrapInt64_of_range (i : Int) (h1 : -9223372036854775808 ≤ i)
    (h2 : i < 9223372036854775808) : wrapInt64 i = i := by
  unfold wrapInt64
  omega

theorem string_append_left_cancel {a b c : String} (h : a ++ b = a ++ c) : b = c := by
  rw [String.ext_iff] at h ⊢
  simpa using h

theorem match_err_eq (err : Option GoError) (calls : List Call) :
    (match err with
      | some e => ({ calls := calls, err := some e } : Outcome)
      | none => { calls := calls, err := none }) = { calls := calls, err := err } := by
  cases err <;> rfl

theorem match_err_eq_some (err : Option GoError) (calls : List Call) :
    (match err with
      | some e => some ({ calls := calls, err := some e } : Outcome)
      | none => some { calls := calls, err := none }) = some { calls := calls, err := err } := by
  cases err <;> rfl

theorem AppHandler_Add_entity (h : AppHandler) (now : Time) (app : Application) :
    ∃ status, h.FormatConv now (some app) = some (status, none) ∧
      h.Add now (Value.application (some app)) =
        some ⟨[Call.CreateDCNode
            ("/bcsstorage/v1/mesos/dynamic/namespace_resources/clusters/" ++ h.ClusterID ++
              "/namespaces/" ++ app.RunAs ++ "/" ++ h.dataType ++ "/" ++ app.ID)
            (Value.replicaControllerStatus (some status)) "PUT"],
          h.oper.respond []
            (Call.CreateDCNode
              ("/bcsstorage/v1/mesos/dynamic/namespace_resources/clusters/" ++ h.ClusterID ++
                "/namespaces/" ++ app.RunAs ++ "/" ++ h.dataType ++ "/" ++ app.ID)
              (Value.replicaControllerStatus (some status)) "PUT")⟩ := by
  refine ⟨_, rfl, ?_⟩
  simp only [AppHandler.Add, AppHandler.FormatConv]
  exact match_err_eq_some _ _

theorem AppHandler_Delete_entity (h : AppHandler) (app : Application) :
    h.Delete (Value.application (some app)) =
      some ⟨[Call.DeleteDCNode
          ("/bcsstorage/v1/mesos/dynamic/namespace_resources/clusters/" ++ h.ClusterID ++
            "/namespaces/" ++ app.RunAs ++ "/" ++ h.dataType ++ "/" ++ app.ID) "DELETE"],
        h.oper.respond []
          (Call.DeleteDCNode
            ("/bcsstorage/v1/mesos/dynamic/namespace_resources/clusters/" ++ h.ClusterID ++
              "/namespaces/" ++ app.RunAs ++ "/" ++ h.dataType ++ "/" ++ app.ID) "DELETE")⟩ := by
  simp only [AppHandler.Delete]
  split
  · next e he => rw [he]
  · rfl

theorem AppHandler_CheckDirty_sweep (h : AppHandler) (now : Time) (hd : h.DoCheckDirty = true) :
    h.CheckDirty now =
      ⟨[Call.DeleteDCNodes
          ("/bcsstorage/v1/mesos/dynamic/all_resources/clusters/" ++ h.ClusterID ++ "/" ++
            h.dataType)
          (Value.batchDeleteIf (some ⟨0, wrapInt64 (now.Unix - 600)⟩)) "DELETE"],
        h.oper.respond []
          (Call.DeleteDCNodes
            ("/bcsstorage/v1/mesos/dynamic/all_resources/clusters/" ++ h.ClusterID ++ "/" ++
              h.dataType)
            (Value.batchDeleteIf (some ⟨0, wrapInt64 (now.Unix - 600)⟩)) "DELETE")⟩ := by
  simp only [AppHandler.CheckDirty, hd, if_true]
  exact match_err_eq _ _

theorem EndpointHandler_Add_entity (h : EndpointHandler) (ep : BcsEndpoint) :
    h.Add (Value.endpoint (some ep)) =
      some ⟨[Call.CreateDCNode
          ("/bcsstorage/v1/mesos/dynamic/namespace_resources/clusters/" ++ h.ClusterID ++
            "/namespaces/" ++ ep.ObjectMeta.NameSpace ++ "/" ++ h.dataType ++ "/" ++
            ep.ObjectMeta.Name)
          (Value.endpoint (some ep)) "PUT"],
        h.oper.respond []
          (Call.CreateDCNode
            ("/bcsstorage/v1/mesos/dynamic/namespace_resources/clusters/" ++ h.ClusterID ++
              "/namespaces/" ++ ep.ObjectMeta.NameSpace ++ "/" ++ h.dataType ++ "/" ++
              ep.ObjectMeta.Name)
            (Value.endpoint (some ep)) "PUT")⟩ := by
  simp only [EndpointHandler.Add]
  exact match_err_eq_some _ _

theorem EndpointHandler_CheckDirty_sweep (h : EndpointHandler) (now : Time) :
    h.CheckDirty now =
      ⟨[Call.DeleteDCNodes
          ("/bcsstorage/v1/mesos/dynamic/all_resources/clusters/" ++ h.ClusterID ++ "/" ++
            h.dataType)
          (Value.batchDeleteIf (some ⟨0, wrapInt64 (now.Unix - 600)⟩)) "DELETE"],
        h.oper.respond []
          (Call.DeleteDCNodes
            ("/bcsstorage/v1/mesos/dynamic/all_resources/clusters/" ++ h.ClusterID ++ "/" ++
              h.dataType)
            (Value.batchDeleteIf (some ⟨0, wrapInt64 (now.Unix - 600)⟩)) "DELETE")⟩ := by
  simp only [EndpointHandler.CheckDirty]
  exact match_err_eq _ _

theorem uint64ToInt_small (u : Nat) (h : u < 9223372036854775808) : uint64ToInt u = (u : Int) := by
  unfold uint64ToInt wrapInt64
  omega

theorem uint64ToInt_large (u : Nat) (h1 : 9223372036854775808 ≤ u)
    (h2 : u < 18446744073709551616) : uint64ToInt u = (u : Int) - 18446744073709551616 := by
  unfold uint64ToInt wrapInt64
  omega

theorem string_append_ne {a b c : String} (h : b ≠ c) : a ++ b ≠ a ++ c :=
  fun he => h (string_append_left_cancel he)

theorem watch_ne_dynamic (x y : String) :
    "/bcsstorage/v1/mesos/watch/clusters/" ++ x ≠
      "/bcsstorage/v1/mesos/dynamic/namespace_resources/clusters/" ++ y := by
  intro h
  have h2 := congrArg (fun s : String => s.data.get? 21) h
  simp [String.data_append] at h2

theorem AppHandler_Add_paths (h : AppHandler) (now : Time) (app : Application) :
    (h.Add now (Value.application (some app))).map (fun o => o.calls.map Call.node) =
      some ["/bcsstorage/v1/mesos/dynamic/namespace_resources/clusters/" ++ h.ClusterID ++
        "/namespaces/" ++ app.RunAs ++ "/" ++ h.dataType ++ "/" ++ app.ID] := by
  obtain ⟨status, _, hadd⟩ := AppHandler_Add_entity h now app
  rw [hadd]
  rfl

theorem EndpointHandler_Add_paths (h : EndpointHandler) (ep : BcsEndpoint) :
    (h.Add (Value.endpoint (some ep))).map (fun o => o.calls.map Call.node) =
      some ["/bcsstorage/v1/mesos/dynamic/namespace_resources/clusters/" ++ h.ClusterID ++
        "/namespaces/" ++ ep.ObjectMeta.NameSpace ++ "/" ++ h.dataType ++ "/" ++
        ep.ObjectMeta.Name] := by
  rw [EndpointHandler_Add_entity h ep]
  rfl

theorem ExpServiceHandler_Add_paths (h : ExpServiceHandler) (svc : ExportService) :
    (h.Add (Value.exportService (some svc))).map (fun o => o.calls.map Call.node) =
      some ["/bcsstorage/v1/mesos/watch/clusters/" ++ h.ClusterID ++ "/namespaces/" ++
          svc.Namespace ++ "/" ++ h.dataType ++ "/" ++ svc.ServiceName,
        "/bcsstorage/v1/mesos/dynamic/namespace_resources/clusters/" ++ h.ClusterID ++
          "/namespaces/" ++ svc.Namespace ++ "/" ++ h.dataType ++ "/" ++ svc.ServiceName] :=
  rfl

theorem time_Unix_zero (sec : Int) : time_Unix sec 0 = ⟨sec, 0⟩ := by
  simp [time_Unix]

/-! ## Lemmas on defaulting followed by aggregation -/

theorem defaultContainer_has_block (k : Container) :
    ∃ dc r, (defaultContainer k).DataClass = some dc ∧ dc.Resources = some r := by
  rcases hdc : k.DataClass with _ | dc
  · refine ⟨{ Resources := some defaultResource }, defaultResource, ?_, rfl⟩
    simp only [defaultContainer, hdc]
  · rcases hr : dc.Resources with _ | r
    · refine ⟨{ dc with Resources := some defaultResource }, defaultResource, ?_, rfl⟩
      simp only [defaultContainer, hdc, hr]
    · refine ⟨dc, r, ?_, hr⟩
      simp only [defaultContainer, hdc, hr]

theorem defaultContainers_mem {cs cs1 : List (Option Container)}
    (h : defaultContainers cs = some cs1) :
    ∀ c1 ∈ cs1, ∃ k, c1 = some (defaultContainer k) := by
  induction cs generalizing cs1 with
  | nil =>
    simp [defaultContainers] at h
    subst h
    simp
  | cons c rest ih =>
    cases c with
    | none => simp [defaultContainers] at h
    | some q =>
      cases hr : defaultContainers rest with
      | none => simp [defaultContainers, hr] at h
      | some r =>
        simp [defaultContainers, hr] at h
        subst h
        intro c1 hc1
        rcases List.mem_cons.1 hc1 with h1 | h1
        · exact ⟨q, h1⟩
        · exact ih hr c1 h1

theorem sumContainers_isSome (quantity : Resource → F64) (cs : List (Option Container))
    (h : ∀ c ∈ cs, ∃ k dc r, c = some k ∧ k.DataClass = some dc ∧ dc.Resources = some r)
    (all : F64) : (sumContainers quantity cs all).isSome := by
  induction cs generalizing all with
  | nil => simp [sumContainers]
  | cons c rest ih =>
    obtain ⟨k, dc, r, h1, h2, h3⟩ := h c (List.mem_cons_self _ _)
    subst h1
    simp only [sumContainers, h2, h3]
    exact ih (fun c hc => h c (List.mem_cons_of_mem _ hc)) _

/-! ## Lemmas on path injectivity -/

theorem list_split_at_slash (a b x y : List Char) (ha : '/' ∉ a) (hb : '/' ∉ b)
    (h : a ++ '/' :: x = b ++ '/' :: y) : a = b ∧ x = y := by
  induction a generalizing b with
  | nil =>
    cases b with
    | nil =>
      simp only [List.nil_append, List.cons.injEq, true_and] at h
      exact ⟨rfl, h⟩
    | cons c cs =>
      simp only [List.nil_append, List.cons_append, List.cons.injEq] at h
      exact absurd (List.mem_cons.2 (Or.inl h.1)) hb
  | cons d ds ih =>
    cases b with
    | nil =>
      simp only [List.nil_append, List.cons_append, List.cons.injEq] at h
      exact absurd (List.mem_cons.2 (Or.inl h.1.symm)) ha
    | cons c cs =>
      simp only [List.cons_append, List.cons.injEq] at h
      obtain ⟨h1, h2⟩ := ih cs (fun hm => ha (List.mem_cons_of_mem _ hm))
        (fun hm => hb (List.mem_cons_of_mem _ hm)) h.2
      exact ⟨by rw [h.1, h1], h2⟩

theorem namespace_path_injective (pre kind ns1 name1 ns2 name2 : String)
    (h1 : '/' ∉ ns1.data) (h2 : '/' ∉ ns2.data)
    (h : pre ++ ns1 ++ "/" ++ kind ++ "/" ++ name1 = pre ++ ns2 ++ "/" ++ kind ++ "/" ++ name2) :
    ns1 = ns2 ∧ name1 = name2 := by
  rw [String.ext_iff] at h
  simp only [String.data_append, List.append_assoc] at h
  have h3 := List.append_cancel_left h
  simp only [List.singleton_append] at h3
  obtain ⟨h4, h5⟩ := list_split_at_slash _ _ _ _ h1 h2 h3
  have h6 := List.cons.inj (List.append_cancel_left h5)
  exact ⟨String.ext_iff.2 h4, String.ext_iff.2 h6.2⟩

/-! ## Lemmas on exact float64 sums -/

theorem F64.mul_two_pow_lt_two_pow (q d e : Nat) (h : q ≤ 2 ^ 53) (hd : 53 + d < e) :
    q * 2 ^ d < 2 ^ e := by
  have h1 : q * 2 ^ d ≤ 2 ^ 53 * 2 ^ d := Nat.mul_le_mul_right _ h
  have h2 : 2 ^ 53 * 2 ^ d = 2 ^ (53 + d) := (Nat.pow_add 2 53 d).symm
  have h3 : 2 ^ (53 + d) < 2 ^ e := Nat.pow_lt_pow_right (by decide) hd
  omega

theorem F64.mul_two_pow_lt_overflow (q d : Nat) (h : q ≤ 2 ^ 53) (hd : d ≤ 2000) :
    q * 2 ^ d < F64.overflow_ulps :=
  F64.mul_two_pow_lt_two_pow q d 2098 h (by omega)

theorem F64.add_exact (a b u d : Nat) (hu : u = 2 ^ d) (hd : d ≤ 2000) (h : a + b ≤ 2 ^ 53) :
    F64.fin false (a * u) + F64.fin false (b * u) = F64.fin false ((a + b) * u) := by
  show F64.add (F64.fin false (a * u)) (F64.fin false (b * u)) = _
  have hs : F64.signed false (a * u) + F64.signed false (b * u) = (((a + b) * u : Nat) : Int) := by
    simp only [F64.signed, Bool.false_eq_true, if_false]
    push_cast
    ring
  simp only [F64.add, hs]
  split_ifs with h0
  · have : (a + b) * u = 0 := by exact_mod_cast h0
    rw [this]
    rfl
  · have hneg : decide ((((a + b) * u : Nat) : Int) < 0) = false := by
      simp only [decide_eq_false_iff_not, not_lt]
      exact Int.ofNat_nonneg _
    rw [hneg, Int.natAbs_ofNat]
    apply F64.roundRat_exact
    rw [hu]
    exact F64.valid_mul_two_pow _ _ _ h (F64.mul_two_pow_lt_overflow _ _ h hd)

theorem F64.ofInt_natCast (n : Nat) (h : n ≤ 2 ^ 53) :
    F64.ofInt (n : Int) = F64.fin false (n * F64.one_ulps) := by
  have hneg : decide ((n : Int) < 0) = false := by
    simp only [decide_eq_false_iff_not, not_lt]
    exact Int.ofNat_nonneg _
  unfold F64.ofInt
  rw [hneg, Int.natAbs_ofNat]
  apply F64.roundRat_exact
  exact F64.valid_mul_two_pow _ n 1074 h (F64.mul_two_pow_lt_overflow _ _ h (by decide))

theorem F64.foldl_add_const {α : Type} (q : α → F64) (u d : Nat) (hu : u = 2 ^ d)
    (hd : d ≤ 2000) (l : List α) (hq : ∀ x ∈ l, q x = F64.fin false (1 * u)) (k : Nat)
    (hk : k + l.length ≤ 2 ^ 53) :
    List.foldl (fun a x => a + q x) (F64.fin false (k * u)) l
      = F64.fin false ((k + l.length) * u) := by
  induction l generalizing k with
  | nil => rfl
  | cons x rest ih =>
    simp only [List.foldl_cons, List.length_cons] at hk ⊢
    rw [hq x (List.mem_cons_self _ _), F64.add_exact k 1 u d hu hd (by omega),
      ih (fun y hy => hq y (List.mem_cons_of_mem _ hy)) (k + 1) (by omega)]
    congr 2
    omega

theorem F64.one_ulps_eq : F64.one_ulps = 2 ^ 1074 := by unfold F64.one_ulps; rfl

theorem F64.sixtyfour_ulps : 64 * F64.one_ulps = 2 ^ 1080 := by decide!

theorem F64.ofInt_one : F64.ofInt 1 = F64.fin false (1 * F64.one_ulps) := by decide!

theorem F64.ofInt_sixtyfour : F64.ofInt 64 = F64.fin false (1 * (64 * F64.one_ulps)) := by
  decide!

theorem ParseFloat_one : ParseFloat "1" = (F64.ofInt 1, none) := by decide!

theorem ParseFloat_sixtyfour : ParseFloat "64" = (F64.ofInt 64, none) := by decide!

theorem F64.ofInt_sixtyfour_mul (n : Nat) (h : n + 1 ≤ 2 ^ 53) :
    F64.ofInt (64 * (n : Int) + 64) = F64.fin false ((n + 1) * (64 * F64.one_ulps)) := by
  have hc : (64 * (n : Int) + 64) = (((n + 1) * 64 : Nat) : Int) := by
    push_cast
    ring
  have hneg : decide ((((n + 1) * 64 : Nat) : Int) < 0) = false := by
    simp only [decide_eq_false_iff_not, not_lt]
    exact Int.ofNat_nonneg _
  unfold F64.ofInt
  rw [hc, hneg, Int.natAbs_ofNat, Nat.mul_assoc]
  apply F64.roundRat_exact
  rw [F64.sixtyfour_ulps]
  exact F64.valid_mul_two_pow _ _ 1080 h (F64.mul_two_pow_lt_overflow _ _ h (by decide))

theorem defaultResource_Cpus :
    defaultResource.Cpus = F64.fin false (1 * F64.one_ulps) := by decide!

theorem defaultResource_Mem :
    defaultResource.Mem = F64.fin false (1 * (64 * F64.one_ulps)) := by decide!

theorem defaultResource_Disk :
    defaultResource.Disk = F64.fin false (1 * (64 * F64.one_ulps)) := by decide!

theorem F64.zero_eq_mul (u : Nat) : F64.zero = F64.fin false (0 * u) := by
  rw [Nat.zero_mul]
  rfl

theorem defaultContainers_map_some (cs : List Container) :
    defaultContainers (cs.map some) = some (cs.map (fun c => some (defaultContainer c))) := by
  induction cs with
  | nil => rfl
  | cons c rest ih => simp only [List.map_cons, defaultContainers, ih]

theorem defaultProcesses_map_some (ps : List Process) :
    defaultProcesses (ps.map some) = some (ps.map (fun p => some (defaultProcess p))) := by
  induction ps with
  | nil => rfl
  | cons p rest ih => simp only [List.map_cons, defaultProcesses, ih]

theorem defaultContainer_lacking (c : Container)
    (h : c.DataClass = none ∨ ∃ dc, c.DataClass = some dc ∧ dc.Resources = none) :
    ∃ dc1, (defaultContainer c).DataClass = some dc1 ∧
      dc1.Resources = some defaultResource := by
  obtain ⟨dc1, h1, h2, _⟩ := defaultContainer_spec c
  exact ⟨dc1, h1, h2 h⟩

theorem defaultProcess_empty (p : Process) (h : p.Resources.Limits = ⟨"", "", ""⟩) :
    (defaultProcess p).Resources.Limits = ⟨"1", "64", "64"⟩ := by
  simp only [defaultProcess, h, Itoa_CPUS_PER_TASK, Itoa_MEM_PER_TASK, Itoa_DISK_PER_TASK,
    if_true]

theorem sumContainers_defaulted (q : Resource → F64) (u d : Nat) (hu : u = 2 ^ d)
    (hd : d ≤ 2000) (hq : q defaultResource = F64.fin false (1 * u)) (cs : List Container)
    (hl : ∀ c ∈ cs, c.DataClass = none ∨ ∃ dc, c.DataClass = some dc ∧ dc.Resources = none)
    (k : Nat) (hk : k + cs.length ≤ 2 ^ 53) :
    sumContainers q (cs.map (fun c => some (defaultContainer c))) (F64.fin false (k * u))
      = some (F64.fin false ((k + cs.length) * u)) := by
  induction cs generalizing k with
  | nil => rfl
  | cons c rest ih =>
    obtain ⟨dc1, h1, h2⟩ := defaultContainer_lacking c (hl c (List.mem_cons_self _ _))
    simp only [List.length_cons] at hk
    simp only [List.map_cons, sumContainers, h1, h2, hq, List.length_cons]
    rw [F64.add_exact k 1 u d hu hd (by omega),
      ih (fun y hy => hl y (List.mem_cons_of_mem _ hy)) (k + 1) (by omega)]
    congr 3
    omega

theorem sumProcesses_defaulted (limit : ResourceList → String) (u d : Nat) (hu : u = 2 ^ d)
    (hd : d ≤ 2000)
    (s : String) (hs : limit ⟨"1", "64", "64"⟩ = s)
    (hq : (ParseFloat s).1 = F64.fin false (1 * u))
    (ps : List Process) (hl : ∀ p ∈ ps, p.Resources.Limits = ⟨"", "", ""⟩)
    (k : Nat) (hk : k + ps.length ≤ 2 ^ 53) :
    sumProcesses limit (ps.map (fun p => some (defaultProcess p))) (F64.fin false (k * u))
      = some (F64.fin false ((k + ps.length) * u)) := by
  induction ps generalizing k with
  | nil => rfl
  | cons p rest ih =>
    have h1 := defaultProcess_empty p (hl p (List.mem_cons_self _ _))
    simp only [List.length_cons] at hk
    simp only [List.map_cons, sumProcesses, h1, hs, hq, List.length_cons]
    rw [F64.add_exact k 1 u d hu hd (by omega),
      ih (fun y hy => hl y (List.mem_cons_of_mem _ hy)) (k + 1) (by omega)]
    congr 3
    omega

/-! ## Lemmas on the stored nodes -/

theorem Storage_ext (a b : Storage) (h : ∀ p, a.nodes p = b.nodes p) : a = b := by
  cases a
  cases b
  exact congrArg Storage.mk (funext h)

theorem Storage_CreateNode_twice (st : Storage) (path : String) (b1 b2 : Value) :
    (st.CreateNode path b1).CreateNode path b2 = st.CreateNode path b2 := by
  apply Storage_ext
  intro p
  simp only [Storage.CreateNode]
  split_ifs <;> rfl

theorem Storage_CreateNode_pair_twice (st : Storage) (p1 p2 : String) (b : Value) :
    (((st.CreateNode p1 b).CreateNode p2 b).CreateNode p1 b).CreateNode p2 b =
      (st.CreateNode p1 b).CreateNode p2 b := by
  apply Storage_ext
  intro p
  simp only [Storage.CreateNode]
  split_ifs <;> rfl

theorem Storage_DeleteNode_absent (st : Storage) (path : String)
    (h : st.nodes path = none) : st.DeleteNode path = st := by
  apply Storage_ext
  intro p
  simp only [Storage.DeleteNode]
  split_ifs with hp
  · rw [hp, h]
  · rfl

theorem AppHandler_Update_eq_Add (h : AppHandler) (now : Time) (data : Value) :
    h.Update now data = h.Add now data := rfl

theorem EndpointHandler_Update_eq_Add (h : EndpointHandler) (data : Value) :
    h.Update data = h.Add data := by
  unfold EndpointHandler.Update EndpointHandler.Add
  split
  · exact (match_err_eq_some _ _).symm
  · rfl

theorem ExpServiceHandler_Update_eq_Add (h : ExpServiceHandler) (data : Value) :
    h.Update data = h.Add data := rfl

theorem Storage_after_cons (st : Storage) (o : Outcome) (rest : List (Option Outcome)) :
    st.after (some o :: rest) = (st.run o.calls).bind (fun st1 => st1.after rest) := by
  simp only [Storage.after]
  cases st.run o.calls <;> rfl

theorem Storage_after_create (st : Storage) (path : String) (body : Value) (action : String)
    (err : Option GoError) (rest : List (Option Outcome)) :
    st.after (some ⟨[Call.CreateDCNode path body action], err⟩ :: rest) =
      (st.CreateNode path body).after rest := rfl

theorem Storage_after_replicate (o : Option Outcome)
    (hi : ∀ st : Storage, st.after [o, o] = st.after [o]) (n : Nat) (st : Storage) :
    st.after (List.replicate (n + 1) o) = st.after [o] := by
  induction n generalizing st with
  | zero => rfl
  | succ n ih =>
    rw [List.replicate_succ]
    rcases o with _ | oc
    · rfl
    · rw [Storage_after_cons]
      have h2 := hi st
      rw [Storage_after_cons] at h2
      rw [← h2]
      cases st.run oc.calls with
      | none => rfl
      | some st1 => exact ih st1

theorem EndpointHandler_Add_twice (h : EndpointHandler) (data : Value) (st : Storage) :
    st.after [h.Add data, h.Add data] = st.after [h.Add data] := by
  rcases data with _ | _ | e | _ | _ | _
  all_goals first
    | rfl
    | skip
  rcases e with _ | ep
  · rfl
  · rw [EndpointHandler_Add_entity h ep, Storage_after_create, Storage_after_create,
      Storage_after_create, Storage_CreateNode_twice]

theorem ExpServiceHandler_Add_twice (h : ExpServiceHandler) (data : Value) (st : Storage) :
    st.after [h.Add data, h.Add data] = st.after [h.Add data] := by
  rcases data with _ | _ | _ | s | _ | _
  all_goals first
    | rfl
    | skip
  rcases s with _ | svc
  · rfl
  · simp only [ExpServiceHandler.Add, Storage.after, Storage.run, Storage.apply,
      Storage_CreateNode_pair_twice]

theorem AppHandler_Add_then_Add (h : AppHandler) (data : Value) (t1 t2 : Time)
    (st : Storage) :
    st.after [h.Add t1 data, h.Add t2 data] = st.after [h.Add t2 data] := by
  rcases data with _ | a | _ | _ | _ | _
  all_goals first
    | rfl
    | skip
  rcases a with _ | app
  · rfl
  · obtain ⟨s1, _, h1⟩ := AppHandler_Add_entity h t1 app
    obtain ⟨s2, _, h2⟩ := AppHandler_Add_entity h t2 app
    rw [h1, h2, Storage_after_create, Storage_after_create, Storage_after_create,
      Storage_CreateNode_twice]

theorem AppHandler_Add_repeat (h : AppHandler) (data : Value) (ts : List Time) (t : Time)
    (st : Storage) :
    st.after ((ts ++ [t]).map (fun now => h.Add now data)) = st.after [h.Add t data] := by
  induction ts generalizing st with
  | nil => rfl
  | cons t0 rest ih =>
    rw [← AppHandler_Add_then_Add h data t0 t st]
    simp only [List.cons_append, List.map_cons]
    rcases h.Add t0 data with _ | oc
    · rfl
    · rw [Storage_after_cons, Storage_after_cons]
      cases st.run oc.calls with
      | none => rfl
      | some st1 => exact ih st1

/-! ## The claims -/

/-- C1. `CheckAndDefaultResource` is idempotent: on every `Version` without nil
container or process entries, of any `Kind`, the call returns, and a second
call on the result returns that same result. -/
theorem CheckAndDefaultResource_idempotent (v : Version)
    (hc : ∀ c ∈ v.Container, c ≠ none) (hp : ∀ p ∈ v.Process, p ≠ none) :
    ∃ v1, CheckAndDefaultResource v = some v1 ∧ CheckAndDefaultResource v1 = some v1 := by
  obtain ⟨v1, h⟩ := Option.isSome_iff_exists.1 (CheckAndDefaultResource_isSome v hc hp)
  exact ⟨v1, h, CheckAndDefaultResource_fixed h⟩

theorem CheckAndDefaultResource_idempotent_witness :
    ∃ v1, CheckAndDefaultResource
        (versionWith "" [some bareContainer] [some (processWith "" "3" "")] none) = some v1 ∧
      CheckAndDefaultResource v1 = some v1 :=
  CheckAndDefaultResource_idempotent
    (versionWith "" [some bareContainer] [some (processWith "" "3" "")] none)
    (by decide) (by decide)

/-- C2. For a `Version` of kind `PROCESS`, `CheckAndDefaultResource` returns
exactly when the process list has no nil entry, it keeps the list positions,
and in every process each of the three limits is decided on its own: an empty
`Cpu` becomes `"1"`, an empty `Mem` becomes `"64"`, an empty `Storage` becomes
`"64"`, and a limit that was not empty is left as it was. -/
theorem CheckAndDefaultResource_process (v : Version) (hk : v.Kind = BcsDataType_PROCESS) :
    ((CheckAndDefaultResource v).isSome ↔ ∀ p ∈ v.Process, p ≠ none) ∧
    ∀ v1, CheckAndDefaultResource v = some v1 →
      List.Forall₂
        (fun p p1 => ∃ q q1, p = some q ∧ p1 = some q1 ∧
          q1.Resources.Limits.Cpu =
            (if q.Resources.Limits.Cpu = "" then "1" else q.Resources.Limits.Cpu) ∧
          q1.Resources.Limits.Mem =
            (if q.Resources.Limits.Mem = "" then "64" else q.Resources.Limits.Mem) ∧
          q1.Resources.Limits.Storage =
            (if q.Resources.Limits.Storage = "" then "64" else q.Resources.Limits.Storage))
        v.Process v1.Process := by
  constructor
  · rw [← defaultProcesses_isSome]
    unfold CheckAndDefaultResource
    rw [if_pos hk]
    cases defaultProcesses v.Process <;> simp
  · intro v1 h
    unfold CheckAndDefaultResource at h
    rw [if_pos hk] at h
    cases hp : defaultProcesses v.Process with
    | none => simp [hp] at h
    | some ps =>
      simp [hp] at h
      subst h
      refine (defaultProcesses_some hp).imp ?_
      rintro p p1 ⟨q, rfl, rfl⟩
      refine ⟨q, defaultProcess q, rfl, rfl, ?_, ?_, ?_⟩ <;>
        simp [defaultProcess, Itoa_CPUS_PER_TASK, Itoa_MEM_PER_TASK, Itoa_DISK_PER_TASK]

theorem CheckAndDefaultResource_process_witness :
    (CheckAndDefaultResource
        (versionWith "process" [none] [some (processWith "" "3" "")] none)).isSome ∧
    CheckAndDefaultResource (versionWith "process" [none] [some (processWith "" "3" "")] none)
      = some (versionWith "process" [none] [some (processWith "1" "3" "64")] none) :=
  ⟨(CheckAndDefaultResource_process
      (versionWith "process" [none] [some (processWith "" "3" "")] none) rfl).1.2 (by decide),
   by decide⟩

/-- C3. For a `Version` of kind `APP` or of the unset kind `""`,
`CheckAndDefaultResource` returns exactly when the container list has no nil
entry and keeps the list positions; afterwards every container has a
`DataClass`, a container that had no resource block (no `DataClass`, or a
`DataClass` without `Resources`) has the block `{Cpus: 1, Mem: 64, Disk: 64}`,
and a container that had a resource block is unchanged.  The container list
written for kind `""` is the one written for kind `APP`. -/
theorem CheckAndDefaultResource_app (v : Version)
    (hk : v.Kind = BcsDataType_APP ∨ v.Kind = "") :
    ((CheckAndDefaultResource v).isSome ↔ ∀ c ∈ v.Container, c ≠ none) ∧
    (∀ v1, CheckAndDefaultResource v = some v1 →
      List.Forall₂
        (fun c c1 => ∃ k k1 dc1, c = some k ∧ c1 = some k1 ∧ k1.DataClass = some dc1 ∧
          ((k.DataClass = none ∨ ∃ dc, k.DataClass = some dc ∧ dc.Resources = none) →
            dc1.Resources = some { Cpus := F64.ofInt 1, CPUSet := 0,
                                   Mem := F64.ofInt 64, Disk := F64.ofInt 64 }) ∧
          (∀ dc r, k.DataClass = some dc → dc.Resources = some r → k1 = k))
        v.Container v1.Container) ∧
    (CheckAndDefaultResource { v with Kind := "" }).map Version.Container =
      (CheckAndDefaultResource { v with Kind := BcsDataType_APP }).map Version.Container := by
  have hk1 : ¬ v.Kind = BcsDataType_PROCESS := by
    rcases hk with h | h <;> rw [h] <;> decide
  refine ⟨?_, ?_, ?_⟩
  · rw [← defaultContainers_isSome]
    unfold CheckAndDefaultResource
    rw [if_neg hk1, if_pos hk]
    cases defaultContainers v.Container <;> simp
  · intro v1 h
    unfold CheckAndDefaultResource at h
    rw [if_neg hk1, if_pos hk] at h
    cases hc : defaultContainers v.Container with
    | none => simp [hc] at h
    | some cs =>
      simp [hc] at h
      subst h
      refine (defaultContainers_some hc).imp ?_
      rintro c c1 ⟨k, rfl, rfl⟩
      obtain ⟨dc1, h1, h2, h3⟩ := defaultContainer_spec k
      exact ⟨k, defaultContainer k, dc1, rfl, rfl, h1, h2, h3⟩
  · have h1 : ¬ ("" : String) = BcsDataType_PROCESS := by decide
    have h2 : ¬ BcsDataType_APP = BcsDataType_PROCESS := by decide
    simp only [CheckAndDefaultResource, h1, h2, if_false, true_or, or_true, if_true]
    cases defaultContainers v.Container <;> rfl

theorem CheckAndDefaultResource_app_witness :
    (CheckAndDefaultResource
        (versionWith "" [some bareContainer,
          some (containerWith (F64.ofInt 2) (F64.ofInt 100) (F64.ofInt 50))] [none] none)).isSome ∧
    (CheckAndDefaultResource
        (versionWith "" [some bareContainer,
          some (containerWith (F64.ofInt 2) (F64.ofInt 100) (F64.ofInt 50))] [none] none)).map
        Version.Container =
      some [some (containerWith (F64.ofInt 1) (F64.ofInt 64) (F64.ofInt 64)),
            some (containerWith (F64.ofInt 2) (F64.ofInt 100) (F64.ofInt 50))] :=
  ⟨(CheckAndDefaultResource_app
      (versionWith "" [some bareContainer,
        some (containerWith (F64.ofInt 2) (F64.ofInt 100) (F64.ofInt 50))] [none] none)
      (Or.inr rfl)).1.2 (by decide),
   by decide!⟩

/-- C4. `AllCpus` is the sum, taken in list order from `0`, of the CPU
quantity over the list that `Kind` selects, with nothing added for the
executor: over `DataClass.Resources.Cpus` of the containers when `Kind` is
`APP` or `""`, over the parsed `Limits.Cpu` of the processes when `Kind` is
`PROCESS`.  Two containers asking for 2 and 3 CPUs give 5. -/
theorem AllCpus_sum (v : Version) :
    (v.Kind = BcsDataType_APP ∨ v.Kind = "" →
      ∀ (cs : List Container) (rs : List Resource), v.Container = cs.map some →
        List.Forall₂ (fun c r => ∃ dc, c.DataClass = some dc ∧ dc.Resources = some r) cs rs →
        AllCpus v = some (List.foldl (fun a r => a + r.Cpus) F64.zero rs)) ∧
    (v.Kind = BcsDataType_PROCESS →
      ∀ ps : List Process, v.Process = ps.map some →
        AllCpus v =
          some (List.foldl (fun a p => a + (ParseFloat p.Resources.Limits.Cpu).1) F64.zero ps)) ∧
    AllCpus (versionWith BcsDataType_APP
        [some (containerWith (F64.ofInt 2) (F64.ofInt 100) (F64.ofInt 50)),
         some (containerWith (F64.ofInt 3) (F64.ofInt 200) (F64.ofInt 50))] [] none)
      = some (F64.ofInt 5) := by
  refine ⟨?_, ?_, by decide!⟩
  · intro hk cs rs hc hr
    simp only [AllCpus, sumByKind, if_neg (not_PROCESS_of_APP hk), if_pos hk, hc]
    exact sumContainers_map_some Resource.Cpus cs rs hr F64.zero
  · intro hk ps hp
    simp only [AllCpus, sumByKind, if_pos hk, hp]
    exact sumProcesses_map_some ResourceList.Cpu ps F64.zero

theorem AllCpus_sum_witness :
    AllCpus (versionWith "" [some (containerWith (F64.ofInt 2) (F64.ofInt 100) (F64.ofInt 50))]
        [none] none)
      = some (List.foldl (fun a (r : Resource) => a + r.Cpus) F64.zero
          [⟨F64.ofInt 2, 0, F64.ofInt 100, F64.ofInt 50⟩]) ∧
    AllCpus (versionWith "process" [none] [some (processWith "2" "" ""),
        some (processWith "0.5" "" "")] none)
      = some (List.foldl (fun a (p : Process) => a + (ParseFloat p.Resources.Limits.Cpu).1)
          F64.zero [processWith "2" "" "", processWith "0.5" "" ""]) :=
  ⟨(AllCpus_sum (versionWith "" [some (containerWith (F64.ofInt 2) (F64.ofInt 100)
        (F64.ofInt 50))] [none] none)).1 (Or.inr rfl)
      [containerWith (F64.ofInt 2) (F64.ofInt 100) (F64.ofInt 50)]
      [⟨F64.ofInt 2, 0, F64.ofInt 100, F64.ofInt 50⟩] rfl
      (List.Forall₂.cons ⟨_, rfl, rfl⟩ List.Forall₂.nil),
   (AllCpus_sum (versionWith "process" [none] [some (processWith "2" "" ""),
        some (processWith "0.5" "" "")] none)).2.1 rfl
      [processWith "2" "" "", processWith "0.5" "" ""] rfl⟩

/-- C5. `AllMems` and `AllDisk` are the sum, taken in list order from `0`, of
the memory (disk) over the list that `Kind` selects, plus the executor
overhead `64`.  Containers with memory 100 and 200 and disk 50 and 50 give
364 and 164; an empty list gives 64 for both. -/
theorem AllMems_AllDisk_sum (v : Version) :
    (v.Kind = BcsDataType_APP ∨ v.Kind = "" →
      ∀ (cs : List Container) (rs : List Resource), v.Container = cs.map some →
        List.Forall₂ (fun c r => ∃ dc, c.DataClass = some dc ∧ dc.Resources = some r) cs rs →
        AllMems v = some (List.foldl (fun a r => a + r.Mem) F64.zero rs + F64.ofInt 64) ∧
        AllDisk v = some (List.foldl (fun a r => a + r.Disk) F64.zero rs + F64.ofInt 64)) ∧
    (v.Kind = BcsDataType_PROCESS →
      ∀ ps : List Process, v.Process = ps.map some →
        AllMems v =
          some (List.foldl (fun a p => a + (ParseFloat p.Resources.Limits.Mem).1) F64.zero ps
            + F64.ofInt 64) ∧
        AllDisk v =
          some (List.foldl (fun a p => a + (ParseFloat p.Resources.Limits.Storage).1) F64.zero ps
            + F64.ofInt 64)) ∧
    AllMems (versionWith BcsDataType_APP
        [some (containerWith (F64.ofInt 2) (F64.ofInt 100) (F64.ofInt 50)),
         some (containerWith (F64.ofInt 3) (F64.ofInt 200) (F64.ofInt 50))] [] none)
      = some (F64.ofInt 364) ∧
    AllDisk (versionWith BcsDataType_APP
        [some (containerWith (F64.ofInt 2) (F64.ofInt 100) (F64.ofInt 50)),
         some (containerWith (F64.ofInt 3) (F64.ofInt 200) (F64.ofInt 50))] [] none)
      = some (F64.ofInt 164) ∧
    AllMems (versionWith BcsDataType_APP [] [] none) = some (F64.ofInt 64) ∧
    AllDisk (versionWith BcsDataType_APP [] [] none) = some (F64.ofInt 64) ∧
    AllMems (versionWith BcsDataType_PROCESS [] [] none) = some (F64.ofInt 64) ∧
    AllDisk (versionWith BcsDataType_PROCESS [] [] none) = some (F64.ofInt 64) := by
  refine ⟨?_, ?_, by decide!, by decide!, by decide!, by decide!, by decide!, by decide!⟩
  · intro hk cs rs hc hr
    simp only [AllMems, AllDisk, sumByKind, if_neg (not_PROCESS_of_APP hk), if_pos hk, hc]
    rw [sumContainers_map_some Resource.Mem cs rs hr F64.zero,
      sumContainers_map_some Resource.Disk cs rs hr F64.zero]
    exact ⟨rfl, rfl⟩
  · intro hk ps hp
    simp only [AllMems, AllDisk, sumByKind, if_pos hk, hp]
    rw [sumProcesses_map_some ResourceList.Mem ps F64.zero,
      sumProcesses_map_some ResourceList.Storage ps F64.zero]
    exact ⟨rfl, rfl⟩

theorem AllMems_AllDisk_sum_witness :
    (AllMems (versionWith "" [some (containerWith (F64.ofInt 2) (F64.ofInt 100) (F64.ofInt 50))]
        [none] none)
      = some (List.foldl (fun a (r : Resource) => a + r.Mem) F64.zero
          [⟨F64.ofInt 2, 0, F64.ofInt 100, F64.ofInt 50⟩] + F64.ofInt 64) ∧
     AllDisk (versionWith "" [some (containerWith (F64.ofInt 2) (F64.ofInt 100) (F64.ofInt 50))]
        [none] none)
      = some (List.foldl (fun a (r : Resource) => a + r.Disk) F64.zero
          [⟨F64.ofInt 2, 0, F64.ofInt 100, F64.ofInt 50⟩] + F64.ofInt 64)) ∧
    (AllMems (versionWith "process" [none] [some (processWith "2" "128" "10")] none)
      = some (List.foldl (fun a (p : Process) => a + (ParseFloat p.Resources.Limits.Mem).1)
          F64.zero [processWith "2" "128" "10"] + F64.ofInt 64) ∧
     AllDisk (versionWith "process" [none] [some (processWith "2" "128" "10")] none)
      = some (List.foldl (fun a (p : Process) => a + (ParseFloat p.Resources.Limits.Storage).1)
          F64.zero [processWith "2" "128" "10"] + F64.ofInt 64)) :=
  ⟨(AllMems_AllDisk_sum (versionWith "" [some (containerWith (F64.ofInt 2) (F64.ofInt 100)
        (F64.ofInt 50))] [none] none)).1 (Or.inr rfl)
      [containerWith (F64.ofInt 2) (F64.ofInt 100) (F64.ofInt 50)]
      [⟨F64.ofInt 2, 0, F64.ofInt 100, F64.ofInt 50⟩] rfl
      (List.Forall₂.cons ⟨_, rfl, rfl⟩ List.Forall₂.nil),
   (AllMems_AllDisk_sum (versionWith "process" [none] [some (processWith "2" "128" "10")]
        none)).2.1 rfl [processWith "2" "128" "10"] rfl⟩

/-- C6. Kind exclusivity of the aggregation: when `Kind` is `PROCESS`,
`AllCpus`, `AllMems` and `AllDisk` are the same for every container list put
in place of the given one (nil containers and containers without a resource
block included); when `Kind` is `APP` or `""`, they are the same for every
process list put in place of the given one. -/
theorem aggregation_kind_exclusive (v : Version) :
    (v.Kind = BcsDataType_PROCESS → ∀ cs : List (Option Container),
      AllCpus { v with Container := cs } = AllCpus v ∧
      AllMems { v with Container := cs } = AllMems v ∧
      AllDisk { v with Container := cs } = AllDisk v) ∧
    (v.Kind = BcsDataType_APP ∨ v.Kind = "" → ∀ ps : List (Option Process),
      AllCpus { v with Process := ps } = AllCpus v ∧
      AllMems { v with Process := ps } = AllMems v ∧
      AllDisk { v with Process := ps } = AllDisk v) := by
  constructor
  · intro hk cs
    simp only [AllCpus, AllMems, AllDisk, sumByKind, if_pos hk, and_self]
  · intro hk ps
    simp only [AllCpus, AllMems, AllDisk, sumByKind, if_neg (not_PROCESS_of_APP hk),
      if_pos hk, and_self]

theorem aggregation_kind_exclusive_witness :
    (AllCpus { versionWith "process" [] [some (processWith "2" "128" "10")] none with
        Container := [none, some bareContainer] }
      = AllCpus (versionWith "process" [] [some (processWith "2" "128" "10")] none) ∧
     AllMems { versionWith "process" [] [some (processWith "2" "128" "10")] none with
        Container := [none, some bareContainer] }
      = AllMems (versionWith "process" [] [some (processWith "2" "128" "10")] none) ∧
     AllDisk { versionWith "process" [] [some (processWith "2" "128" "10")] none with
        Container := [none, some bareContainer] }
      = AllDisk (versionWith "process" [] [some (processWith "2" "128" "10")] none)) ∧
    (AllCpus { versionWith "application" [some (containerWith (F64.ofInt 2) (F64.ofInt 100) (F64.ofInt 50))] [] none with
        Process := [none, some (processWith "x" "" "")] }
      = AllCpus (versionWith "application" [some (containerWith (F64.ofInt 2) (F64.ofInt 100) (F64.ofInt 50))] [] none) ∧
     AllMems { versionWith "application" [some (containerWith (F64.ofInt 2) (F64.ofInt 100) (F64.ofInt 50))] [] none with
        Process := [none, some (processWith "x" "" "")] }
      = AllMems (versionWith "application" [some (containerWith (F64.ofInt 2) (F64.ofInt 100) (F64.ofInt 50))] [] none) ∧
     AllDisk { versionWith "application" [some (containerWith (F64.ofInt 2) (F64.ofInt 100) (F64.ofInt 50))] [] none with
        Process := [none, some (processWith "x" "" "")] }
      = AllDisk (versionWith "application" [some (containerWith (F64.ofInt 2) (F64.ofInt 100) (F64.ofInt 50))] [] none)) :=
  ⟨(aggregation_kind_exclusive
      (versionWith "process" [] [some (processWith "2" "128" "10")] none)).1 rfl
      [none, some bareContainer],
   (aggregation_kind_exclusive
      (versionWith "application" [some (containerWith (F64.ofInt 2) (F64.ofInt 100) (F64.ofInt 50))] [] none)).2 (Or.inl rfl)
      [none, some (processWith "x" "" "")]⟩

/-- C7, as the code has it.  For a `Version` of kind `PROCESS` without nil
process entries the three aggregations return a value whatever the limit
strings are.  A limit on which `ParseFloat` reports a syntax error is added as
`0`: the total is the one obtained without that process, and the one obtained
with the string `"0"` in place of the limit.  A limit on which `ParseFloat`
reports a range error is added as an infinity. -/
theorem aggregation_lenient (v : Version) (hk : v.Kind = BcsDataType_PROCESS) :
    ((∀ p ∈ v.Process, p ≠ none) →
      (AllCpus v).isSome ∧ (AllMems v).isSome ∧ (AllDisk v).isSome) ∧
    (∀ (ps qs : List (Option Process)) (p : Process), v.Process = ps ++ some p :: qs →
      ((ParseFloat p.Resources.Limits.Cpu).2 = some NumError.ErrSyntax →
        (ParseFloat p.Resources.Limits.Cpu).1 = F64.zero ∧
        AllCpus v = AllCpus { v with Process := ps ++ qs } ∧
        AllCpus v = AllCpus
          { v with
            Process := ps ++ some (withLimits p
              ⟨"0", p.Resources.Limits.Mem, p.Resources.Limits.Storage⟩) :: qs }) ∧
      ((ParseFloat p.Resources.Limits.Mem).2 = some NumError.ErrSyntax →
        (ParseFloat p.Resources.Limits.Mem).1 = F64.zero ∧
        AllMems v = AllMems { v with Process := ps ++ qs } ∧
        AllMems v = AllMems
          { v with
            Process := ps ++ some (withLimits p
              ⟨p.Resources.Limits.Cpu, "0", p.Resources.Limits.Storage⟩) :: qs }) ∧
      ((ParseFloat p.Resources.Limits.Storage).2 = some NumError.ErrSyntax →
        (ParseFloat p.Resources.Limits.Storage).1 = F64.zero ∧
        AllDisk v = AllDisk { v with Process := ps ++ qs } ∧
        AllDisk v = AllDisk
          { v with
            Process := ps ++ some (withLimits p
              ⟨p.Resources.Limits.Cpu, p.Resources.Limits.Mem, "0"⟩) :: qs })) ∧
    (∀ s, (ParseFloat s).2 = some NumError.ErrRange → ∃ neg, (ParseFloat s).1 = F64.inf neg) := by
  refine ⟨?_, ?_, ParseFloat_range_inf⟩
  · intro hp
    simp only [AllCpus, AllMems, AllDisk, sumByKind, if_pos hk]
    have h1 := sumProcesses_isSome ResourceList.Cpu v.Process hp F64.zero
    have h2 := sumProcesses_isSome ResourceList.Mem v.Process hp F64.zero
    have h3 := sumProcesses_isSome ResourceList.Storage v.Process hp F64.zero
    refine ⟨h1, ?_, ?_⟩
    · cases h : sumProcesses ResourceList.Mem v.Process F64.zero with
      | none => simp [h] at h2
      | some a => simp
    · cases h : sumProcesses ResourceList.Storage v.Process F64.zero with
      | none => simp [h] at h3
      | some a => simp
  · intro ps qs p hv
    refine ⟨?_, ?_, ?_⟩
    · intro h
      refine ⟨ParseFloat_syntax_zero _ h, ?_, ?_⟩
      · simp only [AllCpus, sumByKind, if_pos hk, hv]
        exact sumProcesses_drop ResourceList.Cpu ps qs p h
      · simp only [AllCpus, sumByKind, if_pos hk, hv]
        exact sumProcesses_syntax_error ResourceList.Cpu ps qs p _ h rfl F64.zero
    · intro h
      refine ⟨ParseFloat_syntax_zero _ h, ?_, ?_⟩
      · simp only [AllMems, sumByKind, if_pos hk, hv]
        rw [sumProcesses_drop ResourceList.Mem ps qs p h]
      · simp only [AllMems, sumByKind, if_pos hk, hv]
        rw [sumProcesses_syntax_error ResourceList.Mem ps qs p
          (withLimits p ⟨p.Resources.Limits.Cpu, "0", p.Resources.Limits.Storage⟩) h rfl
          F64.zero]
    · intro h
      refine ⟨ParseFloat_syntax_zero _ h, ?_, ?_⟩
      · simp only [AllDisk, sumByKind, if_pos hk, hv]
        rw [sumProcesses_drop ResourceList.Storage ps qs p h]
      · simp only [AllDisk, sumByKind, if_pos hk, hv]
        rw [sumProcesses_syntax_error ResourceList.Storage ps qs p
          (withLimits p ⟨p.Resources.Limits.Cpu, p.Resources.Limits.Mem, "0"⟩) h rfl
          F64.zero]

theorem aggregation_lenient_witness :
    ((AllCpus (versionWith "process" [] [some (processWith "2" "" "7"),
        some (processWith "abc" "1x" "7")] none)).isSome ∧
     (AllMems (versionWith "process" [] [some (processWith "2" "" "7"),
        some (processWith "abc" "1x" "7")] none)).isSome ∧
     (AllDisk (versionWith "process" [] [some (processWith "2" "" "7"),
        some (processWith "abc" "1x" "7")] none)).isSome) ∧
    ((ParseFloat "abc").1 = F64.zero ∧
     AllCpus (versionWith "process" [] [some (processWith "2" "" "7"),
        some (processWith "abc" "1x" "7")] none) =
     AllCpus (versionWith "process" [] [some (processWith "2" "" "7")] none) ∧
     AllCpus (versionWith "process" [] [some (processWith "2" "" "7"),
        some (processWith "abc" "1x" "7")] none) =
     AllCpus (versionWith "process" [] [some (processWith "2" "" "7"),
        some (processWith "0" "1x" "7")] none)) :=
  ⟨(aggregation_lenient (versionWith "process" [] [some (processWith "2" "" "7"),
        some (processWith "abc" "1x" "7")] none) rfl).1 (by decide),
   ((aggregation_lenient (versionWith "process" [] [some (processWith "2" "" "7"),
        some (processWith "abc" "1x" "7")] none) rfl).2.1
      [some (processWith "2" "" "7")] [] (processWith "abc" "1x" "7") rfl).1 (by decide!)⟩

/-- C7, as stated, fails.  `ParseFloat` fails on `"1e400"` with a range error
and returns `+Inf`; a `PROCESS` version whose only process has that CPU limit
has `AllCpus = +Inf`, not the `0` it has with the limit `"0"` or with no
process at all. -/
theorem aggregation_lenient_range_counterexample :
    (ParseFloat "1e400").2 = some NumError.ErrRange ∧
    AllCpus (versionWith BcsDataType_PROCESS [] [some (processWith "1e400" "1" "1")] none)
      = some (F64.inf false) ∧
    AllCpus (versionWith BcsDataType_PROCESS [] [some (processWith "0" "1" "1")] none)
      = some F64.zero ∧
    AllCpus (versionWith BcsDataType_PROCESS [] [] none) = some F64.zero := by
  decide!

/-- C8, as stated, fails.  One container asking for `-5` CPUs and `-200` MB of
memory and disk gives totals `-5`, `-136` and `-136`, none of which is
`>= 0`; so does one process with the limits `"-5"`, `"-200"`, `"-200"`. -/
theorem AllResource_negative_counterexample :
    AllResource (versionWith BcsDataType_APP
        [some (containerWith (F64.ofInt (-5)) (F64.ofInt (-200)) (F64.ofInt (-200)))] [] none)
      = some ⟨F64.ofInt (-5), 0, F64.ofInt (-136), F64.ofInt (-136)⟩ ∧
    AllResource (versionWith BcsDataType_PROCESS [] [some (processWith "-5" "-200" "-200")] none)
      = some ⟨F64.ofInt (-5), 0, F64.ofInt (-136), F64.ofInt (-136)⟩ ∧
    F64.nonneg (F64.ofInt (-5)) = false ∧ F64.nonneg (F64.ofInt (-136)) = false := by
  decide!

/-- C8, as the code has it.  `AllResource` does not clamp: it returns totals
that are `>= 0` whenever every quantity it adds is `>= 0`.  For kind `APP` or
`""` these are the `Cpus`, `Mem` and `Disk` of every container, for kind
`PROCESS` the parsed limits of every process; for any other kind the totals
are `>= 0` outright. -/
theorem AllResource_nonneg (v : Version) :
    (v.Kind = BcsDataType_APP ∨ v.Kind = "" →
      ∀ (cs : List Container) (rs : List Resource), v.Container = cs.map some →
        List.Forall₂ (fun c r => ∃ dc, c.DataClass = some dc ∧ dc.Resources = some r) cs rs →
        (∀ r ∈ rs, F64.nonneg r.Cpus = true ∧ F64.nonneg r.Mem = true ∧
          F64.nonneg r.Disk = true) →
        ∃ res, AllResource v = some res ∧ F64.nonneg res.Cpus = true ∧
          F64.nonneg res.Mem = true ∧ F64.nonneg res.Disk = true) ∧
    (v.Kind = BcsDataType_PROCESS →
      ∀ ps : List Process, v.Process = ps.map some →
        (∀ p ∈ ps, F64.nonneg (ParseFloat p.Resources.Limits.Cpu).1 = true ∧
          F64.nonneg (ParseFloat p.Resources.Limits.Mem).1 = true ∧
          F64.nonneg (ParseFloat p.Resources.Limits.Storage).1 = true) →
        ∃ res, AllResource v = some res ∧ F64.nonneg res.Cpus = true ∧
          F64.nonneg res.Mem = true ∧ F64.nonneg res.Disk = true) ∧
    (¬ v.Kind = BcsDataType_PROCESS → ¬ (v.Kind = BcsDataType_APP ∨ v.Kind = "") →
      ∃ res, AllResource v = some res ∧ F64.nonneg res.Cpus = true ∧
        F64.nonneg res.Mem = true ∧ F64.nonneg res.Disk = true) := by
  refine ⟨?_, ?_, ?_⟩
  · intro hk cs rs hc hr hn
    simp only [AllResource, AllCpus, AllMems, AllDisk, sumByKind,
      if_neg (not_PROCESS_of_APP hk), if_pos hk, hc,
      sumContainers_map_some _ cs rs hr F64.zero]
    refine ⟨_, rfl, ?_, ?_, ?_⟩
    · exact nonneg_foldl Resource.Cpus rs (fun r h => (hn r h).1) _ F64.nonneg_zero
    · exact F64.nonneg_add _ _
        (nonneg_foldl Resource.Mem rs (fun r h => (hn r h).2.1) _ F64.nonneg_zero)
        F64.nonneg_ofInt_64
    · exact F64.nonneg_add _ _
        (nonneg_foldl Resource.Disk rs (fun r h => (hn r h).2.2) _ F64.nonneg_zero)
        F64.nonneg_ofInt_64
  · intro hk ps hp hn
    simp only [AllResource, AllCpus, AllMems, AllDisk, sumByKind, if_pos hk, hp,
      sumProcesses_map_some _ ps F64.zero]
    refine ⟨_, rfl, ?_, ?_, ?_⟩
    · exact nonneg_foldl (fun p : Process => (ParseFloat p.Resources.Limits.Cpu).1) ps
        (fun p h => (hn p h).1) _ F64.nonneg_zero
    · exact F64.nonneg_add _ _
        (nonneg_foldl (fun p : Process => (ParseFloat p.Resources.Limits.Mem).1) ps
          (fun p h => (hn p h).2.1) _ F64.nonneg_zero)
        F64.nonneg_ofInt_64
    · exact F64.nonneg_add _ _
        (nonneg_foldl (fun p : Process => (ParseFloat p.Resources.Limits.Storage).1) ps
          (fun p h => (hn p h).2.2) _ F64.nonneg_zero)
        F64.nonneg_ofInt_64
  · intro h1 h2
    simp only [AllResource, AllCpus, AllMems, AllDisk, sumByKind, if_neg h1, if_neg h2]
    exact ⟨_, rfl, F64.nonneg_zero, F64.nonneg_add _ _ F64.nonneg_zero F64.nonneg_ofInt_64,
      F64.nonneg_add _ _ F64.nonneg_zero F64.nonneg_ofInt_64⟩

theorem AllResource_nonneg_witness :
    (∃ res, AllResource (versionWith "application"
        [some (containerWith (F64.ofInt 2) (F64.ofInt 100) (F64.ofInt 50))] [] none) = some res ∧
      F64.nonneg res.Cpus = true ∧ F64.nonneg res.Mem = true ∧ F64.nonneg res.Disk = true) ∧
    (∃ res, AllResource (versionWith "process" [] [some (processWith "2" "abc" "0.5")] none)
        = some res ∧
      F64.nonneg res.Cpus = true ∧ F64.nonneg res.Mem = true ∧ F64.nonneg res.Disk = true) ∧
    (∃ res, AllResource (versionWith "deployment" [none] [none] none) = some res ∧
      F64.nonneg res.Cpus = true ∧ F64.nonneg res.Mem = true ∧ F64.nonneg res.Disk = true) :=
  ⟨(AllResource_nonneg (versionWith "application"
        [some (containerWith (F64.ofInt 2) (F64.ofInt 100) (F64.ofInt 50))] [] none)).1
      (Or.inl rfl) [containerWith (F64.ofInt 2) (F64.ofInt 100) (F64.ofInt 50)]
      [⟨F64.ofInt 2, 0, F64.ofInt 100, F64.ofInt 50⟩] rfl
      (List.Forall₂.cons ⟨_, rfl, rfl⟩ List.Forall₂.nil) (by decide!),
   (AllResource_nonneg (versionWith "process" [] [some (processWith "2" "abc" "0.5")]
        none)).2.1 rfl [processWith "2" "abc" "0.5"] rfl (by decide!),
   (AllResource_nonneg (versionWith "deployment" [none] [none] none)).2.2
      (by decide) (by decide)⟩

/-- C9. `CheckConstraints` is `true` on a nil constraint tree.  On a tree it is
`false` exactly when some union entry of some intersection item is invalid:
its declared type is `Scalar`, `Text` or `Set` and the payload of that type is
nil, or its type is `Range` and a listed range is nil.  One `Scalar` entry
with a scalar payload validates `true`; the same entry without the payload
validates `false`. -/
theorem CheckConstraints_spec (v : Version) :
    (v.Constraints = none → CheckConstraints v = true) ∧
    (∀ c, v.Constraints = some c →
      (CheckConstraints v = false ↔
        ∃ it od, some it ∈ c.IntersectionItem ∧ some od ∈ it.UnionData ∧
          ((od.Type_ = ConstValueType_Scalar ∧ od.Scalar = none) ∨
           (od.Type_ = ConstValueType_Text ∧ od.Text = none) ∨
           (od.Type_ = ConstValueType_Set ∧ od.Set = none) ∨
           (od.Type_ = ConstValueType_Range ∧ none ∈ od.Ranges)))) ∧
    CheckConstraints (versionWith BcsDataType_APP [] []
      (some (treeWith (entryWith ConstValueType_Scalar (some ⟨F64.zero⟩) [] none none))))
      = true ∧
    CheckConstraints (versionWith BcsDataType_APP [] []
      (some (treeWith (entryWith ConstValueType_Scalar none [] none none)))) = false := by
  refine ⟨?_, ?_, by decide, by decide⟩
  · intro h
    simp [CheckConstraints, h]
  · intro c h
    simp only [CheckConstraints, h]
    exact checkIntersectionItem_false_entry c.IntersectionItem

theorem CheckConstraints_spec_witness :
    CheckConstraints (versionWith "application" [] [] none) = true ∧
    (CheckConstraints (versionWith "application" [] []
        (some (treeWith (entryWith ConstValueType_Range none [some ⟨1, 2⟩, none] none none))))
      = false ↔
      ∃ it od, some it ∈
          (treeWith (entryWith ConstValueType_Range none [some ⟨1, 2⟩, none] none
            none)).IntersectionItem ∧
        some od ∈ it.UnionData ∧
          ((od.Type_ = ConstValueType_Scalar ∧ od.Scalar = none) ∨
           (od.Type_ = ConstValueType_Text ∧ od.Text = none) ∨
           (od.Type_ = ConstValueType_Set ∧ od.Set = none) ∨
           (od.Type_ = ConstValueType_Range ∧ none ∈ od.Ranges))) :=
  ⟨(CheckConstraints_spec (versionWith "application" [] [] none)).1 rfl,
   (CheckConstraints_spec (versionWith "application" [] []
      (some (treeWith (entryWith ConstValueType_Range none [some ⟨1, 2⟩, none] none
        none))))).2.1 _ rfl⟩

/-- C10, as stated, fails.  An entry of type `Range` that lists no ranges, an
entry of type `Set` whose set is empty and an entry of type `Text` whose text
is the empty string all have a payload that is present but empty, and
`CheckConstraints` is `true` on each of them. -/
theorem CheckConstraints_empty_payload_counterexample :
    CheckConstraints (versionWith BcsDataType_APP [] []
      (some (treeWith (entryWith ConstValueType_Range none [] none none)))) = true ∧
    CheckConstraints (versionWith BcsDataType_APP [] []
      (some (treeWith (entryWith ConstValueType_Set none [] none (some ⟨[]⟩))))) = true ∧
    CheckConstraints (versionWith BcsDataType_APP [] []
      (some (treeWith (entryWith ConstValueType_Text none [] (some ⟨""⟩) none)))) = true := by
  decide

/-- C10, as the code has it.  A constraint tree with an absent required
payload is invalid as a whole: when some union entry has a nil payload of its
declared type (`Scalar`, `Text`, `Set`) or, for type `Range`, a nil listed
range, `CheckConstraints` is `false`.  Emptiness is not looked at: when every
union entry has the payload of its declared type present and no listed range
is nil, `CheckConstraints` is `true`, empty payloads included. -/
theorem CheckConstraints_absent_payload (v : Version) (c : Constraint)
    (hc : v.Constraints = some c) :
    ((∃ it od, some it ∈ c.IntersectionItem ∧ some od ∈ it.UnionData ∧
        ((od.Type_ = ConstValueType_Scalar ∧ od.Scalar = none) ∨
         (od.Type_ = ConstValueType_Text ∧ od.Text = none) ∨
         (od.Type_ = ConstValueType_Set ∧ od.Set = none) ∨
         (od.Type_ = ConstValueType_Range ∧ none ∈ od.Ranges))) →
      CheckConstraints v = false) ∧
    ((∀ it od, some it ∈ c.IntersectionItem → some od ∈ it.UnionData →
        (od.Type_ = ConstValueType_Scalar → od.Scalar ≠ none) ∧
        (od.Type_ = ConstValueType_Text → od.Text ≠ none) ∧
        (od.Type_ = ConstValueType_Set → od.Set ≠ none) ∧
        (od.Type_ = ConstValueType_Range → none ∉ od.Ranges)) →
      CheckConstraints v = true) := by
  have key : CheckConstraints v = checkIntersectionItem c.IntersectionItem := by
    simp only [CheckConstraints, hc]
  constructor
  · intro h
    rw [key]
    exact (checkIntersectionItem_false_entry _).2 h
  · intro h
    rw [key]
    by_contra hne
    simp only [Bool.not_eq_true] at hne
    obtain ⟨it, od, h1, h2, h3⟩ := (checkIntersectionItem_false_entry _).1 hne
    obtain ⟨g1, g2, g3, g4⟩ := h it od h1 h2
    rcases h3 with ⟨a, b⟩ | ⟨a, b⟩ | ⟨a, b⟩ | ⟨a, b⟩
    · exact g1 a b
    · exact g2 a b
    · exact g3 a b
    · exact g4 a b

theorem CheckConstraints_absent_payload_witness :
    CheckConstraints (versionWith "application" [] []
      (some (treeWith (entryWith ConstValueType_Set none [] none none)))) = false ∧
    CheckConstraints (versionWith "application" [] []
      (some (treeWith (entryWith ConstValueType_Set none [] none (some ⟨[]⟩))))) = true :=
  ⟨(CheckConstraints_absent_payload
      (versionWith "application" [] []
        (some (treeWith (entryWith ConstValueType_Set none [] none none))))
      (treeWith (entryWith ConstValueType_Set none [] none none)) rfl).1
      ⟨_, _, List.mem_cons_self _ _, List.mem_cons_self _ _,
        Or.inr (Or.inr (Or.inl ⟨rfl, rfl⟩))⟩,
   (CheckConstraints_absent_payload
      (versionWith "application" [] []
        (some (treeWith (entryWith ConstValueType_Set none [] none (some ⟨[]⟩)))))
      (treeWith (entryWith ConstValueType_Set none [] none (some ⟨[]⟩))) rfl).2
      (by
        intro it od h1 h2
        simp only [treeWith, List.mem_singleton, Option.some.injEq] at h1
        subst h1
        simp only [List.mem_singleton, Option.some.injEq] at h2
        subst h2
        simp [entryWith])⟩

/-- C11. `Add` and `Update` are the same function in each of the three
handlers: on every argument, with every Data Operator and at the same clock
reading they make the same calls and return the same error (and panic on the
same arguments).  On an entity of the handler's type the calls are
`CreateDCNode` with method `PUT`: one for an application or an endpoint, two
for an exported service. -/
theorem Add_eq_Update :
    (∀ (h : AppHandler) (now : Time) (data : Value), h.Add now data = h.Update now data) ∧
    (∀ (h : AppHandler) (now : Time) (app : Application), ∃ node value err,
      h.Add now (Value.application (some app))
        = some ⟨[Call.CreateDCNode node value "PUT"], err⟩) ∧
    (∀ (h : EndpointHandler) (data : Value), h.Add data = h.Update data) ∧
    (∀ (h : EndpointHandler) (ep : BcsEndpoint), ∃ node value err,
      h.Add (Value.endpoint (some ep)) = some ⟨[Call.CreateDCNode node value "PUT"], err⟩) ∧
    (∀ (h : ExpServiceHandler) (data : Value), h.Add data = h.Update data) ∧
    (∀ (h : ExpServiceHandler) (svc : ExportService), ∃ node value node2 value2 err,
      h.Add (Value.exportService (some svc))
        = some ⟨[Call.CreateDCNode node value "PUT", Call.CreateDCNode node2 value2 "PUT"],
            err⟩) := by
  refine ⟨fun _ _ _ => rfl, ?_, ?_, ?_, fun _ _ => rfl, ?_⟩
  · intro h now app
    simp only [AppHandler.Add, AppHandler.FormatConv]
    split <;> exact ⟨_, _, _, rfl⟩
  · intro h data
    cases data with
    | endpoint p =>
      cases p with
      | none => rfl
      | some ep =>
        simp only [EndpointHandler.Add, EndpointHandler.Update]
        split <;> simp_all
    | _ => rfl
  · intro h ep
    simp only [EndpointHandler.Add]
    split <;> exact ⟨_, _, _, rfl⟩
  · intro h svc
    exact ⟨_, _, _, _, _, rfl⟩

/-- C12. `Delete` is keyed by the paths of `Add` and `Update`: in each of the
three handlers and on every argument the paths of the calls of `Delete` are,
in order, the paths of the calls of `Add` and of `Update`; and on an entity of
the handler's type every call of `Delete` is a `DeleteDCNode` with method
`DELETE`, so none is a `CreateDCNode`. -/
theorem Delete_same_path :
    (∀ (h : AppHandler) (now : Time) (data : Value),
      (h.Delete data).map (fun o => o.calls.map Call.node)
        = (h.Add now data).map (fun o => o.calls.map Call.node) ∧
      (h.Delete data).map (fun o => o.calls.map Call.node)
        = (h.Update now data).map (fun o => o.calls.map Call.node)) ∧
    (∀ (h : AppHandler) (app : Application), ∃ node err,
      h.Delete (Value.application (some app)) = some ⟨[Call.DeleteDCNode node "DELETE"], err⟩) ∧
    (∀ (h : EndpointHandler) (data : Value),
      (h.Delete data).map (fun o => o.calls.map Call.node)
        = (h.Add data).map (fun o => o.calls.map Call.node) ∧
      (h.Delete data).map (fun o => o.calls.map Call.node)
        = (h.Update data).map (fun o => o.calls.map Call.node)) ∧
    (∀ (h : EndpointHandler) (ep : BcsEndpoint), ∃ node err,
      h.Delete (Value.endpoint (some ep)) = some ⟨[Call.DeleteDCNode node "DELETE"], err⟩) ∧
    (∀ (h : ExpServiceHandler) (data : Value),
      (h.Delete data).map (fun o => o.calls.map Call.node)
        = (h.Add data).map (fun o => o.calls.map Call.node) ∧
      (h.Delete data).map (fun o => o.calls.map Call.node)
        = (h.Update data).map (fun o => o.calls.map Call.node)) ∧
    (∀ (h : ExpServiceHandler) (svc : ExportService), ∃ node node2 err,
      h.Delete (Value.exportService (some svc))
        = some ⟨[Call.DeleteDCNode node "DELETE", Call.DeleteDCNode node2 "DELETE"], err⟩) := by
  refine ⟨?_, ?_, ?_, ?_, ?_, ?_⟩
  · intro h now data
    cases data with
    | application p =>
      cases p with
      | none => exact ⟨rfl, rfl⟩
      | some app =>
        simp only [AppHandler.Delete, AppHandler.Add, AppHandler.Update, AppHandler.FormatConv]
        constructor <;> split <;> split <;> rfl
    | _ => exact ⟨rfl, rfl⟩
  · intro h app
    simp only [AppHandler.Delete]
    split <;> exact ⟨_, _, rfl⟩
  · intro h data
    cases data with
    | endpoint p =>
      cases p with
      | none => exact ⟨rfl, rfl⟩
      | some ep =>
        simp only [EndpointHandler.Delete, EndpointHandler.Add, EndpointHandler.Update]
        constructor
        · split <;> rfl
        · rfl
    | _ => exact ⟨rfl, rfl⟩
  · intro h ep
    exact ⟨_, _, rfl⟩
  · intro h data
    cases data with
    | exportService p =>
      cases p with
      | none => exact ⟨rfl, rfl⟩
      | some svc => exact ⟨rfl, rfl⟩
    | _ => exact ⟨rfl, rfl⟩
  · intro h svc
    exact ⟨_, _, _, rfl⟩

/-- C13. Error propagation in `AppHandler` and `EndpointHandler`: on every
entity, `Add`, `Update` and `Delete` make exactly one call on the Data Operator
and return the error of that call as it is (nil when it is nil); so does
`CheckDirty` when it sweeps (`DoCheckDirty` set for `AppHandler`, always for
`EndpointHandler`).  No call is repeated. -/
theorem App_Endpoint_error_propagation :
    (∀ (h : AppHandler) (now : Time) (app : Application),
      (∃ c, h.Add now (Value.application (some app)) = some ⟨[c], h.oper.respond [] c⟩) ∧
      (∃ c, h.Update now (Value.application (some app)) = some ⟨[c], h.oper.respond [] c⟩) ∧
      (∃ c, h.Delete (Value.application (some app)) = some ⟨[c], h.oper.respond [] c⟩)) ∧
    (∀ (h : AppHandler) (now : Time), h.DoCheckDirty = true →
      ∃ c, h.CheckDirty now = ⟨[c], h.oper.respond [] c⟩) ∧
    (∀ (h : EndpointHandler) (ep : BcsEndpoint),
      (∃ c, h.Add (Value.endpoint (some ep)) = some ⟨[c], h.oper.respond [] c⟩) ∧
      (∃ c, h.Update (Value.endpoint (some ep)) = some ⟨[c], h.oper.respond [] c⟩) ∧
      (∃ c, h.Delete (Value.endpoint (some ep)) = some ⟨[c], h.oper.respond [] c⟩)) ∧
    (∀ (h : EndpointHandler) (now : Time),
      ∃ c, h.CheckDirty now = ⟨[c], h.oper.respond [] c⟩) := by
  refine ⟨?_, ?_, ?_, ?_⟩
  · intro h now app
    obtain ⟨status, _, hadd⟩ := AppHandler_Add_entity h now app
    have hupd : h.Update now (Value.application (some app)) = _ := hadd
    exact ⟨⟨_, hadd⟩, ⟨_, hupd⟩, ⟨_, AppHandler_Delete_entity h app⟩⟩
  · intro h now hd
    exact ⟨_, AppHandler_CheckDirty_sweep h now hd⟩
  · intro h ep
    exact ⟨⟨_, EndpointHandler_Add_entity h ep⟩, ⟨_, rfl⟩, ⟨_, rfl⟩⟩
  · intro h now
    exact ⟨_, EndpointHandler_CheckDirty_sweep h now⟩

theorem App_Endpoint_error_propagation_witness :
    ∃ c, (appHandlerWith (failingOper ⟨"timeout"⟩) true).CheckDirty ⟨1500000000, 0⟩
      = ⟨[c], (appHandlerWith (failingOper ⟨"timeout"⟩) true).oper.respond [] c⟩ :=
  App_Endpoint_error_propagation.2.1 (appHandlerWith (failingOper ⟨"timeout"⟩) true)
    ⟨1500000000, 0⟩ rfl

/-- C14 on the code.  `ExpServiceHandler` drops the errors of the Data
Operator: for every handler and every exported service `Add`, `Update` and
`Delete` return the nil error, whatever the two calls returned.  With a Data
Operator that fails every call with `connection refused`, both calls of `Add`
get that error and `Add` returns nil. -/
theorem ExpServiceHandler_drops_errors :
    (∀ (h : ExpServiceHandler) (svc : ExportService),
      (h.Add (Value.exportService (some svc))).map Outcome.err = some none ∧
      (h.Update (Value.exportService (some svc))).map Outcome.err = some none ∧
      (h.Delete (Value.exportService (some svc))).map Outcome.err = some none) ∧
    (expServiceHandlerWith (failingOper ⟨"connection refused"⟩)).Add
        (Value.exportService (some (serviceWith "ns" "svc")))
      = some ⟨[Call.CreateDCNode
            "/bcsstorage/v1/mesos/watch/clusters/BCS-MESOS-10001/namespaces/ns/exportservice/svc"
            (Value.exportService (some (serviceWith "ns" "svc"))) "PUT",
          Call.CreateDCNode
            ("/bcsstorage/v1/mesos/dynamic/namespace_resources/clusters/BCS-MESOS-10001" ++
              "/namespaces/ns/exportservice/svc")
            (Value.exportService (some (serviceWith "ns" "svc"))) "PUT"], none⟩ ∧
    (expServiceHandlerWith (failingOper ⟨"connection refused"⟩)).oper.respond []
        (Call.CreateDCNode
          "/bcsstorage/v1/mesos/watch/clusters/BCS-MESOS-10001/namespaces/ns/exportservice/svc"
          (Value.exportService (some (serviceWith "ns" "svc"))) "PUT")
      = some ⟨"connection refused"⟩ := by
  refine ⟨fun _ _ => ⟨rfl, rfl, rfl⟩, by decide, rfl⟩

/-- C15. When sweeping applies (`AppHandler` with `DoCheckDirty` set,
`EndpointHandler` always) and `now` is the clock reading, `CheckDirty` makes
exactly one call on the Data Operator: `DeleteDCNodes` with method `DELETE`, the
path `/bcsstorage/v1/mesos/dynamic/all_resources/clusters/` + `ClusterID` + `/`
+ `dataType`, `UpdateTimeBegin = 0` and `UpdateTimeEnd = now - 600` in epoch
seconds.  The clock reading is an `int64` at least 600 above the least one, so
that `now - 600` does not wrap around. -/
theorem CheckDirty_sweep_call (now : Time) (h1 : -9223372036854775208 ≤ now.Unix)
    (h2 : now.Unix < 9223372036854775808) :
    (∀ h : AppHandler, h.DoCheckDirty = true →
      (h.CheckDirty now).calls =
        [Call.DeleteDCNodes
          ("/bcsstorage/v1/mesos/dynamic/all_resources/clusters/" ++ h.ClusterID ++ "/" ++
            h.dataType)
          (Value.batchDeleteIf (some ⟨0, now.Unix - 600⟩)) "DELETE"]) ∧
    (∀ h : EndpointHandler,
      (h.CheckDirty now).calls =
        [Call.DeleteDCNodes
          ("/bcsstorage/v1/mesos/dynamic/all_resources/clusters/" ++ h.ClusterID ++ "/" ++
            h.dataType)
          (Value.batchDeleteIf (some ⟨0, now.Unix - 600⟩)) "DELETE"]) := by
  have hw : wrapInt64 (now.Unix - 600) = now.Unix - 600 :=
    wrapInt64_of_range _ (by omega) (by omega)
  constructor
  · intro h hd
    rw [AppHandler_CheckDirty_sweep h now hd, hw]
  · intro h
    rw [EndpointHandler_CheckDirty_sweep h now, hw]

theorem CheckDirty_sweep_call_witness :
    ((appHandlerWith okOper true).CheckDirty ⟨1500000000, 0⟩).calls =
        [Call.DeleteDCNodes
          ("/bcsstorage/v1/mesos/dynamic/all_resources/clusters/" ++ "BCS-MESOS-10001" ++ "/" ++
            "application")
          (Value.batchDeleteIf (some ⟨0, 1500000000 - 600⟩)) "DELETE"] :=
  (CheckDirty_sweep_call ⟨1500000000, 0⟩ (by decide) (by decide)).1
    (appHandlerWith okOper true) rfl

/-- C16. Dirty-sweep window: when sweeping applies (`AppHandler` with
`DoCheckDirty` set, `EndpointHandler` always) and `now` is the clock reading
(an `int64` at least 600 above the least one), `CheckDirty` sends one
`DeleteDCNodes` call whose window holds, among the update times `t >= 0`,
exactly those with `now - t > 600`.  So a storage that deletes exactly the
nodes in the window it is sent deletes a node last updated at `t >= 0` if and
only if `now - t > 600`: a node last updated at `now - 700` is deleted and a
node last updated at `now - 100` is kept. -/
theorem CheckDirty_window (now : Time) (h1 : -9223372036854775208 ≤ now.Unix)
    (h2 : now.Unix < 9223372036854775808) :
    (∀ h : AppHandler, h.DoCheckDirty = true →
      (∃ node cond action,
        (h.CheckDirty now).calls =
          [Call.DeleteDCNodes node (Value.batchDeleteIf (some cond)) action] ∧
        ∀ t : Int, 0 ≤ t →
          ((cond.UpdateTimeBegin ≤ t ∧ t < cond.UpdateTimeEnd) ↔ now.Unix - t > 600)) ∧
      (∀ t : Int, 0 ≤ t →
        ((h.CheckDirty now).calls.any (fun c => c.sweeps t) = true ↔ now.Unix - t > 600)) ∧
      (700 ≤ now.Unix →
        (h.CheckDirty now).calls.any (fun c => c.sweeps (now.Unix - 700)) = true) ∧
      (h.CheckDirty now).calls.any (fun c => c.sweeps (now.Unix - 100)) = false) ∧
    (∀ h : EndpointHandler,
      (∃ node cond action,
        (h.CheckDirty now).calls =
          [Call.DeleteDCNodes node (Value.batchDeleteIf (some cond)) action] ∧
        ∀ t : Int, 0 ≤ t →
          ((cond.UpdateTimeBegin ≤ t ∧ t < cond.UpdateTimeEnd) ↔ now.Unix - t > 600)) ∧
      (∀ t : Int, 0 ≤ t →
        ((h.CheckDirty now).calls.any (fun c => c.sweeps t) = true ↔ now.Unix - t > 600)) ∧
      (700 ≤ now.Unix →
        (h.CheckDirty now).calls.any (fun c => c.sweeps (now.Unix - 700)) = true) ∧
      (h.CheckDirty now).calls.any (fun c => c.sweeps (now.Unix - 100)) = false) := by
  have hw : wrapInt64 (now.Unix - 600) = now.Unix - 600 :=
    wrapInt64_of_range _ (by omega) (by omega)
  have key : ∀ (calls : List Call) (node action : String),
      calls = [Call.DeleteDCNodes node
        (Value.batchDeleteIf (some ⟨0, now.Unix - 600⟩)) action] →
      (∃ node cond action,
        calls = [Call.DeleteDCNodes node (Value.batchDeleteIf (some cond)) action] ∧
        ∀ t : Int, 0 ≤ t →
          ((cond.UpdateTimeBegin ≤ t ∧ t < cond.UpdateTimeEnd) ↔ now.Unix - t > 600)) ∧
      (∀ t : Int, 0 ≤ t →
        (calls.any (fun c => c.sweeps t) = true ↔ now.Unix - t > 600)) ∧
      (700 ≤ now.Unix → calls.any (fun c => c.sweeps (now.Unix - 700)) = true) ∧
      calls.any (fun c => c.sweeps (now.Unix - 100)) = false := by
    intro calls node action hc
    subst hc
    have hs : ∀ t : Int,
        ([Call.DeleteDCNodes node (Value.batchDeleteIf (some ⟨0, now.Unix - 600⟩))
          action].any (fun c => c.sweeps t) = true) ↔ (0 ≤ t ∧ t < now.Unix - 600) := by
      intro t
      simp [Call.sweeps, BcsStorageDynamicBatchDeleteIf.contains]
    refine ⟨⟨node, ⟨0, now.Unix - 600⟩, action, rfl, ?_⟩, ?_, ?_, ?_⟩
    · intro t ht
      simp only
      omega
    · intro t ht
      rw [hs]
      omega
    · intro h700
      rw [hs]
      omega
    · rw [Bool.eq_false_iff]
      intro hc
      rw [hs] at hc
      omega
  constructor
  · intro h hd
    have hc := congrArg Outcome.calls (AppHandler_CheckDirty_sweep h now hd)
    rw [hw] at hc
    exact key _ _ _ hc
  · intro h
    have hc := congrArg Outcome.calls (EndpointHandler_CheckDirty_sweep h now)
    rw [hw] at hc
    exact key _ _ _ hc

theorem CheckDirty_window_witness :
    (((appHandlerWith okOper true).CheckDirty ⟨1500000000, 0⟩).calls.any
        (fun c => c.sweeps (1500000000 - 700)) = true ∧
      ((appHandlerWith okOper true).CheckDirty ⟨1500000000, 0⟩).calls.any
        (fun c => c.sweeps (1500000000 - 100)) = false) ∧
    (((endpointHandlerWith okOper).CheckDirty ⟨1500000000, 0⟩).calls.any
        (fun c => c.sweeps (1500000000 - 700)) = true ∧
      ((endpointHandlerWith okOper).CheckDirty ⟨1500000000, 0⟩).calls.any
        (fun c => c.sweeps (1500000000 - 100)) = false) :=
  ⟨⟨((CheckDirty_window ⟨1500000000, 0⟩ (by decide) (by decide)).1
        (appHandlerWith okOper true) rfl).2.2.1 (by decide),
     ((CheckDirty_window ⟨1500000000, 0⟩ (by decide) (by decide)).1
        (appHandlerWith okOper true) rfl).2.2.2⟩,
   ⟨((CheckDirty_window ⟨1500000000, 0⟩ (by decide) (by decide)).2
        (endpointHandlerWith okOper)).2.2.1 (by decide),
     ((CheckDirty_window ⟨1500000000, 0⟩ (by decide) (by decide)).2
        (endpointHandlerWith okOper)).2.2.2⟩⟩

/-- C17. Opt-out of sweeping: `ExpServiceHandler.CheckDirty` makes no call on
the Data Operator and returns nil, for every handler; so does
`AppHandler.CheckDirty` at every clock reading when `DoCheckDirty` is false. -/
theorem CheckDirty_opt_out :
    (∀ h : ExpServiceHandler, h.CheckDirty = ⟨[], none⟩) ∧
    (∀ (h : AppHandler) (now : Time), h.DoCheckDirty = false → h.CheckDirty now = ⟨[], none⟩) := by
  constructor
  · intro h
    rfl
  · intro h now hd
    simp [AppHandler.CheckDirty, hd]

theorem CheckDirty_opt_out_witness :
    (appHandlerWith (failingOper ⟨"timeout"⟩) false).CheckDirty ⟨1500000000, 0⟩ = ⟨[], none⟩ :=
  CheckDirty_opt_out.2 (appHandlerWith (failingOper ⟨"timeout"⟩) false) ⟨1500000000, 0⟩ rfl

/-- C18. Per-namespace path shape: for every application, `AppHandler.Add`,
`Update` and `Delete` make their one call on the node
`/bcsstorage/v1/mesos/dynamic/namespace_resources/clusters/` + `ClusterID` +
`/namespaces/` + `RunAs` + `/` + `dataType` + `/` + `ID`; for every endpoint,
`EndpointHandler` uses the same shape with `ObjectMeta.NameSpace` and
`ObjectMeta.Name`.  `Add` and `Update` call `CreateDCNode` with method `PUT`,
`Delete` calls `DeleteDCNode` with method `DELETE`. -/
theorem namespace_path_shape :
    (∀ (h : AppHandler) (now : Time) (app : Application),
      (∃ value err, h.Add now (Value.application (some app)) =
        some ⟨[Call.CreateDCNode
          ("/bcsstorage/v1/mesos/dynamic/namespace_resources/clusters/" ++ h.ClusterID ++
            "/namespaces/" ++ app.RunAs ++ "/" ++ h.dataType ++ "/" ++ app.ID)
          value "PUT"], err⟩) ∧
      (∃ value err, h.Update now (Value.application (some app)) =
        some ⟨[Call.CreateDCNode
          ("/bcsstorage/v1/mesos/dynamic/namespace_resources/clusters/" ++ h.ClusterID ++
            "/namespaces/" ++ app.RunAs ++ "/" ++ h.dataType ++ "/" ++ app.ID)
          value "PUT"], err⟩) ∧
      (∃ err, h.Delete (Value.application (some app)) =
        some ⟨[Call.DeleteDCNode
          ("/bcsstorage/v1/mesos/dynamic/namespace_resources/clusters/" ++ h.ClusterID ++
            "/namespaces/" ++ app.RunAs ++ "/" ++ h.dataType ++ "/" ++ app.ID)
          "DELETE"], err⟩)) ∧
    (∀ (h : EndpointHandler) (ep : BcsEndpoint),
      (∃ value err, h.Add (Value.endpoint (some ep)) =
        some ⟨[Call.CreateDCNode
          ("/bcsstorage/v1/mesos/dynamic/namespace_resources/clusters/" ++ h.ClusterID ++
            "/namespaces/" ++ ep.ObjectMeta.NameSpace ++ "/" ++ h.dataType ++ "/" ++
            ep.ObjectMeta.Name)
          value "PUT"], err⟩) ∧
      (∃ value err, h.Update (Value.endpoint (some ep)) =
        some ⟨[Call.CreateDCNode
          ("/bcsstorage/v1/mesos/dynamic/namespace_resources/clusters/" ++ h.ClusterID ++
            "/namespaces/" ++ ep.ObjectMeta.NameSpace ++ "/" ++ h.dataType ++ "/" ++
            ep.ObjectMeta.Name)
          value "PUT"], err⟩) ∧
      (∃ err, h.Delete (Value.endpoint (some ep)) =
        some ⟨[Call.DeleteDCNode
          ("/bcsstorage/v1/mesos/dynamic/namespace_resources/clusters/" ++ h.ClusterID ++
            "/namespaces/" ++ ep.ObjectMeta.NameSpace ++ "/" ++ h.dataType ++ "/" ++
            ep.ObjectMeta.Name)
          "DELETE"], err⟩)) := by
  constructor
  · intro h now app
    obtain ⟨status, _, hadd⟩ := AppHandler_Add_entity h now app
    have hupd : h.Update now (Value.application (some app)) = _ := hadd
    exact ⟨⟨_, _, hadd⟩, ⟨_, _, hupd⟩, ⟨_, AppHandler_Delete_entity h app⟩⟩
  · intro h ep
    exact ⟨⟨_, _, EndpointHandler_Add_entity h ep⟩, ⟨_, _, rfl⟩, ⟨_, rfl⟩⟩

/-- C19. Path determinism and name-distinctness.  The paths on which a handler
calls the Data Operator for an entity depend on the cluster, the namespace,
the kind and the name only: two handlers with the same `ClusterID` and
`dataType` and two entities with the same namespace and name get the same
paths, whatever the Data Operators, the clock readings and the other fields
are.  With the same cluster, namespace and kind, two entities with different
names get different paths (for an exported service, each of the two paths of
the one differs from both paths of the other). -/
theorem path_determinism :
    (∀ (h1 h2 : AppHandler) (now1 now2 : Time) (a1 a2 : Application),
      h1.ClusterID = h2.ClusterID → h1.dataType = h2.dataType → a1.RunAs = a2.RunAs →
      (a1.ID = a2.ID →
        (h1.Add now1 (Value.application (some a1))).map (fun o => o.calls.map Call.node) =
          (h2.Add now2 (Value.application (some a2))).map (fun o => o.calls.map Call.node)) ∧
      (a1.ID ≠ a2.ID → ∃ p1 p2,
        (h1.Add now1 (Value.application (some a1))).map (fun o => o.calls.map Call.node)
          = some [p1] ∧
        (h2.Add now2 (Value.application (some a2))).map (fun o => o.calls.map Call.node)
          = some [p2] ∧ p1 ≠ p2)) ∧
    (∀ (h1 h2 : EndpointHandler) (e1 e2 : BcsEndpoint),
      h1.ClusterID = h2.ClusterID → h1.dataType = h2.dataType →
      e1.ObjectMeta.NameSpace = e2.ObjectMeta.NameSpace →
      (e1.ObjectMeta.Name = e2.ObjectMeta.Name →
        (h1.Add (Value.endpoint (some e1))).map (fun o => o.calls.map Call.node) =
          (h2.Add (Value.endpoint (some e2))).map (fun o => o.calls.map Call.node)) ∧
      (e1.ObjectMeta.Name ≠ e2.ObjectMeta.Name → ∃ p1 p2,
        (h1.Add (Value.endpoint (some e1))).map (fun o => o.calls.map Call.node) = some [p1] ∧
        (h2.Add (Value.endpoint (some e2))).map (fun o => o.calls.map Call.node) = some [p2] ∧
        p1 ≠ p2)) ∧
    (∀ (h1 h2 : ExpServiceHandler) (s1 s2 : ExportService),
      h1.ClusterID = h2.ClusterID → h1.dataType = h2.dataType → s1.Namespace = s2.Namespace →
      (s1.ServiceName = s2.ServiceName →
        (h1.Add (Value.exportService (some s1))).map (fun o => o.calls.map Call.node) =
          (h2.Add (Value.exportService (some s2))).map (fun o => o.calls.map Call.node)) ∧
      (s1.ServiceName ≠ s2.ServiceName → ∃ w1 d1 w2 d2,
        (h1.Add (Value.exportService (some s1))).map (fun o => o.calls.map Call.node)
          = some [w1, d1] ∧
        (h2.Add (Value.exportService (some s2))).map (fun o => o.calls.map Call.node)
          = some [w2, d2] ∧
        w1 ≠ w2 ∧ d1 ≠ d2 ∧ w1 ≠ d2 ∧ d1 ≠ w2)) := by
  refine ⟨?_, ?_, ?_⟩
  · intro h1 h2 now1 now2 a1 a2 hc hk hn
    rw [AppHandler_Add_paths, AppHandler_Add_paths, hc, hk, hn]
    constructor
    · intro hid
      rw [hid]
    · intro hid
      exact ⟨_, _, rfl, rfl, string_append_ne hid⟩
  · intro h1 h2 e1 e2 hc hk hn
    rw [EndpointHandler_Add_paths, EndpointHandler_Add_paths, hc, hk, hn]
    constructor
    · intro hid
      rw [hid]
    · intro hid
      exact ⟨_, _, rfl, rfl, string_append_ne hid⟩
  · intro h1 h2 s1 s2 hc hk hn
    rw [ExpServiceHandler_Add_paths, ExpServiceHandler_Add_paths, hc, hk, hn]
    constructor
    · intro hid
      rw [hid]
    · intro hid
      refine ⟨_, _, _, _, rfl, rfl, string_append_ne hid, string_append_ne hid, ?_, ?_⟩
      · simp only [String.append_assoc]
        exact watch_ne_dynamic _ _
      · simp only [String.append_assoc]
        exact (watch_ne_dynamic _ _).symm

theorem path_determinism_witness :
    ((appHandlerWith okOper true).Add ⟨1500000000, 0⟩
        (Value.application (some (appWith "ns" "app-1" 3)))).map
        (fun o => o.calls.map Call.node) =
      ((appHandlerWith (failingOper ⟨"timeout"⟩) false).Add ⟨1600000000, 5⟩
        (Value.application (some (appWith "ns" "app-1" 7)))).map
        (fun o => o.calls.map Call.node) ∧
    ∃ p1 p2,
      ((appHandlerWith okOper true).Add ⟨1500000000, 0⟩
        (Value.application (some (appWith "ns" "app-1" 3)))).map
        (fun o => o.calls.map Call.node) = some [p1] ∧
      ((appHandlerWith okOper true).Add ⟨1500000000, 0⟩
        (Value.application (some (appWith "ns" "app-2" 3)))).map
        (fun o => o.calls.map Call.node) = some [p2] ∧ p1 ≠ p2 :=
  ⟨(path_determinism.1 (appHandlerWith okOper true)
      (appHandlerWith (failingOper ⟨"timeout"⟩) false) ⟨1500000000, 0⟩ ⟨1600000000, 5⟩
      (appWith "ns" "app-1" 3) (appWith "ns" "app-1" 7) rfl rfl rfl).1 rfl,
   (path_determinism.1 (appHandlerWith okOper true) (appHandlerWith okOper true)
      ⟨1500000000, 0⟩ ⟨1500000000, 0⟩ (appWith "ns" "app-1" 3) (appWith "ns" "app-2" 3)
      rfl rfl rfl).2 (by decide)⟩

/-- C20, as stated, fails.  The instance counts are `uint64` and are converted
with `int(...)`: for an application with `DefineInstances = 2^63`, `FormatConv`
gives `Instance = -2^63`, which is not `DefineInstances`. -/
theorem FormatConv_count_counterexample :
    ((appHandlerWith okOper true).FormatConv ⟨1500000000, 0⟩
        (some (appWith "ns" "app-1" 9223372036854775808))).map (fun r => r.1.Instance)
      = some (-9223372036854775808) ∧
    (appWith "ns" "app-1" 9223372036854775808).DefineInstances = 9223372036854775808 := by
  decide

/-- C20, as the code has it.  For every application `FormatConv` returns the
nil error and a status with: `Instance`, `BuildedInstance` and
`RunningInstance` the `int` conversions of `DefineInstances`, `Instances` and
`RunningInstances`, equal to the count when it is below `2^63` and to the
count minus `2^64` from there on; `CreateTime` and `LastUpdateTime` the times
at the epoch seconds `Created` and `UpdateTime`; `Status`, `LastStatus`,
`Message`, `Pods` and `Kind` copied; `ObjectMeta` copied with `Name` replaced
by the application `ID`, the last segment of the path of `Add`; and
`ReportTime` the clock reading, whatever the application is. -/
theorem FormatConv_mapping (h : AppHandler) (now : Time) (app : Application) :
    ∃ status, h.FormatConv now (some app) = some (status, none) ∧
      (app.DefineInstances < 9223372036854775808 →
        status.Instance = (app.DefineInstances : Int)) ∧
      (9223372036854775808 ≤ app.DefineInstances → app.DefineInstances < 18446744073709551616 →
        status.Instance = (app.DefineInstances : Int) - 18446744073709551616) ∧
      (app.Instances < 9223372036854775808 →
        status.BuildedInstance = (app.Instances : Int)) ∧
      (9223372036854775808 ≤ app.Instances → app.Instances < 18446744073709551616 →
        status.BuildedInstance = (app.Instances : Int) - 18446744073709551616) ∧
      (app.RunningInstances < 9223372036854775808 →
        status.RunningInstance = (app.RunningInstances : Int)) ∧
      (9223372036854775808 ≤ app.RunningInstances →
        app.RunningInstances < 18446744073709551616 →
        status.RunningInstance = (app.RunningInstances : Int) - 18446744073709551616) ∧
      status.CreateTime = ⟨app.Created, 0⟩ ∧
      status.LastUpdateTime = ⟨app.UpdateTime, 0⟩ ∧
      status.Status = app.Status ∧
      status.LastStatus = app.LastStatus ∧
      status.Message = app.Message ∧
      status.Pods = app.Pods ∧
      status.Kind = app.Kind ∧
      status.ObjectMeta = { app.ObjectMeta with Name := app.ID } ∧
      status.ReportTime = now ∧
      (∃ err, h.Add now (Value.application (some app)) =
        some ⟨[Call.CreateDCNode
          ("/bcsstorage/v1/mesos/dynamic/namespace_resources/clusters/" ++ h.ClusterID ++
            "/namespaces/" ++ app.RunAs ++ "/" ++ h.dataType ++ "/" ++ status.ObjectMeta.Name)
          (Value.replicaControllerStatus (some status)) "PUT"], err⟩) := by
  obtain ⟨status, hconv, hadd⟩ := AppHandler_Add_entity h now app
  have hs : status =
      { ObjectMeta := { app.ObjectMeta with Name := app.ID }
        Instance := uint64ToInt app.DefineInstances
        BuildedInstance := uint64ToInt app.Instances
        RunningInstance := uint64ToInt app.RunningInstances
        CreateTime := time_Unix app.Created 0
        LastUpdateTime := time_Unix app.UpdateTime 0
        ReportTime := now
        Status := app.Status
        LastStatus := app.LastStatus
        Message := app.Message
        Pods := app.Pods
        Kind := app.Kind } := by
    simp only [AppHandler.FormatConv, Option.some.injEq, Prod.mk.injEq, and_true] at hconv
    exact hconv.symm
  refine ⟨status, hconv, ?_, ?_, ?_, ?_, ?_, ?_, ?_, ?_, ?_, ?_, ?_, ?_, ?_, ?_, ?_, ?_⟩
  · intro hlt
    rw [hs]
    exact uint64ToInt_small _ hlt
  · intro hge hlt
    rw [hs]
    exact uint64ToInt_large _ hge hlt
  · intro hlt
    rw [hs]
    exact uint64ToInt_small _ hlt
  · intro hge hlt
    rw [hs]
    exact uint64ToInt_large _ hge hlt
  · intro hlt
    rw [hs]
    exact uint64ToInt_small _ hlt
  · intro hge hlt
    rw [hs]
    exact uint64ToInt_large _ hge hlt
  · rw [hs]
    exact time_Unix_zero _
  · rw [hs]
    exact time_Unix_zero _
  · rw [hs]
  · rw [hs]
  · rw [hs]
  · rw [hs]
  · rw [hs]
  · rw [hs]
  · rw [hs]
  · have hn : status.ObjectMeta.Name = app.ID := by rw [hs]
    rw [hn]
    exact ⟨_, hadd⟩

theorem FormatConv_mapping_witness :
    ∃ status, (appHandlerWith okOper true).FormatConv ⟨1500000000, 0⟩
        (some (appWith "ns" "app-1" 3)) = some (status, none) ∧
      status.Instance = 3 ∧ status.BuildedInstance = 2 ∧ status.RunningInstance = 1 ∧
      status.ReportTime = ⟨1500000000, 0⟩ :=
  (FormatConv_mapping (appHandlerWith okOper true) ⟨1500000000, 0⟩ (appWith "ns" "app-1" 3)).elim
    (fun status hs =>
      ⟨status, hs.1, hs.2.1 (by decide), hs.2.2.2.1 (by decide), hs.2.2.2.2.2.1 (by decide),
        hs.2.2.2.2.2.2.2.2.2.2.2.2.2.2.2.1⟩)

/-- C23. Aggregation after defaulting is safe: for a `Version` of kind `APP` or
`""` whose container list has no nil entry, `CheckAndDefaultResource` returns a
`Version` in which every container has a `DataClass` with `Resources`, and on
it `AllCpus`, `AllMems`, `AllDisk` and `AllResource` return a value: the nil
dereference of the aggregation does not happen. -/
theorem aggregation_after_defaulting_safe (v : Version)
    (hk : v.Kind = BcsDataType_APP ∨ v.Kind = "") (hc : ∀ c ∈ v.Container, c ≠ none) :
    ∃ v1, CheckAndDefaultResource v = some v1 ∧
      (∀ c ∈ v1.Container, ∃ k dc r, c = some k ∧ k.DataClass = some dc ∧
        dc.Resources = some r) ∧
      (AllCpus v1).isSome ∧ (AllMems v1).isSome ∧ (AllDisk v1).isSome ∧
      (AllResource v1).isSome := by
  have hk1 := not_PROCESS_of_APP hk
  obtain ⟨cs1, hcs⟩ := Option.isSome_iff_exists.1 ((defaultContainers_isSome v.Container).2 hc)
  have hblock : ∀ c ∈ cs1, ∃ k dc r, c = some k ∧ k.DataClass = some dc ∧
      dc.Resources = some r := by
    intro c hmem
    obtain ⟨k, hk2⟩ := defaultContainers_mem hcs c hmem
    obtain ⟨dc, r, h1, h2⟩ := defaultContainer_has_block k
    exact ⟨_, dc, r, hk2, h1, h2⟩
  refine ⟨{ v with Container := cs1 }, ?_, hblock, ?_⟩
  · simp only [CheckAndDefaultResource, if_neg hk1, if_pos hk, hcs]
  · obtain ⟨a, ha⟩ := Option.isSome_iff_exists.1
      (sumContainers_isSome Resource.Cpus cs1 hblock F64.zero)
    obtain ⟨b, hb⟩ := Option.isSome_iff_exists.1
      (sumContainers_isSome Resource.Mem cs1 hblock F64.zero)
    obtain ⟨c, hc2⟩ := Option.isSome_iff_exists.1
      (sumContainers_isSome Resource.Disk cs1 hblock F64.zero)
    simp only [AllResource, AllCpus, AllMems, AllDisk, sumByKind, if_neg hk1, if_pos hk, ha, hb,
      hc2, Option.isSome_some, and_self]

theorem aggregation_after_defaulting_safe_witness :
    ∃ v1, CheckAndDefaultResource (versionWith "" [some bareContainer] [none] none) = some v1 ∧
      (∀ c ∈ v1.Container, ∃ k dc r, c = some k ∧ k.DataClass = some dc ∧
        dc.Resources = some r) ∧
      (AllCpus v1).isSome ∧ (AllMems v1).isSome ∧ (AllDisk v1).isSome ∧
      (AllResource v1).isSome :=
  aggregation_after_defaulting_safe (versionWith "" [some bareContainer] [none] none)
    (Or.inr rfl) (by decide)

/-- C30. Unrecognised `Kind` aggregates to the bare overhead: for every
`Version` whose `Kind` is none of `PROCESS`, `APP` and `""`, whatever its
container and process lists hold, `AllCpus = 0`, `AllMems = 64` and
`AllDisk = 64`, and `AllResource` is `{0, 64, 64}`. -/
theorem unrecognised_kind_overhead (v : Version) (h1 : v.Kind ≠ BcsDataType_PROCESS)
    (h2 : v.Kind ≠ BcsDataType_APP) (h3 : v.Kind ≠ "") :
    AllCpus v = some F64.zero ∧ AllMems v = some (F64.ofInt 64) ∧
    AllDisk v = some (F64.ofInt 64) ∧
    AllResource v = some ⟨F64.zero, 0, F64.ofInt 64, F64.ofInt 64⟩ ∧
    F64.zero = F64.ofInt 0 := by
  have h23 : ¬ (v.Kind = BcsDataType_APP ∨ v.Kind = "") := by
    rintro (h | h)
    · exact h2 h
    · exact h3 h
  have h64 : F64.zero + F64.ofInt MEM_PER_EXECUTOR = F64.ofInt 64 := by decide!
  have h64d : F64.zero + F64.ofInt DISK_PER_EXECUTOR = F64.ofInt 64 := by decide!
  refine ⟨?_, ?_, ?_, ?_, by decide!⟩
  · simp only [AllCpus, sumByKind, if_neg h1, if_neg h23]
  · simp only [AllMems, sumByKind, if_neg h1, if_neg h23, h64]
  · simp only [AllDisk, sumByKind, if_neg h1, if_neg h23, h64d]
  · simp only [AllResource, AllCpus, AllMems, AllDisk, sumByKind, if_neg h1, if_neg h23, h64,
      h64d]

theorem unrecognised_kind_overhead_witness :
    AllCpus (versionWith "deployment" [none, some bareContainer] [none] none) = some F64.zero ∧
    AllMems (versionWith "deployment" [none, some bareContainer] [none] none)
      = some (F64.ofInt 64) ∧
    AllDisk (versionWith "deployment" [none, some bareContainer] [none] none)
      = some (F64.ofInt 64) ∧
    AllResource (versionWith "deployment" [none, some bareContainer] [none] none)
      = some ⟨F64.zero, 0, F64.ofInt 64, F64.ofInt 64⟩ ∧
    F64.zero = F64.ofInt 0 :=
  unrecognised_kind_overhead (versionWith "deployment" [none, some bareContainer] [none] none)
    (by decide) (by decide) (by decide)

/-- C24. Defaulting touches only the active list.  When `CheckAndDefaultResource`
returns: with `Kind = PROCESS` the `Version` differs from the given one in its
process list only (the container list is unchanged), and each process keeps
every field but `Resources.Limits`; with `Kind = APP` or `""` it differs in its
container list only (the process list is unchanged), each container keeps every
field but `DataClass`, a `DataClass` that was present keeps every field but
`Resources`, and a `DataClass` that was absent is created with `Resources`
only.  With any other `Kind` the call returns the `Version` unchanged. -/
theorem defaulting_frame (v : Version) :
    (v.Kind = BcsDataType_PROCESS → ∀ v1, CheckAndDefaultResource v = some v1 →
      v1 = { v with Process := v1.Process } ∧ v1.Container = v.Container ∧
      List.Forall₂
        (fun p p1 => ∃ q q1, p = some q ∧ p1 = some q1 ∧ q1.ProcName = q.ProcName ∧
          q1.Resources.Requests = q.Resources.Requests)
        v.Process v1.Process) ∧
    (v.Kind = BcsDataType_APP ∨ v.Kind = "" → ∀ v1, CheckAndDefaultResource v = some v1 →
      v1 = { v with Container := v1.Container } ∧ v1.Process = v.Process ∧
      List.Forall₂
        (fun c c1 => ∃ k k1 dc1, c = some k ∧ c1 = some k1 ∧
          k1 = { k with DataClass := some dc1 } ∧
          (k.DataClass = none → dc1.LimitResources = none ∧ dc1.ProcInfo = none) ∧
          (∀ dc, k.DataClass = some dc →
            dc1.LimitResources = dc.LimitResources ∧ dc1.ProcInfo = dc.ProcInfo))
        v.Container v1.Container) ∧
    (v.Kind ≠ BcsDataType_PROCESS → ¬ (v.Kind = BcsDataType_APP ∨ v.Kind = "") →
      CheckAndDefaultResource v = some v) := by
  refine ⟨?_, ?_, ?_⟩
  · intro hk v1 h
    unfold CheckAndDefaultResource at h
    rw [if_pos hk] at h
    cases hp : defaultProcesses v.Process with
    | none => simp [hp] at h
    | some ps =>
      simp [hp] at h
      subst h
      refine ⟨rfl, rfl, (defaultProcesses_some hp).imp ?_⟩
      rintro p p1 ⟨q, rfl, rfl⟩
      exact ⟨q, defaultProcess q, rfl, rfl, rfl, rfl⟩
  · intro hk v1 h
    unfold CheckAndDefaultResource at h
    rw [if_neg (not_PROCESS_of_APP hk), if_pos hk] at h
    cases hc : defaultContainers v.Container with
    | none => simp [hc] at h
    | some cs =>
      simp [hc] at h
      subst h
      refine ⟨rfl, rfl, (defaultContainers_some hc).imp ?_⟩
      rintro c c1 ⟨k, rfl, rfl⟩
      rcases hdc : k.DataClass with _ | dc
      · refine ⟨k, defaultContainer k, { Resources := some defaultResource }, rfl, rfl, ?_, ?_, ?_⟩
        · simp only [defaultContainer, hdc]
        · intro _
          exact ⟨rfl, rfl⟩
        · intro dc h1
          simp [hdc] at h1
      · rcases hr : dc.Resources with _ | r
        · refine ⟨k, defaultContainer k, { dc with Resources := some defaultResource }, rfl, rfl,
            ?_, ?_, ?_⟩
          · simp only [defaultContainer, hdc, hr]
          · intro h1
            simp [hdc] at h1
          · intro dc2 h1
            rw [hdc] at h1
            simp only [Option.some.injEq] at h1
            subst h1
            exact ⟨rfl, rfl⟩
        · refine ⟨k, defaultContainer k, dc, rfl, rfl, ?_, ?_, ?_⟩
          · simp only [defaultContainer, hdc, hr]
          · intro h1
            simp [hdc] at h1
          · intro dc2 h1
            rw [hdc] at h1
            simp only [Option.some.injEq] at h1
            subst h1
            exact ⟨rfl, rfl⟩
  · intro h1 h2
    simp only [CheckAndDefaultResource, if_neg h1, if_neg h2]

theorem defaulting_frame_witness :
    CheckAndDefaultResource (versionWith "deployment" [none] [none] none)
      = some (versionWith "deployment" [none] [none] none) ∧
    ∀ v1, CheckAndDefaultResource
        (versionWith "process" [none, some bareContainer] [some (processWith "" "3" "")] none)
        = some v1 →
      v1.Container = [none, some bareContainer] :=
  ⟨(defaulting_frame (versionWith "deployment" [none] [none] none)).2.2 (by decide) (by decide),
   fun v1 h =>
    ((defaulting_frame
      (versionWith "process" [none, some bareContainer] [some (processWith "" "3" "")] none)).1
      rfl v1 h).2.1⟩

/-- C26. ExportService dual publication: for every handler (so whatever the
Data Operator answers) and every exported service, `Add` and `Update` make
exactly two calls `CreateDCNode` with the service as body and method `PUT`,
first on `/bcsstorage/v1/mesos/watch/clusters/` + `ClusterID` + `/namespaces/` +
`Namespace` + `/` + `dataType` + `/` + `ServiceName`, then on the
`namespace_resources` path of the same cluster, namespace, kind and name;
`Delete` makes exactly two calls `DeleteDCNode` with method `DELETE` on the same
two paths in the same order.  With a Data Operator that fails every call the
second call is made all the same. -/
theorem ExportService_dual_publication :
    (∀ (h : ExpServiceHandler) (svc : ExportService),
      (h.Add (Value.exportService (some svc))).map Outcome.calls =
        some [Call.CreateDCNode
            ("/bcsstorage/v1/mesos/watch/clusters/" ++ h.ClusterID ++ "/namespaces/" ++
              svc.Namespace ++ "/" ++ h.dataType ++ "/" ++ svc.ServiceName)
            (Value.exportService (some svc)) "PUT",
          Call.CreateDCNode
            ("/bcsstorage/v1/mesos/dynamic/namespace_resources/clusters/" ++ h.ClusterID ++
              "/namespaces/" ++ svc.Namespace ++ "/" ++ h.dataType ++ "/" ++ svc.ServiceName)
            (Value.exportService (some svc)) "PUT"] ∧
      (h.Update (Value.exportService (some svc))).map Outcome.calls =
        some [Call.CreateDCNode
            ("/bcsstorage/v1/mesos/watch/clusters/" ++ h.ClusterID ++ "/namespaces/" ++
              svc.Namespace ++ "/" ++ h.dataType ++ "/" ++ svc.ServiceName)
            (Value.exportService (some svc)) "PUT",
          Call.CreateDCNode
            ("/bcsstorage/v1/mesos/dynamic/namespace_resources/clusters/" ++ h.ClusterID ++
              "/namespaces/" ++ svc.Namespace ++ "/" ++ h.dataType ++ "/" ++ svc.ServiceName)
            (Value.exportService (some svc)) "PUT"] ∧
      (h.Delete (Value.exportService (some svc))).map Outcome.calls =
        some [Call.DeleteDCNode
            ("/bcsstorage/v1/mesos/watch/clusters/" ++ h.ClusterID ++ "/namespaces/" ++
              svc.Namespace ++ "/" ++ h.dataType ++ "/" ++ svc.ServiceName) "DELETE",
          Call.DeleteDCNode
            ("/bcsstorage/v1/mesos/dynamic/namespace_resources/clusters/" ++ h.ClusterID ++
              "/namespaces/" ++ svc.Namespace ++ "/" ++ h.dataType ++ "/" ++ svc.ServiceName)
            "DELETE"]) ∧
    ((expServiceHandlerWith (failingOper ⟨"connection refused"⟩)).Delete
        (Value.exportService (some (serviceWith "ns" "svc")))).map Outcome.calls =
      some [Call.DeleteDCNode
          "/bcsstorage/v1/mesos/watch/clusters/BCS-MESOS-10001/namespaces/ns/exportservice/svc"
          "DELETE",
        Call.DeleteDCNode
          ("/bcsstorage/v1/mesos/dynamic/namespace_resources/clusters/BCS-MESOS-10001" ++
            "/namespaces/ns/exportservice/svc") "DELETE"] := by
  refine ⟨fun _ _ => ⟨rfl, rfl, rfl⟩, by decide⟩

/-- C28. Cross-namespace path injectivity: for a fixed cluster and kind, when
the namespaces contain no `/`, the per-namespace path of `AppHandler` and of
`EndpointHandler` determines the pair (namespace, name): two entities whose
`Add` calls have the same path have the same namespace and the same name, so
entities that differ in the pair get different paths. -/
theorem namespace_name_injective :
    (∀ (h1 h2 : AppHandler) (now1 now2 : Time) (a1 a2 : Application),
      h1.ClusterID = h2.ClusterID → h1.dataType = h2.dataType →
      '/' ∉ a1.RunAs.data → '/' ∉ a2.RunAs.data →
      ∃ p1 p2,
        (h1.Add now1 (Value.application (some a1))).map (fun o => o.calls.map Call.node)
          = some [p1] ∧
        (h2.Add now2 (Value.application (some a2))).map (fun o => o.calls.map Call.node)
          = some [p2] ∧
        (p1 = p2 → a1.RunAs = a2.RunAs ∧ a1.ID = a2.ID) ∧
        ((a1.RunAs, a1.ID) ≠ (a2.RunAs, a2.ID) → p1 ≠ p2)) ∧
    (∀ (h1 h2 : EndpointHandler) (e1 e2 : BcsEndpoint),
      h1.ClusterID = h2.ClusterID → h1.dataType = h2.dataType →
      '/' ∉ e1.ObjectMeta.NameSpace.data → '/' ∉ e2.ObjectMeta.NameSpace.data →
      ∃ p1 p2,
        (h1.Add (Value.endpoint (some e1))).map (fun o => o.calls.map Call.node) = some [p1] ∧
        (h2.Add (Value.endpoint (some e2))).map (fun o => o.calls.map Call.node) = some [p2] ∧
        (p1 = p2 → e1.ObjectMeta.NameSpace = e2.ObjectMeta.NameSpace ∧
          e1.ObjectMeta.Name = e2.ObjectMeta.Name) ∧
        ((e1.ObjectMeta.NameSpace, e1.ObjectMeta.Name) ≠
            (e2.ObjectMeta.NameSpace, e2.ObjectMeta.Name) → p1 ≠ p2)) := by
  constructor
  · intro h1 h2 now1 now2 a1 a2 hc hk hn1 hn2
    refine ⟨_, _, AppHandler_Add_paths h1 now1 a1, AppHandler_Add_paths h2 now2 a2, ?_⟩
    have key : "/bcsstorage/v1/mesos/dynamic/namespace_resources/clusters/" ++ h1.ClusterID ++
          "/namespaces/" ++ a1.RunAs ++ "/" ++ h1.dataType ++ "/" ++ a1.ID =
        "/bcsstorage/v1/mesos/dynamic/namespace_resources/clusters/" ++ h2.ClusterID ++
          "/namespaces/" ++ a2.RunAs ++ "/" ++ h2.dataType ++ "/" ++ a2.ID →
        a1.RunAs = a2.RunAs ∧ a1.ID = a2.ID := by
      intro he
      rw [hc, hk] at he
      exact namespace_path_injective _ _ _ _ _ _ hn1 hn2 he
    refine ⟨key, ?_⟩
    intro hne he
    obtain ⟨e1, e2⟩ := key he
    exact hne (by rw [e1, e2])
  · intro h1 h2 e1 e2 hc hk hn1 hn2
    refine ⟨_, _, EndpointHandler_Add_paths h1 e1, EndpointHandler_Add_paths h2 e2, ?_⟩
    have key : "/bcsstorage/v1/mesos/dynamic/namespace_resources/clusters/" ++ h1.ClusterID ++
          "/namespaces/" ++ e1.ObjectMeta.NameSpace ++ "/" ++ h1.dataType ++ "/" ++
          e1.ObjectMeta.Name =
        "/bcsstorage/v1/mesos/dynamic/namespace_resources/clusters/" ++ h2.ClusterID ++
          "/namespaces/" ++ e2.ObjectMeta.NameSpace ++ "/" ++ h2.dataType ++ "/" ++
          e2.ObjectMeta.Name →
        e1.ObjectMeta.NameSpace = e2.ObjectMeta.NameSpace ∧
          e1.ObjectMeta.Name = e2.ObjectMeta.Name := by
      intro he
      rw [hc, hk] at he
      exact namespace_path_injective _ _ _ _ _ _ hn1 hn2 he
    refine ⟨key, ?_⟩
    intro hne he
    obtain ⟨g1, g2⟩ := key he
    exact hne (by rw [g1, g2])

theorem namespace_name_injective_witness :
    ∃ p1 p2,
      ((appHandlerWith okOper true).Add ⟨1500000000, 0⟩
        (Value.application (some (appWith "ns-a" "app" 3)))).map
        (fun o => o.calls.map Call.node) = some [p1] ∧
      ((appHandlerWith okOper true).Add ⟨1500000000, 0⟩
        (Value.application (some (appWith "ns-b" "app" 3)))).map
        (fun o => o.calls.map Call.node) = some [p2] ∧ p1 ≠ p2 :=
  (namespace_name_injective.1 (appHandlerWith okOper true) (appHandlerWith okOper true)
      ⟨1500000000, 0⟩ ⟨1500000000, 0⟩ (appWith "ns-a" "app" 3) (appWith "ns-b" "app" 3)
      rfl rfl (by decide) (by decide)).elim
    (fun p1 hp1 => hp1.elim (fun p2 hp2 => ⟨p1, p2, hp2.1, hp2.2.1, hp2.2.2.2 (by decide)⟩))


/-- C27. Defaults written by `CheckAndDefaultResource` aggregate to the per-task
constants: for `n < 2^53`, a Version with Kind = APP (or "") whose `n`
containers all lack a resource block, and a Version with Kind = PROCESS whose
`n` processes have three empty limits, both come out of
`CheckAndDefaultResource` with `AllCpus = n`, `AllMems = 64 * n + 64` and
`AllDisk = 64 * n + 64`, as float64 values; the default strings "1" and "64"
parse back to 1 and 64 without error.  Up to `2^53` every partial sum is an
integer that float64 holds exactly. -/
theorem defaults_aggregate (n : Nat) (hn : n < 2 ^ 53) :
    (∀ (v : Version) (cs : List Container),
      (v.Kind = BcsDataType_APP ∨ v.Kind = "") → v.Container = cs.map some →
      cs.length = n →
      (∀ c ∈ cs, c.DataClass = none ∨ ∃ dc, c.DataClass = some dc ∧ dc.Resources = none) →
      ∃ v1, CheckAndDefaultResource v = some v1 ∧
        AllCpus v1 = some (F64.ofInt n) ∧
        AllMems v1 = some (F64.ofInt (64 * n + 64)) ∧
        AllDisk v1 = some (F64.ofInt (64 * n + 64))) ∧
    (∀ (v : Version) (ps : List Process),
      v.Kind = BcsDataType_PROCESS → v.Process = ps.map some → ps.length = n →
      (∀ p ∈ ps, p.Resources.Limits.Cpu = "" ∧ p.Resources.Limits.Mem = "" ∧
        p.Resources.Limits.Storage = "") →
      ∃ v1, CheckAndDefaultResource v = some v1 ∧
        AllCpus v1 = some (F64.ofInt n) ∧
        AllMems v1 = some (F64.ofInt (64 * n + 64)) ∧
        AllDisk v1 = some (F64.ofInt (64 * n + 64))) ∧
    ParseFloat (Itoa CPUS_PER_TASK) = (F64.ofInt 1, none) ∧
    ParseFloat (Itoa MEM_PER_TASK) = (F64.ofInt 64, none) ∧
    ParseFloat (Itoa DISK_PER_TASK) = (F64.ofInt 64, none) := by
  have h64 : F64.fin false ((0 + n) * (64 * F64.one_ulps)) + F64.ofInt 64
      = F64.ofInt (64 * (n : Int) + 64) := by
    rw [F64.ofInt_sixtyfour, F64.ofInt_sixtyfour_mul n (by omega), Nat.zero_add,
      F64.add_exact n 1 _ 1080 F64.sixtyfour_ulps (by decide) (by omega)]
  have h1 : F64.fin false ((0 + n) * F64.one_ulps) = F64.ofInt (n : Int) := by
    rw [F64.ofInt_natCast n (by omega), Nat.zero_add]
  refine ⟨?_, ?_, ?_, ?_, ?_⟩
  · intro v cs hk hc hl hlack
    subst hl
    have hnp := not_PROCESS_of_APP hk
    refine ⟨{ v with Container := cs.map (fun c => some (defaultContainer c)) }, ?_, ?_, ?_, ?_⟩
    · simp only [CheckAndDefaultResource, if_neg hnp, if_pos hk, hc,
        defaultContainers_map_some]
    · simp only [AllCpus, sumByKind, if_neg hnp, if_pos hk]
      rw [F64.zero_eq_mul F64.one_ulps,
        sumContainers_defaulted Resource.Cpus _ 1074 F64.one_ulps_eq (by decide) defaultResource_Cpus cs
          hlack 0
          (by omega), h1]
    · simp only [AllMems, sumByKind, if_neg hnp, if_pos hk]
      rw [F64.zero_eq_mul (64 * F64.one_ulps),
        sumContainers_defaulted Resource.Mem _ 1080 F64.sixtyfour_ulps (by decide)
          defaultResource_Mem cs hlack 0 (by omega)]
      simp only []
      exact congrArg some h64
    · simp only [AllDisk, sumByKind, if_neg hnp, if_pos hk]
      rw [F64.zero_eq_mul (64 * F64.one_ulps),
        sumContainers_defaulted Resource.Disk _ 1080 F64.sixtyfour_ulps (by decide)
          defaultResource_Disk cs hlack 0 (by omega)]
      simp only []
      exact congrArg some h64
  · intro v ps hk hp hl hempty
    subst hl
    have hlim : ∀ p ∈ ps, p.Resources.Limits = ⟨"", "", ""⟩ := by
      intro p hp
      obtain ⟨e1, e2, e3⟩ := hempty p hp
      rcases hL : p.Resources.Limits with ⟨a, b, c⟩
      rw [hL] at e1 e2 e3
      simp only at e1 e2 e3
      rw [e1, e2, e3]
    have p1 : (ParseFloat "1").1 = F64.fin false (1 * F64.one_ulps) := by
      rw [ParseFloat_one, F64.ofInt_one]
    have p64 : (ParseFloat "64").1 = F64.fin false (1 * (64 * F64.one_ulps)) := by
      rw [ParseFloat_sixtyfour, F64.ofInt_sixtyfour]
    refine ⟨{ v with Process := ps.map (fun p => some (defaultProcess p)) }, ?_, ?_, ?_, ?_⟩
    · simp only [CheckAndDefaultResource, if_pos hk, hp, defaultProcesses_map_some]
    · simp only [AllCpus, sumByKind, if_pos hk]
      rw [F64.zero_eq_mul F64.one_ulps,
        sumProcesses_defaulted ResourceList.Cpu _ 1074 F64.one_ulps_eq (by decide) "1" rfl p1 ps hlim 0
          (by omega), h1]
    · simp only [AllMems, sumByKind, if_pos hk]
      rw [F64.zero_eq_mul (64 * F64.one_ulps),
        sumProcesses_defaulted ResourceList.Mem _ 1080 F64.sixtyfour_ulps (by decide)
          "64" rfl p64 ps hlim 0 (by omega)]
      simp only []
      exact congrArg some h64
    · simp only [AllDisk, sumByKind, if_pos hk]
      rw [F64.zero_eq_mul (64 * F64.one_ulps),
        sumProcesses_defaulted ResourceList.Storage _ 1080 F64.sixtyfour_ulps (by decide)
          "64" rfl p64 ps hlim 0 (by omega)]
      simp only []
      exact congrArg some h64
  · rw [Itoa_CPUS_PER_TASK, ParseFloat_one]
  · rw [Itoa_MEM_PER_TASK, ParseFloat_sixtyfour]
  · rw [Itoa_DISK_PER_TASK, ParseFloat_sixtyfour]

theorem defaults_aggregate_witness :
    (∃ v1, CheckAndDefaultResource
        (versionWith "application" [some bareContainer, some bareContainer, some bareContainer]
          [] none) = some v1 ∧
      AllCpus v1 = some (F64.ofInt 3) ∧ AllMems v1 = some (F64.ofInt 256) ∧
      AllDisk v1 = some (F64.ofInt 256)) ∧
    (∃ v1, CheckAndDefaultResource
        (versionWith "process" [] [some (processWith "" "" ""), some (processWith "" "" "")]
          none) = some v1 ∧
      AllCpus v1 = some (F64.ofInt 2) ∧ AllMems v1 = some (F64.ofInt 192) ∧
      AllDisk v1 = some (F64.ofInt 192)) :=
  ⟨(defaults_aggregate 3 (by decide)).1
      (versionWith "application" [some bareContainer, some bareContainer, some bareContainer]
        [] none)
      [bareContainer, bareContainer, bareContainer] (Or.inl rfl) rfl rfl
      (fun _ hc => Or.inl (by
        simp only [List.mem_cons, List.mem_singleton, List.not_mem_nil, or_false] at hc
        rcases hc with h | h | h <;> rw [h] <;> rfl)),
   (defaults_aggregate 2 (by decide)).2.1
      (versionWith "process" [] [some (processWith "" "" ""), some (processWith "" "" "")] none)
      [processWith "" "" "", processWith "" "" ""] rfl rfl rfl
      (fun _ hp => by
        simp only [List.mem_cons, List.mem_singleton, List.not_mem_nil, or_false] at hp
        rcases hp with h | h <;> rw [h] <;> exact ⟨rfl, rfl, rfl⟩)⟩


/-- C21, counterexample. With the stored nodes as a map from path to body, an
application handler that runs `Add` at 1500000000 s and `Update` of the same
application at 1500000060 s leaves at the application path a body that differs
from the one a single `Add` at 1500000000 s leaves: the body holds the clock
reading of the call in `ReportTime`. -/
theorem upsert_report_time_counterexample :
    (Storage.empty.after
        [(appHandlerWith okOper true).Add ⟨1500000000, 0⟩
            (Value.application (some (appWith "ns" "app" 3))),
          (appHandlerWith okOper true).Update ⟨1500000060, 0⟩
            (Value.application (some (appWith "ns" "app" 3)))]).map
        (fun st => st.nodes
          "/bcsstorage/v1/mesos/dynamic/namespace_resources/clusters/BCS-MESOS-10001/namespaces/ns/application/app")
      ≠
    (Storage.empty.after
        [(appHandlerWith okOper true).Add ⟨1500000000, 0⟩
            (Value.application (some (appWith "ns" "app" 3)))]).map
        (fun st => st.nodes
          "/bcsstorage/v1/mesos/dynamic/namespace_resources/clusters/BCS-MESOS-10001/namespaces/ns/application/app") := by
  decide

/-- C21, amended. Idempotent upsert: with the stored nodes as a map from path
to body in which `CreateDCNode` creates or replaces the entry, for every
handler and every value, `Add` followed by `Update`, `Update` alone, and `Add`
repeated one or more times leave the same stored nodes as a single `Add` made
at the clock reading of the last call.  For `EndpointHandler` and
`ExpServiceHandler` the clock plays no part; for `AppHandler` the body stored
by `Add` at `t1` then `Update` at `t2` is the body of `Add` at `t1` with
`ReportTime` set to `t2`. -/
theorem upsert_converges :
    (∀ (h : AppHandler) (st : Storage) (data : Value) (t1 t2 : Time),
      st.after [h.Add t1 data, h.Update t2 data] = st.after [h.Add t2 data] ∧
      st.after [h.Update t2 data] = st.after [h.Add t2 data]) ∧
    (∀ (h : AppHandler) (st : Storage) (data : Value) (ts : List Time) (t : Time),
      st.after ((ts ++ [t]).map (fun now => h.Add now data)) = st.after [h.Add t data]) ∧
    (∀ (h : AppHandler) (st : Storage) (app : Application) (t1 t2 : Time),
      ∃ status, h.FormatConv t1 (some app) = some (status, none) ∧
        st.after [h.Add t1 (Value.application (some app))] =
          some (st.CreateNode
            ("/bcsstorage/v1/mesos/dynamic/namespace_resources/clusters/" ++ h.ClusterID ++
              "/namespaces/" ++ app.RunAs ++ "/" ++ h.dataType ++ "/" ++ app.ID)
            (Value.replicaControllerStatus (some status))) ∧
        st.after [h.Add t1 (Value.application (some app)),
            h.Update t2 (Value.application (some app))] =
          some (st.CreateNode
            ("/bcsstorage/v1/mesos/dynamic/namespace_resources/clusters/" ++ h.ClusterID ++
              "/namespaces/" ++ app.RunAs ++ "/" ++ h.dataType ++ "/" ++ app.ID)
            (Value.replicaControllerStatus (some { status with ReportTime := t2 })))) ∧
    (∀ (h : EndpointHandler) (st : Storage) (data : Value),
      st.after [h.Add data, h.Update data] = st.after [h.Add data] ∧
      st.after [h.Update data] = st.after [h.Add data] ∧
      ∀ n : Nat, st.after (List.replicate (n + 1) (h.Add data)) = st.after [h.Add data]) ∧
    (∀ (h : ExpServiceHandler) (st : Storage) (data : Value),
      st.after [h.Add data, h.Update data] = st.after [h.Add data] ∧
      st.after [h.Update data] = st.after [h.Add data] ∧
      ∀ n : Nat, st.after (List.replicate (n + 1) (h.Add data)) = st.after [h.Add data]) := by
  refine ⟨?_, ?_, ?_, ?_, ?_⟩
  · intro h st data t1 t2
    rw [AppHandler_Update_eq_Add]
    exact ⟨AppHandler_Add_then_Add h data t1 t2 st, rfl⟩
  · intro h st data ts t
    exact AppHandler_Add_repeat h data ts t st
  · intro h st app t1 t2
    obtain ⟨s1, hf, h1⟩ := AppHandler_Add_entity h t1 app
    obtain ⟨s2, hf2, h2⟩ := AppHandler_Add_entity h t2 app
    refine ⟨s1, hf, ?_, ?_⟩
    · rw [h1]
      rfl
    · rw [AppHandler_Update_eq_Add, h1, h2, Storage_after_create, Storage_after_create,
        Storage_CreateNode_twice]
      simp only [AppHandler.FormatConv, Option.some.injEq, Prod.mk.injEq, and_true] at hf hf2
      rw [← hf, ← hf2]
      rfl
  · intro h st data
    rw [EndpointHandler_Update_eq_Add]
    exact ⟨EndpointHandler_Add_twice h data st, rfl,
      fun n => Storage_after_replicate _ (EndpointHandler_Add_twice h data) n st⟩
  · intro h st data
    rw [ExpServiceHandler_Update_eq_Add]
    exact ⟨ExpServiceHandler_Add_twice h data st, rfl,
      fun n => Storage_after_replicate _ (ExpServiceHandler_Add_twice h data) n st⟩


/-- C22, counterexample. No node is stored, and the Data Operator reports the
delete of a missing node as an error: `AppHandler.Delete` and
`EndpointHandler.Delete` make their `DeleteDCNode` call and return that error,
not nil. -/
theorem delete_absent_node_counterexample :
    (Storage.empty.nodes
        "/bcsstorage/v1/mesos/dynamic/namespace_resources/clusters/BCS-MESOS-10001/namespaces/ns/application/app"
        = none ∧
      (appHandlerWith (strictOper Storage.empty) true).Delete
          (Value.application (some (appWith "ns" "app" 3))) =
        some ⟨[Call.DeleteDCNode
            "/bcsstorage/v1/mesos/dynamic/namespace_resources/clusters/BCS-MESOS-10001/namespaces/ns/application/app"
            "DELETE"],
          some ⟨"node not found"⟩⟩) ∧
    (Storage.empty.nodes
        "/bcsstorage/v1/mesos/dynamic/namespace_resources/clusters/BCS-MESOS-10001/namespaces/ns/endpoint/ep"
        = none ∧
      (endpointHandlerWith (strictOper Storage.empty)).Delete
          (Value.endpoint (some (endpointWith "ns" "ep"))) =
        some ⟨[Call.DeleteDCNode
            "/bcsstorage/v1/mesos/dynamic/namespace_resources/clusters/BCS-MESOS-10001/namespaces/ns/endpoint/ep"
            "DELETE"],
          some ⟨"node not found"⟩⟩) := by
  decide

/-- C22, amended. Delete-tolerance: on an entity, whether or not a node is
stored for it, `Delete` makes its `DeleteDCNode` call on the path of the entity
(two calls for an exported service) without looking at the stored nodes.
`AppHandler.Delete` and `EndpointHandler.Delete` return exactly what the Data
Operator returned for that call, nil or the error; `ExpServiceHandler.Delete`
returns nil whatever the Data Operator returned.  With the stored nodes as a
map from path to body in which `DeleteDCNode` removes the entry, a `Delete` of
an entity that has no stored node leaves the stored nodes unchanged. -/
theorem delete_tolerance (st : Storage) :
    (∀ (h : AppHandler) (app : Application),
      ∃ o, h.Delete (Value.application (some app)) = some o ∧
        o.calls = [Call.DeleteDCNode
          ("/bcsstorage/v1/mesos/dynamic/namespace_resources/clusters/" ++ h.ClusterID ++
            "/namespaces/" ++ app.RunAs ++ "/" ++ h.dataType ++ "/" ++ app.ID) "DELETE"] ∧
        o.err = h.oper.respond []
          (Call.DeleteDCNode
            ("/bcsstorage/v1/mesos/dynamic/namespace_resources/clusters/" ++ h.ClusterID ++
              "/namespaces/" ++ app.RunAs ++ "/" ++ h.dataType ++ "/" ++ app.ID) "DELETE") ∧
        (st.nodes
            ("/bcsstorage/v1/mesos/dynamic/namespace_resources/clusters/" ++ h.ClusterID ++
              "/namespaces/" ++ app.RunAs ++ "/" ++ h.dataType ++ "/" ++ app.ID) = none →
          st.run o.calls = some st)) ∧
    (∀ (h : EndpointHandler) (ep : BcsEndpoint),
      ∃ o, h.Delete (Value.endpoint (some ep)) = some o ∧
        o.calls = [Call.DeleteDCNode
          ("/bcsstorage/v1/mesos/dynamic/namespace_resources/clusters/" ++ h.ClusterID ++
            "/namespaces/" ++ ep.ObjectMeta.NameSpace ++ "/" ++ h.dataType ++ "/" ++
            ep.ObjectMeta.Name) "DELETE"] ∧
        o.err = h.oper.respond []
          (Call.DeleteDCNode
            ("/bcsstorage/v1/mesos/dynamic/namespace_resources/clusters/" ++ h.ClusterID ++
              "/namespaces/" ++ ep.ObjectMeta.NameSpace ++ "/" ++ h.dataType ++ "/" ++
              ep.ObjectMeta.Name) "DELETE") ∧
        (st.nodes
            ("/bcsstorage/v1/mesos/dynamic/namespace_resources/clusters/" ++ h.ClusterID ++
              "/namespaces/" ++ ep.ObjectMeta.NameSpace ++ "/" ++ h.dataType ++ "/" ++
              ep.ObjectMeta.Name) = none →
          st.run o.calls = some st)) ∧
    (∀ (h : ExpServiceHandler) (svc : ExportService),
      ∃ o, h.Delete (Value.exportService (some svc)) = some o ∧
        o.calls = [Call.DeleteDCNode
            ("/bcsstorage/v1/mesos/watch/clusters/" ++ h.ClusterID ++ "/namespaces/" ++
              svc.Namespace ++ "/" ++ h.dataType ++ "/" ++ svc.ServiceName) "DELETE",
          Call.DeleteDCNode
            ("/bcsstorage/v1/mesos/dynamic/namespace_resources/clusters/" ++ h.ClusterID ++
              "/namespaces/" ++ svc.Namespace ++ "/" ++ h.dataType ++ "/" ++ svc.ServiceName)
            "DELETE"] ∧
        o.err = none ∧
        (st.nodes
            ("/bcsstorage/v1/mesos/watch/clusters/" ++ h.ClusterID ++ "/namespaces/" ++
              svc.Namespace ++ "/" ++ h.dataType ++ "/" ++ svc.ServiceName) = none →
          st.nodes
            ("/bcsstorage/v1/mesos/dynamic/namespace_resources/clusters/" ++ h.ClusterID ++
              "/namespaces/" ++ svc.Namespace ++ "/" ++ h.dataType ++ "/" ++ svc.ServiceName)
            = none →
          st.run o.calls = some st)) := by
  refine ⟨?_, ?_, ?_⟩
  · intro h app
    refine ⟨_, AppHandler_Delete_entity h app, rfl, rfl, ?_⟩
    intro hp
    simp only [Storage.run, Storage.apply]
    rw [Storage_DeleteNode_absent st _ hp]
  · intro h ep
    refine ⟨_, rfl, rfl, rfl, ?_⟩
    intro hp
    simp only [Storage.run, Storage.apply]
    rw [Storage_DeleteNode_absent st _ hp]
  · intro h svc
    refine ⟨_, rfl, rfl, rfl, ?_⟩
    intro hp1 hp2
    simp only [Storage.run, Storage.apply]
    rw [Storage_DeleteNode_absent st _ hp1, Storage_DeleteNode_absent st _ hp2]

theorem delete_tolerance_witness :
    (∃ o, (appHandlerWith okOper true).Delete
        (Value.application (some (appWith "ns" "app" 3))) = some o ∧ o.err = none ∧
      Storage.empty.run o.calls = some Storage.empty) ∧
    (∃ o, (expServiceHandlerWith (failingOper ⟨"connection refused"⟩)).Delete
        (Value.exportService (some (serviceWith "ns" "svc"))) = some o ∧ o.err = none ∧
      Storage.empty.run o.calls = some Storage.empty) :=
  ⟨((delete_tolerance Storage.empty).1 (appHandlerWith okOper true)
      (appWith "ns" "app" 3)).elim
      (fun o ho => ⟨o, ho.1, ho.2.2.1, ho.2.2.2 rfl⟩),
   ((delete_tolerance Storage.empty).2.2
      (expServiceHandlerWith (failingOper ⟨"connection refused"⟩))
      (serviceWith "ns" "svc")).elim
      (fun o ho => ⟨o, ho.1, ho.2.2.1, ho.2.2.2 rfl rfl⟩)⟩

/-- C25. `UpdateCredentials` requires a valid register token: for every
request, `SaveCredentials` is called only if the form passes validation, a
register token is stored for the cluster id, and the stored token equals the
form's `register_token` (and then it is called, with the form's values).  When
no token is stored or the tokens differ, the call writes one error response
and nothing else: the validation error when the form is invalid, otherwise the
client error `RTOKEN_NOT_FOUND`, respectively `INVALID_RTOKEN`; no call writes
to the credentials store or to the proxy handler store. -/
theorem UpdateCredentials_requires_token (env : CredentialsEnv) (form : UpdateCredentialsForm)
    (clusterId : String) :
    ((∃ a b c d e, Effect.SaveCredentials a b c d e ∈ UpdateCredentials env form clusterId) →
      env.validate form = none ∧
      ∃ token, env.GetRegisterToken clusterId = some token ∧
        token.Token = form.RegisterToken) ∧
    (env.validate form = none →
      (∃ token, env.GetRegisterToken clusterId = some token ∧
        token.Token = form.RegisterToken) →
      Effect.SaveCredentials clusterId form.ServerAddresses form.CaCertData form.UserToken ""
        ∈ UpdateCredentials env form clusterId) ∧
    (env.GetRegisterToken clusterId = none →
      (∀ e ∈ UpdateCredentials env form clusterId, e.changesStore = false) ∧
      UpdateCredentials env form clusterId =
        match env.validate form with
        | some err => [Effect.WriteValidationError err]
        | none => [Effect.WriteClientError "RTOKEN_NOT_FOUND"
            ("errcode: " ++ Itoa env.BcsErrApiBadRequest ++
              ", no valid register token found for cluster")]) ∧
    (∀ token, env.GetRegisterToken clusterId = some token →
      token.Token ≠ form.RegisterToken →
      (∀ e ∈ UpdateCredentials env form clusterId, e.changesStore = false) ∧
      UpdateCredentials env form clusterId =
        match env.validate form with
        | some err => [Effect.WriteValidationError err]
        | none => [Effect.WriteClientError "INVALID_RTOKEN"
            ("errcode: " ++ Itoa env.BcsErrApiBadRequest ++
              ", invalid register token given")]) := by
  refine ⟨?_, ?_, ?_, ?_⟩
  · rintro ⟨a, b, c, d, e, hmem⟩
    unfold UpdateCredentials at hmem
    rcases hv : env.validate form with _ | err
    · rcases ht : env.GetRegisterToken clusterId with _ | token
      · rw [hv, ht] at hmem
        simp at hmem
      · by_cases heq : token.Token = form.RegisterToken
        · exact ⟨rfl, token, rfl, heq⟩
        · rw [hv, ht] at hmem
          simp [heq] at hmem
    · rw [hv] at hmem
      simp at hmem
  · rintro hv ⟨token, ht, heq⟩
    unfold UpdateCredentials
    simp only [hv, ht, heq, ne_eq, not_true_eq_false, if_false]
    cases env.SaveCredentials clusterId form.ServerAddresses form.CaCertData form.UserToken ""
      <;> simp
  · intro ht
    have key : UpdateCredentials env form clusterId =
        match env.validate form with
        | some err => [Effect.WriteValidationError err]
        | none => [Effect.WriteClientError "RTOKEN_NOT_FOUND"
            ("errcode: " ++ Itoa env.BcsErrApiBadRequest ++
              ", no valid register token found for cluster")] := by
      unfold UpdateCredentials
      cases env.validate form with
      | none => simp only [ht]
      | some err => rfl
    refine ⟨?_, key⟩
    rw [key]
    cases env.validate form <;>
      · intro e he
        rw [List.mem_singleton.1 he]
        rfl
  · intro token ht hne
    have key : UpdateCredentials env form clusterId =
        match env.validate form with
        | some err => [Effect.WriteValidationError err]
        | none => [Effect.WriteClientError "INVALID_RTOKEN"
            ("errcode: " ++ Itoa env.BcsErrApiBadRequest ++
              ", invalid register token given")] := by
      unfold UpdateCredentials
      cases env.validate form with
      | none => simp only [ht, ne_eq, hne, not_false_eq_true, if_true]
      | some err => rfl
    refine ⟨?_, key⟩
    rw [key]
    cases env.validate form <;>
      · intro e he
        rw [List.mem_singleton.1 he]
        rfl

theorem UpdateCredentials_requires_token_witness :
    ((∀ e ∈ UpdateCredentials (credentialsEnvWith none none) (formWith "rtoken")
          "BCS-K8S-15001", e.changesStore = false) ∧
      UpdateCredentials (credentialsEnvWith none none) (formWith "rtoken") "BCS-K8S-15001" =
        [Effect.WriteClientError "RTOKEN_NOT_FOUND"
          "errcode: 1400, no valid register token found for cluster"]) ∧
    ((∀ e ∈ UpdateCredentials (credentialsEnvWith (some ⟨"other"⟩) (some ⟨"old", "old"⟩))
          (formWith "rtoken") "BCS-K8S-15001", e.changesStore = false) ∧
      UpdateCredentials (credentialsEnvWith (some ⟨"other"⟩) (some ⟨"old", "old"⟩))
          (formWith "rtoken") "BCS-K8S-15001" =
        [Effect.WriteClientError "INVALID_RTOKEN"
          "errcode: 1400, invalid register token given"]) ∧
    Effect.SaveCredentials "BCS-K8S-15001" "https://10.0.0.1:443" "cacert" "user-token" ""
      ∈ UpdateCredentials (credentialsEnvWith (some ⟨"rtoken"⟩) (some ⟨"old", "old"⟩))
          (formWith "rtoken") "BCS-K8S-15001" :=
  ⟨(UpdateCredentials_requires_token (credentialsEnvWith none none) (formWith "rtoken")
      "BCS-K8S-15001").2.2.1 rfl,
   (UpdateCredentials_requires_token (credentialsEnvWith (some ⟨"other"⟩) (some ⟨"old", "old"⟩))
      (formWith "rtoken") "BCS-K8S-15001").2.2.2 ⟨"other"⟩ rfl (by decide),
   (UpdateCredentials_requires_token (credentialsEnvWith (some ⟨"rtoken"⟩) (some ⟨"old", "old"⟩))
      (formWith "rtoken") "BCS-K8S-15001").2.1 (by decide) ⟨⟨"rtoken"⟩, rfl, rfl⟩⟩


/-- C29. `FormatConv` does not modify its input: for every application `app`,
the run of `FormatConv` statement by statement returns with every field of
`app` as it was; in particular `app.ObjectMeta.Name` keeps its value although
the returned status has `ObjectMeta.Name = app.ID`.  The status of the run is
the one `FormatConv` returns, and on the example application the two names
differ ("meta-name" in the input, "app" in the status). -/
theorem FormatConv_preserves_input :
    (∀ (h : AppHandler) (now : Time) (app : Application),
      ∃ s, h.FormatConv_steps now (some app) = some (s, none) ∧
        s.app = app ∧
        s.app.ObjectMeta.Name = app.ObjectMeta.Name ∧
        s.status.ObjectMeta.Name = app.ID ∧
        h.FormatConv now (some app) = some (s.status, none)) ∧
    (∀ (h : AppHandler) (now : Time),
      h.FormatConv_steps now none = none ∧ h.FormatConv now none = none) ∧
    (∃ s, (appHandlerWith okOper true).FormatConv_steps ⟨1500000000, 0⟩
        (some (appWith "ns" "app" 3)) = some (s, none) ∧
      s.app = appWith "ns" "app" 3 ∧
      s.app.ObjectMeta.Name = "meta-name" ∧ s.status.ObjectMeta.Name = "app") := by
  refine ⟨?_, ?_, ?_⟩
  · intro h now app
    exact ⟨_, rfl, rfl, rfl, rfl, rfl⟩
  · intro h now
    exact ⟨rfl, rfl⟩
  · exact ⟨_, rfl, rfl, rfl, rfl⟩

end BcsScheduler
